import Mathlib

/-!
Verification of the description-state synchronizer in
`src/accessibility/describe.js` (p5.js accessibility module).

The embedding models:
* JavaScript strings as `List Char`;
* the module-level `dummy` object as an association list from keys
  (`List Char`) to the values the source actually stores there (strings,
  `true`, the cached `document.body` reference), plus its two nested maps
  `fallbackElements` and `labelElements`;
* the document tree as a first-child / next-sibling forest, which keeps
  every traversal structurally recursive; `querySelector('#id')` and
  `document.getElementById(id)` are first-match preorder searches;
* thrown exceptions (`Error` for the reserved names, `TypeError` for
  member access on `null`/`undefined`) as a result type `DRes` whose
  error constructor carries the state at the moment of the throw, since
  a JavaScript exception does not roll back earlier mutations.
-/

set_option maxRecDepth 8000

namespace P5

/-- Character list of a string literal; JavaScript strings are modelled as
lists of characters. -/
def cstr (s : String) : List Char := s.data

/-- First value stored under a key in an association list
(JavaScript object property read: `undefined` when absent). -/
def getKey {α β : Type} [DecidableEq α] : List (α × β) → α → Option β
  | [], _ => none
  | (k, v) :: rest, a => if k = a then some v else getKey rest a

/-- JavaScript object property write: replaces the value in place when the
key is present, otherwise adds the binding. -/
def setKey {α β : Type} [DecidableEq α] : List (α × β) → α → β → List (α × β)
  | [], a, b => [(a, b)]
  | (k, v) :: rest, a, b => if k = a then (a, b) :: rest else (k, v) :: setKey rest a b

/-- Values the source stores directly on the `dummy` object: description
strings, the boolean `true` structural flags, and the cached reference to
`document.body` written by `_populateDummyDOM`. -/
inductive DummyVal : Type where
  | vStr (s : List Char)
  | vTrue
  | vDom
deriving DecidableEq

/-- JavaScript truthiness of a property read from `dummy`: `undefined` and
the empty string are falsy; `true`, a non-empty string and the body
reference are truthy. -/
def truthy : Option DummyVal → Bool
  | none => false
  | some (.vStr s) => !s.isEmpty
  | some .vTrue => true
  | some .vDom => true

/-- Truthiness of an entry of `dummy.fallbackElements` / `dummy.labelElements`
(those maps only ever hold strings). -/
def truthyStr : Option (List Char) → Bool
  | none => false
  | some s => !s.isEmpty

/-- Kinds of document nodes this module creates or starts from. -/
inductive NKind : Type where
  | canvas
  | regionDiv
  | labelDiv
  | paragraph
  | tableN
  | captionN
  | rowN
deriving DecidableEq

/-- Data of a single document node: its `id` attribute, its element kind,
and its text content (what an `innerHTML = text` assignment sets). -/
structure NodeData where
  id : List Char
  kind : NKind
  content : List Char
deriving DecidableEq

/-- Document forest in first-child / next-sibling form: `node d c n` is an
element with data `d`, first child forest `c`, and following siblings `n`.
Document (preorder) traversal order is: the node, then `c`, then `n`. -/
inductive Dom : Type where
  | nil : Dom
  | node (d : NodeData) (child : Dom) (sib : Dom) : Dom
deriving DecidableEq

/-- Concatenation of two sibling chains (forests). -/
def graft : Dom → Dom → Dom
  | .nil, t => t
  | .node d c n, t => .node d c (graft n t)

/-- All node data of a forest in document (preorder) order. -/
def flat : Dom → List NodeData
  | .nil => []
  | .node d c n => d :: (flat c ++ flat n)

/-- Whether some node with the given id exists (`document.getElementById(i)`
/ `querySelector('#' + i)` returns non-null). -/
def idExists (i : List Char) : Dom → Bool
  | .nil => false
  | .node d c n => d.id == i || idExists i c || idExists i n

/-- `querySelector('#' + i).innerHTML = ...` : on the first node (in document
order) whose id is `i`, replace the text content with `txt` and the child
forest with `kids`.  Returns `none` when no such node exists (the source
would then throw a `TypeError`). -/
def setInnerHTML (i txt : List Char) (kids : Dom) : Dom → Option Dom
  | .nil => none
  | .node d c n =>
    if d.id = i then some (.node ⟨d.id, d.kind, txt⟩ kids n)
    else
      match setInnerHTML i txt kids c with
      | some c' => some (.node d c' n)
      | none =>
        match setInnerHTML i txt kids n with
        | some n' => some (.node d c n')
        | none => none

/-- `querySelector('#' + i).insertAdjacentHTML(pos, ...)`: insert the forest
`new_` as siblings immediately before (`before = true`, `'beforebegin'`) or
after (`before = false`, `'afterend'`) the first node whose id is `i`. -/
def insertAdj (i : List Char) (before : Bool) (new_ : Dom) : Dom → Option Dom
  | .nil => none
  | .node d c n =>
    if d.id = i then
      some (if before then graft new_ (.node d c n) else .node d c (graft new_ n))
    else
      match insertAdj i before new_ c with
      | some c' => some (.node d c' n)
      | none =>
        match insertAdj i before new_ n with
        | some n' => some (.node d c n')
        | none => none

/-- `querySelector('#' + i).appendChild(x)`: append `x` at the end of the
child list of the first node whose id is `i`. -/
def appendChild (i : List Char) (x : Dom) : Dom → Option Dom
  | .nil => none
  | .node d c n =>
    if d.id = i then some (.node d (graft c x) n)
    else
      match appendChild i x c with
      | some c' => some (.node d c' n)
      | none =>
        match appendChild i x n with
        | some n' => some (.node d c n')
        | none => none

/-! Id suffix constants of the source (describe.js lines 9-16). -/

def descContainer : List Char := cstr "_Description"
def fallbackDescId : List Char := cstr "_fallbackDesc"
def fallbackTableId : List Char := cstr "_fallbackTable"
def fallbackTableElId : List Char := cstr "_fte_"
def labelContainer : List Char := cstr "_Label"
def labelDescId : List Char := cstr "_labelDesc"
def labelTableId : List Char := cstr "_labelTable"
def labelTableElId : List Char := cstr "_lte_"

/-- Key under which `describe` stores the published fallback text:
`dummy[cnvId + 'fallbackDesc']`. -/
def fbTextKey (c : List Char) : List Char := c ++ cstr "fallbackDesc"

/-- Key under which `describe` stores the published label text:
`dummy[cnvId + 'labelDesc']`. -/
def lblTextKey (c : List Char) : List Char := c ++ cstr "labelDesc"

/-- Key of the never-assigned update flag: `dummy[cnvId + 'updateFallbackDesc']`. -/
def updKey (c : List Char) : List Char := c ++ cstr "updateFallbackDesc"

/-- Key of the cached body reference: `dummy[cnvId + 'DOM']`. -/
def domKey (c : List Char) : List Char := c ++ cstr "DOM"

/-! Normalizers (describe.js lines 175-185, 343-370). -/

/-- JavaScript `s.endsWith(ch)` for a one-character string `ch`. -/
def endsWithChar (s : List Char) (ch : Char) : Bool := s.getLast? == some ch

/-- Model of `_descriptionText` (lines 175-185): `none` models the
`throw new Error('description should not be LABEL or FALLBACK')`; otherwise
a `'.'` is appended unless the text already ends in `'.'`, `'?'` or `'!'`. -/
def _descriptionText (text : List Char) : Option (List Char) :=
  if text = cstr "label" ∨ text = cstr "fallback" then none
  else if !endsWithChar text '.' && !endsWithChar text '?' && !endsWithChar text '!' then
    some (text ++ ['.'])
  else some text

/-- Model of `_nameForID` (lines 343-354): strips one trailing `'.'`, `';'`,
`','` or `':'` (the `name.replace(/.$/, '')` drops the last character). -/
def _nameForID (name : List Char) : List Char :=
  if endsWithChar name '.' || endsWithChar name ';' || endsWithChar name ',' ||
      endsWithChar name ':' then
    name.dropLast
  else name

/-- Model of `_elementName` (lines 356-370): `none` models
`throw new Error('element name should not be LABEL or FALLBACK')`; a trailing
`'.'`, `';'` or `','` is replaced by `':'` (`name.replace(/.$/, ':')`),
otherwise `':'` is appended unless already present. -/
def _elementName (name : List Char) : Option (List Char) :=
  if name = cstr "label" ∨ name = cstr "fallback" then none
  else if endsWithChar name '.' || endsWithChar name ';' || endsWithChar name ',' then
    some (name.dropLast ++ [':'])
  else if !endsWithChar name ':' then some (name ++ [':'])
  else some name

/-! State, arguments and results. -/

/-- The whole mutable state: the module-level `dummy` object (its directly
keyed properties, and its two nested element maps) together with the
document body forest. -/
structure PState where
  store : List (List Char × DummyVal)
  fallbackElements : List (List Char × List Char)
  labelElements : List (List Char × List Char)
  body : Dom
deriving DecidableEq

/-- Errors the source can throw: the two reserved-name `Error`s (with their
distinct messages) and the `TypeError` raised by member access on a `null`
query result or an unusable `dummy[cnvId + 'DOM']` value. -/
inductive JSErr : Type where
  | reservedDescriptionText
  | reservedElementName
  | typeError
deriving DecidableEq

/-- Result of a call: normal return, or a thrown error together with the
state at the moment of the throw (mutations already performed remain). -/
inductive DRes : Type where
  | ok (s : PState) : DRes
  | err (e : JSErr) (s : PState) : DRes
deriving DecidableEq

/-- The state in which a call left the world, whether it returned or threw. -/
def resState : DRes → PState
  | .ok s => s
  | .err _ s => s

/-- A JavaScript argument that is either a string or some non-string value
(the `typeof x !== 'string'` guards only distinguish these two cases). -/
inductive JsArg : Type where
  | str (s : List Char)
  | nonString
deriving DecidableEq

/-- The optional `display` argument; the source only ever compares it with
`this.LABEL`, so the model keeps the two documented constants and the
omitted case. -/
inductive Display : Type where
  | LABEL
  | FALLBACK
  | undef
deriving DecidableEq

/-- Whether `dummy[cnvId + 'DOM']` currently holds the body reference; any
other value (or absence) makes `.querySelector` access throw a `TypeError`. -/
def domOk (c : List Char) (s : PState) : Bool :=
  getKey s.store (domKey c) == some DummyVal.vDom

/-- Model of `_populateDummyDOM` (lines 117-119): caches `document.body`. -/
def _populateDummyDOM (c : List Char) (s : PState) : PState :=
  { s with store := setKey s.store (domKey c) .vDom }

/-- Model of `p5.prototype._clearDummy` (lines 113-115): the global reset;
the document tree itself is left alone. -/
def _clearDummy (s : PState) : PState :=
  { store := [], fallbackElements := [], labelElements := [], body := s.body }

/-! Document fragments the source inserts (its template literals). -/

/-- `<p id="i"></p>` -/
def pNode (i : List Char) : Dom := .node ⟨i, .paragraph, []⟩ .nil .nil

/-- `<caption>Canvas elements and their descriptions</caption>` -/
def captionNode : Dom :=
  .node ⟨[], .captionN, cstr "Canvas elements and their descriptions"⟩ .nil .nil

/-- `<table id="cnvId_fallbackTable"><caption>...</caption></table>` -/
def fallbackTableNode (c : List Char) : Dom :=
  .node ⟨c ++ fallbackTableId, .tableN, []⟩ captionNode .nil

/-- `<table id="cnvId_labelTable"></table>` -/
def labelTableNode (c : List Char) : Dom :=
  .node ⟨c ++ labelTableId, .tableN, []⟩ .nil .nil

/-- `<div id="cnvId_Description" role="region" aria-label="Canvas Description">...</div>` -/
def descRegionNode (c : List Char) (inner : Dom) : Dom :=
  .node ⟨c ++ descContainer, .regionDiv, []⟩ inner .nil

/-- `<div id="cnvId_Label" class="p5Label">...</div>` -/
def labelDivNode (c : List Char) (inner : Dom) : Dom :=
  .node ⟨c ++ labelContainer, .labelDiv, []⟩ inner .nil

/-- `document.createElement('tr')` with its id set. -/
def trNode (i : List Char) : Dom := .node ⟨i, .rowN, []⟩ .nil .nil

/-- The row markup `<th scope="row">${elementName}</th><td>${text}</td>`
(line 241); the source only ever stores and compares it as a string. -/
def rowInner (elementName text : List Char) : List Char :=
  cstr "<th scope=\x22row\x22>" ++ elementName ++ cstr "</th><td>" ++ text ++ cstr "</td>"

/-! The four HTML helpers (lines 124-173, 277-341), each split into its
structure-creation stage and its content stage, composed exactly as the
source sequences them. -/

/-- Creation stage of `_describeLabelHTML` (lines 125-140). -/
def labelPCreate (c : List Char) (s : PState) : DRes :=
  if !truthy (getKey s.store (c ++ labelContainer)) then
    if domOk c s then
      match insertAdj c false (labelDivNode c (pNode (c ++ labelDescId))) s.body with
      | some b' =>
        .ok { s with
              body := b'
              store := setKey (setKey s.store (c ++ labelContainer) .vTrue)
                (c ++ labelDescId) .vTrue }
      | none => .err .typeError s
    else .err .typeError s
  else if !truthy (getKey s.store (c ++ labelDescId)) &&
      truthy (getKey s.store (c ++ labelTableId)) then
    if domOk c s then
      match insertAdj (c ++ labelTableId) true (pNode (c ++ labelDescId)) s.body with
      | some b' =>
        .ok { s with
              body := b'
              store := setKey s.store (c ++ labelDescId) .vTrue }
      | none => .err .typeError s
    else .err .typeError s
  else .ok s

/-- Content stage of `_describeLabelHTML` (lines 141-144): the unguarded
`querySelector('#' + cnvId + labelDescId).innerHTML = text`. -/
def labelPContent (c text : List Char) (s : PState) : DRes :=
  if domOk c s then
    match setInnerHTML (c ++ labelDescId) text .nil s.body with
    | some b' =>
      .ok { s with
            body := b'
            store := setKey s.store (lblTextKey c) (.vStr text) }
    | none => .err .typeError s
  else .err .typeError s

/-- Model of `_describeLabelHTML` (lines 124-145). -/
def _describeLabelHTML (c text : List Char) (s : PState) : DRes :=
  match labelPCreate c s with
  | .err e s' => .err e s'
  | .ok s1 => labelPContent c text s1

/-- Creation stage of `_describeFallbackHTML` (lines 148-164).  Note the
second branch tests only the table flag, not the paragraph flag (unlike the
label twin `labelPCreate`). -/
def fallbackPCreate (c : List Char) (s : PState) : DRes :=
  if !truthy (getKey s.store (c ++ descContainer)) then
    if domOk c s then
      match setInnerHTML c [] (descRegionNode c (pNode (c ++ fallbackDescId))) s.body with
      | some b' =>
        .ok { s with
              body := b'
              store := setKey (setKey s.store (c ++ descContainer) .vTrue)
                (c ++ fallbackDescId) .vTrue }
      | none => .err .typeError s
    else .err .typeError s
  else if truthy (getKey s.store (c ++ fallbackTableId)) then
    if domOk c s then
      match insertAdj (c ++ fallbackTableId) true (pNode (c ++ fallbackDescId)) s.body with
      | some b' =>
        .ok { s with
              body := b'
              store := setKey s.store (c ++ fallbackDescId) .vTrue }
      | none => .err .typeError s
    else .err .typeError s
  else .ok s

/-- Content stage of `_describeFallbackHTML` (lines 165-172): guarded by the
`querySelector` null check; the line 170 comparison
`dummy[cnvId + 'updateFallbackDesc'] === true;` assigns nothing. -/
def fallbackPContent (c text : List Char) (s : PState) : DRes :=
  if domOk c s then
    match setInnerHTML (c ++ fallbackDescId) text .nil s.body with
    | some b' =>
      .ok { s with
            body := b'
            store := setKey s.store (fbTextKey c) (.vStr text) }
    | none => .ok s
  else .err .typeError s

/-- Model of `_describeFallbackHTML` (lines 147-173). -/
def _describeFallbackHTML (c text : List Char) (s : PState) : DRes :=
  match fallbackPCreate c s with
  | .err e s' => .err e s'
  | .ok s1 => fallbackPContent c text s1

/-- Creation stage of `_descElementLabelHTML` (lines 278-297); the else-if
condition at line 289 itself reads `dummy[cnvId + 'DOM']`. -/
def labelTCreate (c : List Char) (s : PState) : DRes :=
  if !truthy (getKey s.store (c ++ labelContainer)) then
    if domOk c s then
      match insertAdj c false (labelDivNode c (labelTableNode c)) s.body with
      | some b' =>
        .ok { s with
              body := b'
              store := setKey (setKey s.store (c ++ labelContainer) .vTrue)
                (c ++ labelTableId) .vTrue }
      | none => .err .typeError s
    else .err .typeError s
  else
    if domOk c s then
      match insertAdj (c ++ labelDescId) false (labelTableNode c) s.body with
      | some b' =>
        .ok { s with
              body := b'
              store := setKey s.store (c ++ labelTableId) .vTrue }
      | none => .ok s
    else .err .typeError s

/-- Row stage of `_descElementLabelHTML` (lines 298-308): append a fresh row
and fill it. -/
def labelTRow (c name inner : List Char) (s : PState) : DRes :=
  if truthyStr (getKey s.labelElements (c ++ name)) then .ok s
  else if truthy (getKey s.store (c ++ labelTableId)) then
    if domOk c s then
      match appendChild (c ++ labelTableId) (trNode (c ++ labelTableElId ++ name)) s.body with
      | some b2 =>
        match setInnerHTML (c ++ labelTableElId ++ name) inner .nil b2 with
        | some b3 =>
          .ok { s with
                body := b3
                labelElements := setKey s.labelElements (c ++ name) inner }
        | none =>
          .err .typeError
            { s with
              body := b2
              labelElements := setKey s.labelElements (c ++ name) inner }
      | none => .err .typeError s
    else .err .typeError s
  else .ok s

/-- Model of `_descElementLabelHTML` (lines 277-309). -/
def _descElementLabelHTML (c name inner : List Char) (s : PState) : DRes :=
  match labelTCreate c s with
  | .err e s' => .err e s'
  | .ok s1 => labelTRow c name inner s1

/-- Creation stage of `_descElementFallbackHTML` (lines 312-329); the
else-if condition at line 320 uses `document.getElementById`, which does not
read `dummy[cnvId + 'DOM']`, so it is checked before `domOk`. -/
def fallbackTCreate (c : List Char) (s : PState) : DRes :=
  if !truthy (getKey s.store (c ++ descContainer)) then
    if domOk c s then
      match setInnerHTML c [] (descRegionNode c (fallbackTableNode c)) s.body with
      | some b' =>
        .ok { s with
              body := b'
              store := setKey (setKey s.store (c ++ descContainer) .vTrue)
                (c ++ fallbackTableId) .vTrue }
      | none => .err .typeError s
    else .err .typeError s
  else if idExists (c ++ fallbackDescId) s.body then
    if domOk c s then
      match insertAdj (c ++ fallbackDescId) false (fallbackTableNode c) s.body with
      | some b' =>
        .ok { s with
              body := b'
              store := setKey s.store (c ++ fallbackTableId) .vTrue }
      | none => .err .typeError s
    else .err .typeError s
  else .ok s

/-- Row stage of `_descElementFallbackHTML` (lines 330-340). -/
def fallbackTRow (c name inner : List Char) (s : PState) : DRes :=
  if truthyStr (getKey s.fallbackElements (c ++ name)) then .ok s
  else if truthy (getKey s.store (c ++ fallbackTableId)) then
    if domOk c s then
      match appendChild (c ++ fallbackTableId) (trNode (c ++ fallbackTableElId ++ name))
          s.body with
      | some b2 =>
        match setInnerHTML (c ++ fallbackTableElId ++ name) inner .nil b2 with
        | some b3 =>
          .ok { s with
                body := b3
                fallbackElements := setKey s.fallbackElements (c ++ name) inner }
        | none =>
          .err .typeError
            { s with
              body := b2
              fallbackElements := setKey s.fallbackElements (c ++ name) inner }
      | none => .err .typeError s
    else .err .typeError s
  else .ok s

/-- Model of `_descElementFallbackHTML` (lines 311-341). -/
def _descElementFallbackHTML (c name inner : List Char) (s : PState) : DRes :=
  match fallbackTCreate c s with
  | .err e s' => .err e s'
  | .ok s1 => fallbackTRow c name inner s1

/-- Fallback section of `describe` (lines 85-96): compare with the stored
text; the in-place update branch is guarded by the never-written
`updateFallbackDesc` flag. -/
def describeFallbackSection (c text : List Char) (s : PState) : DRes :=
  if getKey s.store (fbTextKey c) ≠ some (.vStr text) then
    if truthy (getKey s.store (updKey c)) then
      if domOk c s then
        match setInnerHTML (c ++ fallbackDescId) text .nil s.body with
        | some b' =>
          .ok { s with
                body := b'
                store := setKey s.store (fbTextKey c) (.vStr text) }
        | none => .err .typeError s
      else .err .typeError s
    else _describeFallbackHTML c text s
  else .ok s

/-- Label section of `describe` (lines 100-110), entered only when
`display === this.LABEL`. -/
def describeLabelSection (c text : List Char) (s : PState) : DRes :=
  if getKey s.store (lblTextKey c) ≠ some (.vStr text) then
    if truthy (getKey s.store (c ++ labelDescId)) then
      if domOk c s then
        match setInnerHTML (c ++ labelDescId) text .nil s.body with
        | some b' =>
          .ok { s with
                body := b'
                store := setKey s.store (lblTextKey c) (.vStr text) }
        | none => .err .typeError s
      else .err .typeError s
    else _describeLabelHTML c text s
  else .ok s

/-- Line 81-83 of `describe`: repopulate the cached body reference when
either stored text is falsy. -/
def describePopulate (c : List Char) (s : PState) : PState :=
  if !truthy (getKey s.store (fbTextKey c)) ||
      !truthy (getKey s.store (lblTextKey c)) then
    _populateDummyDOM c s
  else s

/-- Body of `describe` after normalization (lines 81-110). -/
def describeCore (c text : List Char) (display : Display) (s : PState) : DRes :=
  match describeFallbackSection c text (describePopulate c s) with
  | .err e s' => .err e s'
  | .ok s2 =>
    if display = Display.LABEL then describeLabelSection c text s2 else .ok s2

/-- Model of `p5.prototype.describe` (lines 74-111); `c` is `this.canvas.id`.
`p5._validateParameters` is an external collaborator with no effect on this
state. -/
def describe (c : List Char) (textArg : JsArg) (display : Display) (s : PState) : DRes :=
  match textArg with
  | .nonString => .ok s
  | .str text0 =>
    match _descriptionText text0 with
    | none => .err .reservedDescriptionText s
    | some text => describeCore c text display s

/-- Fallback-region section of `describeElement` (lines 250-259). -/
def elemFallbackSection (c name inner : List Char) (s : PState) : DRes :=
  if getKey s.fallbackElements (c ++ name) ≠ some inner then
    if !truthyStr (getKey s.fallbackElements (c ++ name)) then
      _descElementFallbackHTML c name inner s
    else
      if domOk c { s with fallbackElements := setKey s.fallbackElements (c ++ name) inner } then
        match setInnerHTML (c ++ fallbackTableElId ++ name) inner .nil s.body with
        | some bb =>
          .ok { s with
                body := bb
                fallbackElements := setKey s.fallbackElements (c ++ name) inner }
        | none =>
          .err .typeError
            { s with fallbackElements := setKey s.fallbackElements (c ++ name) inner }
      else
        .err .typeError
          { s with fallbackElements := setKey s.fallbackElements (c ++ name) inner }
  else .ok s

/-- Label-region section of `describeElement` (lines 263-272), entered only
when `display === this.LABEL`. -/
def elemLabelSection (c name inner : List Char) (s : PState) : DRes :=
  if getKey s.labelElements (c ++ name) ≠ some inner then
    if !truthyStr (getKey s.labelElements (c ++ name)) then
      _descElementLabelHTML c name inner s
    else
      if domOk c { s with labelElements := setKey s.labelElements (c ++ name) inner } then
        match setInnerHTML (c ++ labelTableElId ++ name) inner .nil s.body with
        | some bb =>
          .ok { s with
                body := bb
                labelElements := setKey s.labelElements (c ++ name) inner }
        | none =>
          .err .typeError
            { s with labelElements := setKey s.labelElements (c ++ name) inner }
      else
        .err .typeError
          { s with labelElements := setKey s.labelElements (c ++ name) inner }
  else .ok s

/-- Lines 243-248 of `describeElement`: repopulate the cached body
reference when either element-map entry is falsy. -/
def elemPopulate (c name : List Char) (s : PState) : PState :=
  if !truthyStr (getKey s.fallbackElements (c ++ name)) ||
      !truthyStr (getKey s.labelElements (c ++ name)) then
    _populateDummyDOM c s
  else s

/-- Body of `describeElement` after normalization (lines 240-272). -/
def elemCore (c name inner : List Char) (display : Display) (s : PState) : DRes :=
  match elemFallbackSection c name inner (elemPopulate c name s) with
  | .err e s' => .err e s'
  | .ok s2 =>
    if display = Display.LABEL then elemLabelSection c name inner s2 else .ok s2

/-- Model of `p5.prototype.describeElement` (lines 232-273). -/
def describeElement (c : List Char) (nameArg textArg : JsArg) (display : Display)
    (s : PState) : DRes :=
  match nameArg, textArg with
  | .str name0, .str text0 =>
    match _descriptionText text0 with
    | none => .err .reservedDescriptionText s
    | some text =>
      match _elementName name0 with
      | none => .err .reservedElementName s
      | some elementName =>
        elemCore c (_nameForID name0) (rowInner elementName text) display s
  | _, _ => .ok s

/-- A host-created canvas element with the given id. -/
def canvasNode (i : List Char) : Dom := .node ⟨i, .canvas, []⟩ .nil .nil

/-- Body holding the host-created canvases, in order. -/
def initBody : List (List Char) → Dom
  | [] => .nil
  | i :: rest => .node ⟨i, .canvas, []⟩ .nil (initBody rest)

/-- Fresh module state over a body of host-created canvases: the source
initializes `dummy` to `{ fallbackElements: {}, labelElements: {} }`. -/
def initState (ids : List (List Char)) : PState :=
  { store := [], fallbackElements := [], labelElements := [], body := initBody ids }

/-- `sepUnder P Q t` holds when every node of `t` whose id satisfies `P` has
no node satisfying `Q` anywhere below it (its child forest is `Q`-free). -/
def sepUnder (P Q : List Char → Bool) : Dom → Bool
  | .nil => true
  | .node d c n =>
    (!P d.id || (flat c).all (fun m => !Q m.id)) && sepUnder P Q c && sepUnder P Q n

/-- Ids belonging to the visible-label region of surface `c`: its label
container, label paragraph, label table and label rows. -/
def labelRegionId (c : List Char) (i : List Char) : Bool :=
  i == c ++ labelContainer || i == c ++ labelDescId || i == c ++ labelTableId ||
    (c ++ labelTableElId).isPrefixOf i

/-- Ids whose subtree the fallback path of surface `c` may rewrite via
`innerHTML`: the canvas, the fallback paragraph and the fallback rows. -/
def fallbackWipeId (c : List Char) (i : List Char) : Bool :=
  i == c || i == c ++ fallbackDescId || (c ++ fallbackTableElId).isPrefixOf i

/-- Ids belonging to surface `b` under the concatenated-id scheme. -/
def surfacePrefixed (b i : List Char) : Bool := b.isPrefixOf i

/-- States reachable from some fresh start by any sequence of `describe`,
`describeElement` and `_clearDummy` calls (including calls that threw:
mutations before a throw persist). -/
inductive Reach : PState → Prop where
  | start (body : Dom) : Reach ⟨[], [], [], body⟩
  | describeStep {s : PState} (c : List Char) (t : JsArg) (d : Display) :
      Reach s → Reach (resState (describe c t d s))
  | elementStep {s : PState} (c : List Char) (n t : JsArg) (d : Display) :
      Reach s → Reach (resState (describeElement c n t d s))
  | resetStep {s : PState} : Reach s → Reach (_clearDummy s)

/-- Variant of `describeFallbackSection` with the dead in-place branch (the
one guarded by the never-assigned `updateFallbackDesc` flag) removed: every
text change goes through `_describeFallbackHTML`. -/
def describeFallbackSectionAlways (c text : List Char) (s : PState) : DRes :=
  if getKey s.store (fbTextKey c) ≠ some (.vStr text) then
    _describeFallbackHTML c text s
  else .ok s

/-- `describe` rebuilt on `describeFallbackSectionAlways`; used to state that
the in-place fallback update branch is dead code in reachable states. -/
def describeNoUpd (c : List Char) (textArg : JsArg) (display : Display) (s : PState) : DRes :=
  match textArg with
  | .nonString => .ok s
  | .str text0 =>
    match _descriptionText text0 with
    | none => .err .reservedDescriptionText s
    | some text =>
      match describeFallbackSectionAlways c text (describePopulate c s) with
      | .err e s' => .err e s'
      | .ok s2 =>
        if display = Display.LABEL then describeLabelSection c text s2 else .ok s2

/-! Concrete runs used by the C1 and C4 analyses. -/

/-- Number of paragraph nodes with the given id in a forest. -/
def countParas (i : List Char) (t : Dom) : Nat :=
  ((flat t).filter (fun n => n.id == i && n.kind == NKind.paragraph)).length

def c1s0 : PState := initState [cstr "c"]
def c1s1 : PState := resState (describe (cstr "c") (.str (cstr "a")) .FALLBACK c1s0)
def c1s2 : PState :=
  resState (describeElement (cstr "c") (.str (cstr "E")) (.str (cstr "x")) .FALLBACK c1s1)
def c1s3 : PState := resState (describe (cstr "c") (.str (cstr "b")) .FALLBACK c1s2)


/-! Basic facts about the normalizers. -/

theorem getLast?_append_singleton (l : List Char) (a : Char) :
    (l ++ [a]).getLast? = some a := by
  simp [List.getLast?_concat]

theorem descriptionText_isSome (t : List Char) (h1 : t ≠ cstr "label")
    (h2 : t ≠ cstr "fallback") : (_descriptionText t).isSome = true := by
  unfold _descriptionText
  rw [if_neg (by simp [h1, h2])]
  split <;> rfl

/-- C7: for non-reserved text, `_descriptionText` returns the input unchanged
when it already ends with `'.'`, `'!'` or `'?'`, and otherwise returns the
input with exactly one `'.'` appended; consequently every result ends in
`'.'`, `'!'` or `'?'`; in particular `"ok" ↦ "ok."` and `"ok!" ↦ "ok!"`. -/
theorem c7_descriptionText_normalization (t : List Char)
    (h1 : t ≠ cstr "label") (h2 : t ≠ cstr "fallback") :
    ((endsWithChar t '.' || endsWithChar t '!' || endsWithChar t '?') = true →
      _descriptionText t = some t)
    ∧ ((endsWithChar t '.' || endsWithChar t '!' || endsWithChar t '?') = false →
      _descriptionText t = some (t ++ ['.']))
    ∧ (∀ r, _descriptionText t = some r →
      (endsWithChar r '.' || endsWithChar r '!' || endsWithChar r '?') = true)
    ∧ _descriptionText (cstr "ok") = some (cstr "ok.")
    ∧ _descriptionText (cstr "ok!") = some (cstr "ok!") := by
  have hres : _descriptionText t =
      if !endsWithChar t '.' && !endsWithChar t '?' && !endsWithChar t '!' then
        some (t ++ ['.'])
      else some t := by
    unfold _descriptionText
    rw [if_neg (by simp [h1, h2])]
  refine ⟨?_, ?_, ?_, by decide, by decide⟩
  · intro h
    rw [hres, if_neg ?_]
    cases hp : endsWithChar t '.' <;> cases hq : endsWithChar t '?' <;>
      cases hr : endsWithChar t '!' <;> simp_all
  · intro h
    rw [hres, if_pos ?_]
    cases hp : endsWithChar t '.' <;> cases hq : endsWithChar t '?' <;>
      cases hr : endsWithChar t '!' <;> simp_all
  · intro r hr
    rw [hres] at hr
    by_cases hc : (!endsWithChar t '.' && !endsWithChar t '?' && !endsWithChar t '!') = true
    · rw [if_pos hc] at hr
      cases hr
      simp [endsWithChar, getLast?_append_singleton]
    · rw [if_neg hc] at hr
      cases hr
      cases hp : endsWithChar t '.' <;> cases hq : endsWithChar t '?' <;>
        cases hrr : endsWithChar t '!' <;> simp_all

/-- C7 witness at `t = "ok"`. -/
theorem c7_descriptionText_normalization_witness :
    (cstr "ok" ≠ cstr "label")
    ∧ (((endsWithChar (cstr "ok") '.' || endsWithChar (cstr "ok") '!' ||
        endsWithChar (cstr "ok") '?') = true → _descriptionText (cstr "ok") = some (cstr "ok"))
      ∧ ((endsWithChar (cstr "ok") '.' || endsWithChar (cstr "ok") '!' ||
        endsWithChar (cstr "ok") '?') = false →
        _descriptionText (cstr "ok") = some (cstr "ok" ++ ['.']))
      ∧ (∀ r, _descriptionText (cstr "ok") = some r →
        (endsWithChar r '.' || endsWithChar r '!' || endsWithChar r '?') = true)
      ∧ _descriptionText (cstr "ok") = some (cstr "ok.")
      ∧ _descriptionText (cstr "ok!") = some (cstr "ok!")) :=
  ⟨by decide, c7_descriptionText_normalization (cstr "ok") (by decide) (by decide)⟩

/-- C8: `_elementName` replaces a single trailing `'.'`, `';'` or `','` with
`':'`, otherwise appends `':'` unless the name already ends with `':'`;
`_nameForID` strips exactly one trailing `'.'`, `';'`, `','` or `':'` if
present and makes no other change; hence `"Circle,"` and `"Circle."` both
display as `"Circle:"` and share the key `"Circle"`. -/
theorem c8_elementName_nameForID (n : List Char)
    (h1 : n ≠ cstr "label") (h2 : n ≠ cstr "fallback") :
    ((endsWithChar n '.' || endsWithChar n ';' || endsWithChar n ',') = true →
      _elementName n = some (n.dropLast ++ [':']))
    ∧ ((endsWithChar n '.' || endsWithChar n ';' || endsWithChar n ',') = false →
        endsWithChar n ':' = false → _elementName n = some (n ++ [':']))
    ∧ ((endsWithChar n '.' || endsWithChar n ';' || endsWithChar n ',') = false →
        endsWithChar n ':' = true → _elementName n = some n)
    ∧ ((endsWithChar n '.' || endsWithChar n ';' || endsWithChar n ',' ||
        endsWithChar n ':') = true → _nameForID n = n.dropLast)
    ∧ ((endsWithChar n '.' || endsWithChar n ';' || endsWithChar n ',' ||
        endsWithChar n ':') = false → _nameForID n = n)
    ∧ _elementName (cstr "Circle,") = some (cstr "Circle:")
    ∧ _elementName (cstr "Circle.") = some (cstr "Circle:")
    ∧ _nameForID (cstr "Circle,") = cstr "Circle"
    ∧ _nameForID (cstr "Circle.") = cstr "Circle" := by
  have hres : _elementName n =
      if endsWithChar n '.' || endsWithChar n ';' || endsWithChar n ',' then
        some (n.dropLast ++ [':'])
      else if !endsWithChar n ':' then some (n ++ [':'])
      else some n := by
    unfold _elementName
    rw [if_neg (by simp [h1, h2])]
  refine ⟨?_, ?_, ?_, ?_, ?_, by decide, by decide, by decide, by decide⟩
  · intro h
    rw [hres, if_pos h]
  · intro h h'
    rw [hres, if_neg (by simp [h]), if_pos (by simp [h'])]
  · intro h h'
    rw [hres, if_neg (by simp [h]), if_neg (by simp [h'])]
  · intro h
    unfold _nameForID
    rw [if_pos ?_]
    cases hp : endsWithChar n '.' <;> cases hq : endsWithChar n ';' <;>
      cases hr : endsWithChar n ',' <;> cases hs : endsWithChar n ':' <;> simp_all
  · intro h
    unfold _nameForID
    rw [if_neg ?_]
    cases hp : endsWithChar n '.' <;> cases hq : endsWithChar n ';' <;>
      cases hr : endsWithChar n ',' <;> cases hs : endsWithChar n ':' <;> simp_all

/-- C8 witness at `n = "Circle,"`. -/
theorem c8_elementName_nameForID_witness :
    (cstr "Circle," ≠ cstr "label")
    ∧ (((endsWithChar (cstr "Circle,") '.' || endsWithChar (cstr "Circle,") ';' ||
        endsWithChar (cstr "Circle,") ',') = true →
        _elementName (cstr "Circle,") = some ((cstr "Circle,").dropLast ++ [':']))
      ∧ ((endsWithChar (cstr "Circle,") '.' || endsWithChar (cstr "Circle,") ';' ||
        endsWithChar (cstr "Circle,") ',') = false →
        endsWithChar (cstr "Circle,") ':' = false →
        _elementName (cstr "Circle,") = some (cstr "Circle," ++ [':']))
      ∧ ((endsWithChar (cstr "Circle,") '.' || endsWithChar (cstr "Circle,") ';' ||
        endsWithChar (cstr "Circle,") ',') = false →
        endsWithChar (cstr "Circle,") ':' = true →
        _elementName (cstr "Circle,") = some (cstr "Circle,"))
      ∧ ((endsWithChar (cstr "Circle,") '.' || endsWithChar (cstr "Circle,") ';' ||
        endsWithChar (cstr "Circle,") ',' || endsWithChar (cstr "Circle,") ':') = true →
        _nameForID (cstr "Circle,") = (cstr "Circle,").dropLast)
      ∧ ((endsWithChar (cstr "Circle,") '.' || endsWithChar (cstr "Circle,") ';' ||
        endsWithChar (cstr "Circle,") ',' || endsWithChar (cstr "Circle,") ':') = false →
        _nameForID (cstr "Circle,") = cstr "Circle,")
      ∧ _elementName (cstr "Circle,") = some (cstr "Circle:")
      ∧ _elementName (cstr "Circle.") = some (cstr "Circle:")
      ∧ _nameForID (cstr "Circle,") = cstr "Circle"
      ∧ _nameForID (cstr "Circle.") = cstr "Circle") :=
  ⟨by decide, c8_elementName_nameForID (cstr "Circle,") (by decide) (by decide)⟩

/-- C9: a non-string `text` argument to `describe`, and a non-string `name`
or `text` argument to `describeElement`, make the call return normally with
the state (store, element maps and document tree) completely unchanged. -/
theorem c9_nonstring_silent_noop (c : List Char) (d : Display) (s : PState)
    (t n : JsArg) :
    describe c .nonString d s = .ok s
    ∧ describeElement c .nonString t d s = .ok s
    ∧ describeElement c n .nonString d s = .ok s := by
  refine ⟨rfl, ?_, ?_⟩
  · cases t <;> rfl
  · cases n <;> rfl

/-- C10: `describeElement` throws the reserved-name error of the description
check when the text equals `'label'` or `'fallback'`, for every name
argument (the text passes through `_descriptionText` at line 238 before the
name reaches `_elementName` at line 239), leaving the state unchanged. -/
theorem c10_reserved_text_in_describeElement (c nm : List Char) (d : Display)
    (s : PState) :
    describeElement c (.str nm) (.str (cstr "label")) d s =
      .err .reservedDescriptionText s
    ∧ describeElement c (.str nm) (.str (cstr "fallback")) d s =
      .err .reservedDescriptionText s := by
  constructor <;> rfl

/-- C6: `describe` with text `'label'` or `'fallback'` and `describeElement`
with name `'label'` or `'fallback'` (text being any non-reserved string)
throw the reserved-name error synchronously; the state carried by the thrown
result is exactly the pre-call state: no store entry, element-map entry or
document node was created or modified. -/
theorem c6_reserved_names_raise_without_mutation (c : List Char) (d : Display)
    (s : PState) (t : List Char) (h1 : t ≠ cstr "label") (h2 : t ≠ cstr "fallback") :
    describe c (.str (cstr "label")) d s = .err .reservedDescriptionText s
    ∧ describe c (.str (cstr "fallback")) d s = .err .reservedDescriptionText s
    ∧ describeElement c (.str (cstr "label")) (.str t) d s = .err .reservedElementName s
    ∧ describeElement c (.str (cstr "fallback")) (.str t) d s = .err .reservedElementName s := by
  obtain ⟨t', hdt⟩ := Option.isSome_iff_exists.mp (descriptionText_isSome t h1 h2)
  refine ⟨rfl, rfl, ?_, ?_⟩
  · show describeElement c (.str (cstr "label")) (.str t) d s = .err .reservedElementName s
    have hL : _elementName (cstr "label") = none := by decide
    simp only [describeElement, hdt, hL]
  · show describeElement c (.str (cstr "fallback")) (.str t) d s = .err .reservedElementName s
    have hF : _elementName (cstr "fallback") = none := by decide
    simp only [describeElement, hdt, hF]

/-- C6 witness at `t = "ok"`. -/
theorem c6_reserved_names_raise_without_mutation_witness :
    (cstr "ok" ≠ cstr "label")
    ∧ (describe (cstr "c") (.str (cstr "label")) .undef (initState [cstr "c"]) =
        .err .reservedDescriptionText (initState [cstr "c"])
      ∧ describe (cstr "c") (.str (cstr "fallback")) .undef (initState [cstr "c"]) =
        .err .reservedDescriptionText (initState [cstr "c"])
      ∧ describeElement (cstr "c") (.str (cstr "label")) (.str (cstr "ok")) .undef
          (initState [cstr "c"]) = .err .reservedElementName (initState [cstr "c"])
      ∧ describeElement (cstr "c") (.str (cstr "fallback")) (.str (cstr "ok")) .undef
          (initState [cstr "c"]) = .err .reservedElementName (initState [cstr "c"])) :=
  ⟨by decide, c6_reserved_names_raise_without_mutation (cstr "c") .undef
    (initState [cstr "c"]) (cstr "ok") (by decide) (by decide)⟩

/-- C1: refuted by the code — after `describe "a"`, `describeElement "E" "x"`,
the fallback container, fallback paragraph and fallback table all exist
(their flags are set and exactly one fallback paragraph node is present),
yet the next `describe "b"` inserts a second paragraph node with the same id
`c_fallbackDesc` before the table instead of only replacing content: the
second branch of `_describeFallbackHTML` (line 156) tests only the table
flag, not the paragraph flag, and the in-place-update flag of line 170 is
never set (`===` instead of `=`). -/
theorem c1_duplicate_fallback_paragraph :
    truthy (getKey c1s2.store (cstr "c" ++ descContainer)) = true
    ∧ truthy (getKey c1s2.store (cstr "c" ++ fallbackDescId)) = true
    ∧ truthy (getKey c1s2.store (cstr "c" ++ fallbackTableId)) = true
    ∧ countParas (cstr "c" ++ fallbackDescId) c1s2.body = 1
    ∧ countParas (cstr "c" ++ fallbackDescId) c1s3.body = 2 := by
  exact ⟨by decide, by decide, by decide, by decide, by decide⟩

def c4s0 : PState := initState [cstr "a", cstr "ab"]
def c4s1 : PState :=
  resState (describeElement (cstr "a") (.str (cstr "bc")) (.str (cstr "x")) .FALLBACK c4s0)

/-- State after one `describe` publish used by the C2 witness. -/
def c2w1 : PState :=
  resState (describe (cstr "c") (.str (cstr "hi")) .LABEL (initState [cstr "c"]))

/-- State after one `describeElement` publish used by the C2 witness. -/
def c2w2 : PState :=
  resState (describeElement (cstr "c") (.str (cstr "E")) (.str (cstr "hi")) .LABEL
    (initState [cstr "c"]))

/-- C4 counterexample: the store is keyed by plain string concatenation, so a
publish referencing surface `"a"` with element name `"bc"` writes the
element-row entry with key `"abc"` — which is exactly the entry belonging to
surface `"ab"`, element `"c"`: surface `"ab"`'s element map entry changes
from absent to a row, refuting the claim that a publish for surface A never
mutates state belonging to a distinct surface B. -/
theorem c4_cross_surface_mutation :
    getKey c4s0.fallbackElements (cstr "ab" ++ cstr "c") = none
    ∧ getKey c4s1.fallbackElements (cstr "ab" ++ cstr "c") =
        some (rowInner (cstr "bc:") (cstr "x.")) := by
  exact ⟨rfl, by decide⟩

/-! Association-list lemmas. -/

theorem getKey_setKey_self {α β : Type} [DecidableEq α] (m : List (α × β)) (k : α) (v : β) :
    getKey (setKey m k v) k = some v := by
  induction m with
  | nil => simp [setKey, getKey]
  | cons p rest ih =>
    obtain ⟨k0, v0⟩ := p
    by_cases h : k0 = k
    · simp [setKey, h, getKey]
    · simp [setKey, h, getKey, ih]

theorem getKey_setKey_ne {α β : Type} [DecidableEq α] (m : List (α × β)) (w a : α) (v : β)
    (h : a ≠ w) : getKey (setKey m w v) a = getKey m a := by
  induction m with
  | nil => simp [setKey, getKey, Ne.symm h]
  | cons p rest ih =>
    obtain ⟨k0, v0⟩ := p
    by_cases hw : k0 = w
    · subst hw
      simp [setKey, getKey, Ne.symm h]
    · simp [setKey, hw, getKey, ih]

theorem setKey_same {α β : Type} [DecidableEq α] (m : List (α × β)) (k : α) (v : β)
    (h : getKey m k = some v) : setKey m k v = m := by
  induction m with
  | nil => simp [getKey] at h
  | cons p rest ih =>
    obtain ⟨k0, v0⟩ := p
    by_cases hk : k0 = k
    · subst hk
      simp [getKey] at h
      simp [setKey, h]
    · simp [getKey, hk] at h
      simp [setKey, hk, ih h]

/-! Concatenated keys: extraction and clash lemmas. -/

theorem append_suffix_extract {A u B v : List Char} (h : A ++ u = B ++ v)
    (hl : v.length ≤ u.length) : v = u.drop (u.length - v.length) := by
  have hlen : A.length + u.length = B.length + v.length := by
    have := congrArg List.length h
    simpa using this
  have hB : B.length = A.length + (u.length - v.length) := by omega
  have h1 : (B ++ v).drop B.length = v := List.drop_left B v
  rw [← h, hB, ← List.drop_drop, List.drop_left] at h1
  exact h1.symm

theorem ne_append_suffix (u v : List Char) (hl : v.length ≤ u.length)
    (hne : u.drop (u.length - v.length) ≠ v) (A c : List Char) : A ++ u ≠ c ++ v := by
  intro h
  exact hne (append_suffix_extract h hl).symm

theorem append_take_pre {A x B y : List Char} (h : A ++ x = B ++ y)
    (hl : A.length ≤ B.length) : B.take A.length = A := by
  have h1 : (A ++ x).take A.length = A := List.take_left A x
  rw [h] at h1
  rwa [List.take_append_of_le_length hl] at h1

theorem append_overlap_prefix {A B x y : List Char} (h : A ++ x = B ++ y) :
    A <+: B ∨ B <+: A := by
  rcases le_total A.length B.length with hl | hl
  · left
    have hh := append_take_pre h hl
    rw [← hh]
    exact List.take_prefix _ _
  · right
    have hh := append_take_pre h.symm hl
    rw [← hh]
    exact List.take_prefix _ _

theorem ne_append_of_prefix_free {A B : List Char} (h1 : ¬ A <+: B) (h2 : ¬ B <+: A)
    (x y : List Char) : A ++ x ≠ B ++ y := by
  intro h
  rcases append_overlap_prefix h with hp | hp
  · exact h1 hp
  · exact h2 hp

/-- The key of the `updateFallbackDesc` flag differs, for all surface ids,
from every key the module ever writes into the store. -/
theorem updKey_ne_written (A c : List Char) :
    updKey A ≠ domKey c ∧ updKey A ≠ fbTextKey c ∧ updKey A ≠ lblTextKey c
    ∧ updKey A ≠ c ++ descContainer ∧ updKey A ≠ c ++ fallbackDescId
    ∧ updKey A ≠ c ++ fallbackTableId ∧ updKey A ≠ c ++ labelContainer
    ∧ updKey A ≠ c ++ labelDescId ∧ updKey A ≠ c ++ labelTableId := by
  refine ⟨?_, ?_, ?_, ?_, ?_, ?_, ?_, ?_, ?_⟩ <;>
    exact ne_append_suffix _ _ (by decide) (by decide) A c

/-! Store frame lemmas: each stage only writes the listed keys. -/

theorem labelPCreate_store_frame (c : List Char) (s : PState) (k : List Char)
    (h1 : k ≠ c ++ labelContainer) (h2 : k ≠ c ++ labelDescId) :
    getKey (resState (labelPCreate c s)).store k = getKey s.store k := by
  unfold labelPCreate
  repeat' split
  all_goals simp_all [resState, getKey_setKey_ne]

theorem labelPContent_store_frame (c text : List Char) (s : PState) (k : List Char)
    (h : k ≠ lblTextKey c) :
    getKey (resState (labelPContent c text s)).store k = getKey s.store k := by
  unfold labelPContent
  repeat' split
  all_goals simp_all [resState, getKey_setKey_ne]

theorem fallbackPCreate_store_frame (c : List Char) (s : PState) (k : List Char)
    (h1 : k ≠ c ++ descContainer) (h2 : k ≠ c ++ fallbackDescId) :
    getKey (resState (fallbackPCreate c s)).store k = getKey s.store k := by
  unfold fallbackPCreate
  repeat' split
  all_goals simp_all [resState, getKey_setKey_ne]

theorem fallbackPContent_store_frame (c text : List Char) (s : PState) (k : List Char)
    (h : k ≠ fbTextKey c) :
    getKey (resState (fallbackPContent c text s)).store k = getKey s.store k := by
  unfold fallbackPContent
  repeat' split
  all_goals simp_all [resState, getKey_setKey_ne]

theorem labelTCreate_store_frame (c : List Char) (s : PState) (k : List Char)
    (h1 : k ≠ c ++ labelContainer) (h2 : k ≠ c ++ labelTableId) :
    getKey (resState (labelTCreate c s)).store k = getKey s.store k := by
  unfold labelTCreate
  repeat' split
  all_goals simp_all [resState, getKey_setKey_ne]

theorem labelTRow_store_frame (c name inner : List Char) (s : PState) (k : List Char) :
    getKey (resState (labelTRow c name inner s)).store k = getKey s.store k := by
  unfold labelTRow
  repeat' split
  all_goals simp_all [resState]

theorem fallbackTCreate_store_frame (c : List Char) (s : PState) (k : List Char)
    (h1 : k ≠ c ++ descContainer) (h2 : k ≠ c ++ fallbackTableId) :
    getKey (resState (fallbackTCreate c s)).store k = getKey s.store k := by
  unfold fallbackTCreate
  repeat' split
  all_goals simp_all [resState, getKey_setKey_ne]

theorem fallbackTRow_store_frame (c name inner : List Char) (s : PState) (k : List Char) :
    getKey (resState (fallbackTRow c name inner s)).store k = getKey s.store k := by
  unfold fallbackTRow
  repeat' split
  all_goals simp_all [resState]

theorem populate_store_frame (c : List Char) (s : PState) (k : List Char)
    (h : k ≠ domKey c) :
    getKey (_populateDummyDOM c s).store k = getKey s.store k := by
  simp [_populateDummyDOM, getKey_setKey_ne, h]

theorem describePopulate_store_frame (c : List Char) (s : PState) (k : List Char)
    (h : k ≠ domKey c) :
    getKey (describePopulate c s).store k = getKey s.store k := by
  unfold describePopulate
  split
  · exact populate_store_frame c s k h
  · rfl

theorem elemPopulate_store_frame (c name : List Char) (s : PState) (k : List Char)
    (h : k ≠ domKey c) :
    getKey (elemPopulate c name s).store k = getKey s.store k := by
  unfold elemPopulate
  split
  · exact populate_store_frame c s k h
  · rfl

theorem _describeLabelHTML_store_frame (c text : List Char) (s : PState) (k : List Char)
    (h1 : k ≠ c ++ labelContainer) (h2 : k ≠ c ++ labelDescId) (h3 : k ≠ lblTextKey c) :
    getKey (resState (_describeLabelHTML c text s)).store k = getKey s.store k := by
  have hA := labelPCreate_store_frame c s k h1 h2
  unfold _describeLabelHTML
  cases hc : labelPCreate c s with
  | err e s' =>
    rw [hc] at hA
    simpa [resState] using hA
  | ok s1 =>
    rw [hc] at hA
    simp only [resState] at hA
    have hB := labelPContent_store_frame c text s1 k h3
    simpa [resState, hA] using hB

theorem _describeFallbackHTML_store_frame (c text : List Char) (s : PState) (k : List Char)
    (h1 : k ≠ c ++ descContainer) (h2 : k ≠ c ++ fallbackDescId) (h3 : k ≠ fbTextKey c) :
    getKey (resState (_describeFallbackHTML c text s)).store k = getKey s.store k := by
  have hA := fallbackPCreate_store_frame c s k h1 h2
  unfold _describeFallbackHTML
  cases hc : fallbackPCreate c s with
  | err e s' =>
    rw [hc] at hA
    simpa [resState] using hA
  | ok s1 =>
    rw [hc] at hA
    simp only [resState] at hA
    have hB := fallbackPContent_store_frame c text s1 k h3
    simpa [resState, hA] using hB

theorem _descElementLabelHTML_store_frame (c name inner : List Char) (s : PState)
    (k : List Char) (h1 : k ≠ c ++ labelContainer) (h2 : k ≠ c ++ labelTableId) :
    getKey (resState (_descElementLabelHTML c name inner s)).store k = getKey s.store k := by
  have hA := labelTCreate_store_frame c s k h1 h2
  unfold _descElementLabelHTML
  cases hc : labelTCreate c s with
  | err e s' =>
    rw [hc] at hA
    simpa [resState] using hA
  | ok s1 =>
    rw [hc] at hA
    simp only [resState] at hA
    have hB := labelTRow_store_frame c name inner s1 k
    simpa [resState, hA] using hB

theorem _descElementFallbackHTML_store_frame (c name inner : List Char) (s : PState)
    (k : List Char) (h1 : k ≠ c ++ descContainer) (h2 : k ≠ c ++ fallbackTableId) :
    getKey (resState (_descElementFallbackHTML c name inner s)).store k = getKey s.store k := by
  have hA := fallbackTCreate_store_frame c s k h1 h2
  unfold _descElementFallbackHTML
  cases hc : fallbackTCreate c s with
  | err e s' =>
    rw [hc] at hA
    simpa [resState] using hA
  | ok s1 =>
    rw [hc] at hA
    simp only [resState] at hA
    have hB := fallbackTRow_store_frame c name inner s1 k
    simpa [resState, hA] using hB

theorem describeFallbackSection_store_frame (c text : List Char) (s : PState) (k : List Char)
    (h1 : k ≠ fbTextKey c) (h2 : k ≠ c ++ descContainer) (h3 : k ≠ c ++ fallbackDescId) :
    getKey (resState (describeFallbackSection c text s)).store k = getKey s.store k := by
  unfold describeFallbackSection
  repeat' split
  all_goals
    first
    | exact _describeFallbackHTML_store_frame c text s k h2 h3 h1
    | simp_all [resState, getKey_setKey_ne]

theorem describeLabelSection_store_frame (c text : List Char) (s : PState) (k : List Char)
    (h1 : k ≠ lblTextKey c) (h2 : k ≠ c ++ labelContainer) (h3 : k ≠ c ++ labelDescId) :
    getKey (resState (describeLabelSection c text s)).store k = getKey s.store k := by
  unfold describeLabelSection
  repeat' split
  all_goals
    first
    | exact _describeLabelHTML_store_frame c text s k h2 h3 h1
    | simp_all [resState, getKey_setKey_ne]

theorem elemFallbackSection_store_frame (c name inner : List Char) (s : PState)
    (k : List Char) (h1 : k ≠ c ++ descContainer) (h2 : k ≠ c ++ fallbackTableId) :
    getKey (resState (elemFallbackSection c name inner s)).store k = getKey s.store k := by
  unfold elemFallbackSection
  repeat' split
  all_goals
    first
    | exact _descElementFallbackHTML_store_frame c name inner s k h1 h2
    | simp_all [resState]

theorem elemLabelSection_store_frame (c name inner : List Char) (s : PState)
    (k : List Char) (h1 : k ≠ c ++ labelContainer) (h2 : k ≠ c ++ labelTableId) :
    getKey (resState (elemLabelSection c name inner s)).store k = getKey s.store k := by
  unfold elemLabelSection
  repeat' split
  all_goals
    first
    | exact _descElementLabelHTML_store_frame c name inner s k h1 h2
    | simp_all [resState]

theorem describeCore_store_frame (c text : List Char) (d : Display) (s : PState)
    (k : List Char) (hdom : k ≠ domKey c) (h1 : k ≠ fbTextKey c) (h2 : k ≠ c ++ descContainer)
    (h3 : k ≠ c ++ fallbackDescId) (h4 : k ≠ lblTextKey c) (h5 : k ≠ c ++ labelContainer)
    (h6 : k ≠ c ++ labelDescId) :
    getKey (resState (describeCore c text d s)).store k = getKey s.store k := by
  have hP := describePopulate_store_frame c s k hdom
  have hF := describeFallbackSection_store_frame c text (describePopulate c s) k h1 h2 h3
  unfold describeCore
  cases hc : describeFallbackSection c text (describePopulate c s) with
  | err e s' =>
    rw [hc] at hF
    simp only [resState] at hF
    simpa [resState, hF] using hP
  | ok s2 =>
    rw [hc] at hF
    simp only [resState] at hF
    have hL := describeLabelSection_store_frame c text s2 k h4 h5 h6
    cases d <;> simp_all [resState]

theorem elemCore_store_frame (c name inner : List Char) (d : Display) (s : PState)
    (k : List Char) (hdom : k ≠ domKey c) (h1 : k ≠ c ++ descContainer)
    (h2 : k ≠ c ++ fallbackTableId) (h3 : k ≠ c ++ labelContainer)
    (h4 : k ≠ c ++ labelTableId) :
    getKey (resState (elemCore c name inner d s)).store k = getKey s.store k := by
  have hP := elemPopulate_store_frame c name s k hdom
  have hF := elemFallbackSection_store_frame c name inner (elemPopulate c name s) k h1 h2
  unfold elemCore
  cases hc : elemFallbackSection c name inner (elemPopulate c name s) with
  | err e s' =>
    rw [hc] at hF
    simp only [resState] at hF
    simpa [resState, hF] using hP
  | ok s2 =>
    rw [hc] at hF
    simp only [resState] at hF
    have hL := elemLabelSection_store_frame c name inner s2 k h3 h4
    cases d <;> simp_all [resState]

theorem describe_store_frame (c : List Char) (ta : JsArg) (d : Display) (s : PState)
    (k : List Char) (hdom : k ≠ domKey c) (h1 : k ≠ fbTextKey c) (h2 : k ≠ c ++ descContainer)
    (h3 : k ≠ c ++ fallbackDescId) (h4 : k ≠ lblTextKey c) (h5 : k ≠ c ++ labelContainer)
    (h6 : k ≠ c ++ labelDescId) :
    getKey (resState (describe c ta d s)).store k = getKey s.store k := by
  unfold describe
  cases ta with
  | nonString => rfl
  | str text0 =>
    cases hdt : _descriptionText text0 with
    | none => simp [resState, hdt]
    | some text =>
      simp only [hdt]
      exact describeCore_store_frame c text d s k hdom h1 h2 h3 h4 h5 h6

theorem describeElement_store_frame (c : List Char) (na ta : JsArg) (d : Display)
    (s : PState) (k : List Char) (hdom : k ≠ domKey c) (h1 : k ≠ c ++ descContainer)
    (h2 : k ≠ c ++ fallbackTableId) (h3 : k ≠ c ++ labelContainer)
    (h4 : k ≠ c ++ labelTableId) :
    getKey (resState (describeElement c na ta d s)).store k = getKey s.store k := by
  unfold describeElement
  cases na with
  | nonString => cases ta <;> rfl
  | str name0 =>
    cases ta with
    | nonString => rfl
    | str text0 =>
      cases hdt : _descriptionText text0 with
      | none => simp [resState, hdt]
      | some text =>
        cases hen : _elementName name0 with
        | none => simp [resState, hdt, hen]
        | some elementName =>
          simp only [hdt, hen]
          exact elemCore_store_frame c (_nameForID name0) (rowInner elementName text) d s k
            hdom h1 h2 h3 h4

/-- In every reachable state the `updateFallbackDesc` key is absent from the
store: the only line mentioning it (line 170) compares with `===` instead of
assigning, and no written key can collide with it. -/
theorem reach_updKey_none (s : PState) (hs : Reach s) (A : List Char) :
    getKey s.store (updKey A) = none := by
  induction hs with
  | start body => rfl
  | describeStep c t d hr ih =>
    obtain ⟨hk1, hk2, hk3, hk4, hk5, hk6, hk7, hk8, hk9⟩ := updKey_ne_written A c
    rw [describe_store_frame c t d _ (updKey A) hk1 hk2 hk4 hk5 hk3 hk7 hk8]
    exact ih
  | elementStep c n t d hr ih =>
    obtain ⟨hk1, hk2, hk3, hk4, hk5, hk6, hk7, hk8, hk9⟩ := updKey_ne_written A c
    rw [describeElement_store_frame c n t d _ (updKey A) hk1 hk4 hk6 hk7 hk9]
    exact ih
  | resetStep hr ih => rfl

/-- C3: in every reachable state the `updateFallbackDesc` flag is never
truthy (line 170 performs a `===` comparison, not an assignment), so the
in-place fallback update branch of `describe` guarded by that flag is dead:
`describe` agrees with the variant in which every fallback text change goes
through `_describeFallbackHTML`. -/
theorem c3_update_flag_dead (s : PState) (hs : Reach s) (c : List Char) (t : JsArg)
    (d : Display) :
    truthy (getKey s.store (updKey c)) = false
    ∧ describe c t d s = describeNoUpd c t d s := by
  have hnone := reach_updKey_none s hs
  refine ⟨by rw [hnone]; rfl, ?_⟩
  unfold describe describeNoUpd
  cases t with
  | nonString => rfl
  | str text0 =>
    cases hdt : _descriptionText text0 with
    | none => simp [hdt]
    | some text =>
      simp only [hdt]
      unfold describeCore
      have hupd : getKey (describePopulate c s).store (updKey c) = none := by
        rw [describePopulate_store_frame c s (updKey c) (updKey_ne_written c c).1]
        exact hnone c
      have hsec : describeFallbackSection c text (describePopulate c s) =
          describeFallbackSectionAlways c text (describePopulate c s) := by
        simp [describeFallbackSection, describeFallbackSectionAlways, hupd, truthy]
      rw [hsec]

/-- C3 witness at the freshly reset state over one canvas. -/
theorem c3_update_flag_dead_witness :
    truthy (getKey (initState [cstr "c"]).store (updKey (cstr "c"))) = false
    ∧ describe (cstr "c") (.str (cstr "hi")) .undef (initState [cstr "c"]) =
        describeNoUpd (cstr "c") (.str (cstr "hi")) .undef (initState [cstr "c"]) :=
  c3_update_flag_dead (initState [cstr "c"]) (Reach.start (initBody [cstr "c"]))
    (cstr "c") (.str (cstr "hi")) (.undef)

/-! Further key-clash helpers. -/

theorem append_ne_of_ne (c : List Char) {a b : List Char} (h : a ≠ b) :
    c ++ a ≠ c ++ b :=
  fun hh => h (List.append_cancel_left hh)

theorem ne_append_prefix_concrete (p q : List Char) (hl : p.length ≤ q.length)
    (hne : q.take p.length ≠ p) (k : List Char) : p ++ k ≠ q := by
  intro h
  apply hne
  rw [← h, List.take_left]

/-! The search functions fail exactly on absent ids, and absence is
preserved by operations that only insert other ids. -/

theorem setInnerHTML_none_iff (i txt : List Char) (kids b : Dom) :
    setInnerHTML i txt kids b = none ↔ idExists i b = false := by
  induction b with
  | nil => simp [setInnerHTML, idExists]
  | node d c n ihc ihn =>
    by_cases hd : d.id = i
    · simp [setInnerHTML, idExists, hd]
    · simp only [setInnerHTML, idExists, hd, if_false]
      cases hc : setInnerHTML i txt kids c with
      | some cc => simp [hc, ← ihc, hd]
      | none =>
        cases hn : setInnerHTML i txt kids n with
        | some nn => simp [hc, hn, ← ihc, ← ihn, hd]
        | none => simp [hc, hn, ← ihc, ← ihn, hd]

theorem insertAdj_none_iff (i : List Char) (bef : Bool) (new_ b : Dom) :
    insertAdj i bef new_ b = none ↔ idExists i b = false := by
  induction b with
  | nil => simp [insertAdj, idExists]
  | node d c n ihc ihn =>
    by_cases hd : d.id = i
    · simp [insertAdj, idExists, hd]
    · simp only [insertAdj, idExists, hd, if_false]
      cases hc : insertAdj i bef new_ c with
      | some cc => simp [hc, ← ihc, hd]
      | none =>
        cases hn : insertAdj i bef new_ n with
        | some nn => simp [hc, hn, ← ihc, ← ihn, hd]
        | none => simp [hc, hn, ← ihc, ← ihn, hd]

theorem appendChild_none_iff (i : List Char) (x b : Dom) :
    appendChild i x b = none ↔ idExists i b = false := by
  induction b with
  | nil => simp [appendChild, idExists]
  | node d c n ihc ihn =>
    by_cases hd : d.id = i
    · simp [appendChild, idExists, hd]
    · simp only [appendChild, idExists, hd, if_false]
      cases hc : appendChild i x c with
      | some cc => simp [hc, ← ihc, hd]
      | none =>
        cases hn : appendChild i x n with
        | some nn => simp [hc, hn, ← ihc, ← ihn, hd]
        | none => simp [hc, hn, ← ihc, ← ihn, hd]

theorem idExists_graft (i : List Char) (a b : Dom) :
    idExists i (graft a b) = (idExists i a || idExists i b) := by
  induction a with
  | nil => simp [graft, idExists]
  | node d c n ihc ihn => simp [graft, idExists, ihn, Bool.or_assoc]

theorem idExists_setInnerHTML_false (i j txt : List Char) (kids b b' : Dom)
    (h : setInnerHTML j txt kids b = some b') (hb : idExists i b = false)
    (hk : idExists i kids = false) : idExists i b' = false := by
  induction b generalizing b' with
  | nil => simp [setInnerHTML] at h
  | node d c n ihc ihn =>
    simp only [idExists, Bool.or_eq_false_iff] at hb
    obtain ⟨⟨hd, hc⟩, hn⟩ := hb
    by_cases hj : d.id = j
    · rw [setInnerHTML, if_pos hj] at h
      cases h
      simp [idExists, hd, hk, hn]
    · rw [setInnerHTML, if_neg hj] at h
      cases hcc : setInnerHTML j txt kids c with
      | some cc =>
        rw [hcc] at h
        cases h
        simp [idExists, hd, ihc cc hcc hc, hn]
      | none =>
        rw [hcc] at h
        cases hnn : setInnerHTML j txt kids n with
        | some nn =>
          rw [hnn] at h
          cases h
          simp [idExists, hd, hc, ihn nn hnn hn]
        | none => rw [hnn] at h; cases h

theorem idExists_insertAdj_false (i j : List Char) (bef : Bool) (new_ b b' : Dom)
    (h : insertAdj j bef new_ b = some b') (hb : idExists i b = false)
    (hn0 : idExists i new_ = false) : idExists i b' = false := by
  induction b generalizing b' with
  | nil => simp [insertAdj] at h
  | node d c n ihc ihn =>
    simp only [idExists, Bool.or_eq_false_iff] at hb
    obtain ⟨⟨hd, hc⟩, hn⟩ := hb
    by_cases hj : d.id = j
    · rw [insertAdj, if_pos hj] at h
      cases h
      cases bef <;> simp [idExists, idExists_graft, hd, hc, hn, hn0]
    · rw [insertAdj, if_neg hj] at h
      cases hcc : insertAdj j bef new_ c with
      | some cc =>
        rw [hcc] at h
        cases h
        simp [idExists, hd, ihc cc hcc hc, hn]
      | none =>
        rw [hcc] at h
        cases hnn : insertAdj j bef new_ n with
        | some nn =>
          rw [hnn] at h
          cases h
          simp [idExists, hd, hc, ihn nn hnn hn]
        | none => rw [hnn] at h; cases h

theorem idExists_appendChild_false (i j : List Char) (x b b' : Dom)
    (h : appendChild j x b = some b') (hb : idExists i b = false)
    (hx : idExists i x = false) : idExists i b' = false := by
  induction b generalizing b' with
  | nil => simp [appendChild] at h
  | node d c n ihc ihn =>
    simp only [idExists, Bool.or_eq_false_iff] at hb
    obtain ⟨⟨hd, hc⟩, hn⟩ := hb
    by_cases hj : d.id = j
    · rw [appendChild, if_pos hj] at h
      cases h
      simp [idExists, idExists_graft, hd, hc, hn, hx]
    · rw [appendChild, if_neg hj] at h
      cases hcc : appendChild j x c with
      | some cc =>
        rw [hcc] at h
        cases h
        simp [idExists, hd, ihc cc hcc hc, hn]
      | none =>
        rw [hcc] at h
        cases hnn : appendChild j x n with
        | some nn =>
          rw [hnn] at h
          cases h
          simp [idExists, hd, hc, ihn nn hnn hn]
        | none => rw [hnn] at h; cases h

/-! Absence of an id is preserved by the label-region stages, which only
insert label-region ids. -/

theorem labelPCreate_body_absent (c : List Char) (s : PState) (i : List Char)
    (h1 : i ≠ c ++ labelContainer) (h2 : i ≠ c ++ labelDescId)
    (hb : idExists i s.body = false) :
    idExists i (resState (labelPCreate c s)).body = false := by
  unfold labelPCreate
  repeat' split
  all_goals simp only [resState]
  all_goals
    first
      | exact hb
      | exact idExists_insertAdj_false i _ _ _ _ _ (by assumption) hb
          (by simp [labelDivNode, pNode, idExists, Ne.symm h1, Ne.symm h2])

theorem labelPContent_body_absent (c text : List Char) (s : PState) (i : List Char)
    (hb : idExists i s.body = false) :
    idExists i (resState (labelPContent c text s)).body = false := by
  unfold labelPContent
  repeat' split
  all_goals simp only [resState]
  all_goals
    first
      | exact hb
      | exact idExists_setInnerHTML_false i _ _ Dom.nil _ _ (by assumption) hb rfl

theorem _describeLabelHTML_body_absent (c text : List Char) (s : PState) (i : List Char)
    (h1 : i ≠ c ++ labelContainer) (h2 : i ≠ c ++ labelDescId)
    (hb : idExists i s.body = false) :
    idExists i (resState (_describeLabelHTML c text s)).body = false := by
  have hA := labelPCreate_body_absent c s i h1 h2 hb
  unfold _describeLabelHTML
  cases hc : labelPCreate c s with
  | err e sx =>
    rw [hc] at hA
    simpa [resState] using hA
  | ok s1 =>
    rw [hc] at hA
    simp only [resState] at hA
    have := labelPContent_body_absent c text s1 i hA
    simpa [resState] using this

theorem describeLabelSection_body_absent (c text : List Char) (s : PState) (i : List Char)
    (h1 : i ≠ c ++ labelContainer) (h2 : i ≠ c ++ labelDescId)
    (hb : idExists i s.body = false) :
    idExists i (resState (describeLabelSection c text s)).body = false := by
  unfold describeLabelSection
  repeat' split
  all_goals simp only [resState]
  all_goals
    first
      | exact hb
      | exact idExists_setInnerHTML_false i _ _ Dom.nil _ _ (by assumption) hb rfl
      | exact _describeLabelHTML_body_absent c text _ i h1 h2 hb

theorem labelTCreate_body_absent (c : List Char) (s : PState) (i : List Char)
    (h1 : i ≠ c ++ labelContainer) (h3 : i ≠ c ++ labelTableId)
    (hb : idExists i s.body = false) :
    idExists i (resState (labelTCreate c s)).body = false := by
  unfold labelTCreate
  repeat' split
  all_goals simp only [resState]
  all_goals
    first
      | exact hb
      | exact idExists_insertAdj_false i _ _ _ _ _ (by assumption) hb
          (by simp [labelDivNode, labelTableNode, idExists, Ne.symm h1, Ne.symm h3])

theorem labelTRow_body_absent (c name inner : List Char) (s : PState) (i : List Char)
    (h4 : i ≠ c ++ labelTableElId ++ name) (hb : idExists i s.body = false) :
    idExists i (resState (labelTRow c name inner s)).body = false := by
  have h4a : c ++ (labelTableElId ++ name) ≠ i := by
    rw [← List.append_assoc]
    exact Ne.symm h4
  unfold labelTRow
  repeat' split
  all_goals simp only [resState]
  all_goals
    first
      | exact hb
      | exact idExists_appendChild_false i _ _ _ _ (by assumption) hb
          (by simp [trNode, idExists, h4a])
      | exact idExists_setInnerHTML_false i _ _ Dom.nil _ _ (by assumption)
          (idExists_appendChild_false i _ _ _ _ (by assumption) hb
            (by simp [trNode, idExists, h4a])) rfl

theorem _descElementLabelHTML_body_absent (c name inner : List Char) (s : PState)
    (i : List Char) (h1 : i ≠ c ++ labelContainer) (h3 : i ≠ c ++ labelTableId)
    (h4 : i ≠ c ++ labelTableElId ++ name) (hb : idExists i s.body = false) :
    idExists i (resState (_descElementLabelHTML c name inner s)).body = false := by
  have hA := labelTCreate_body_absent c s i h1 h3 hb
  unfold _descElementLabelHTML
  cases hc : labelTCreate c s with
  | err e sx =>
    rw [hc] at hA
    simpa [resState] using hA
  | ok s1 =>
    rw [hc] at hA
    simp only [resState] at hA
    have := labelTRow_body_absent c name inner s1 i h4 hA
    simpa [resState] using this

theorem elemLabelSection_body_absent (c name inner : List Char) (s : PState) (i : List Char)
    (h1 : i ≠ c ++ labelContainer) (h3 : i ≠ c ++ labelTableId)
    (h4 : i ≠ c ++ labelTableElId ++ name) (hb : idExists i s.body = false) :
    idExists i (resState (elemLabelSection c name inner s)).body = false := by
  unfold elemLabelSection
  repeat' split
  all_goals simp only [resState]
  all_goals
    first
      | exact hb
      | exact idExists_setInnerHTML_false i _ _ Dom.nil _ _ (by assumption) hb rfl
      | exact _descElementLabelHTML_body_absent c name inner _ i h1 h3 h4 hb

/-! Map frames of the label-region paths. -/

theorem labelPCreate_maps_frame (c : List Char) (s : PState) :
    (resState (labelPCreate c s)).fallbackElements = s.fallbackElements
    ∧ (resState (labelPCreate c s)).labelElements = s.labelElements := by
  unfold labelPCreate
  repeat' split
  all_goals simp_all [resState]

theorem labelPContent_maps_frame (c text : List Char) (s : PState) :
    (resState (labelPContent c text s)).fallbackElements = s.fallbackElements
    ∧ (resState (labelPContent c text s)).labelElements = s.labelElements := by
  unfold labelPContent
  repeat' split
  all_goals simp_all [resState]

theorem _describeLabelHTML_maps_frame (c text : List Char) (s : PState) :
    (resState (_describeLabelHTML c text s)).fallbackElements = s.fallbackElements
    ∧ (resState (_describeLabelHTML c text s)).labelElements = s.labelElements := by
  have hA := labelPCreate_maps_frame c s
  unfold _describeLabelHTML
  cases hc : labelPCreate c s with
  | err e sx =>
    rw [hc] at hA
    simpa [resState] using hA
  | ok s1 =>
    rw [hc] at hA
    simp only [resState] at hA
    have hB := labelPContent_maps_frame c text s1
    simp only [resState] at hB ⊢
    exact ⟨hB.1.trans hA.1, hB.2.trans hA.2⟩

theorem describeLabelSection_maps_frame (c text : List Char) (s : PState) :
    (resState (describeLabelSection c text s)).fallbackElements = s.fallbackElements
    ∧ (resState (describeLabelSection c text s)).labelElements = s.labelElements := by
  unfold describeLabelSection
  repeat' split
  all_goals
    first
      | exact ⟨rfl, rfl⟩
      | exact _describeLabelHTML_maps_frame c text _

theorem labelTCreate_maps_frame (c : List Char) (s : PState) :
    (resState (labelTCreate c s)).fallbackElements = s.fallbackElements
    ∧ (resState (labelTCreate c s)).labelElements = s.labelElements := by
  unfold labelTCreate
  repeat' split
  all_goals simp_all [resState]

theorem labelTRow_fb_frame (c name inner : List Char) (s : PState) :
    (resState (labelTRow c name inner s)).fallbackElements = s.fallbackElements := by
  unfold labelTRow
  repeat' split
  all_goals simp_all [resState]

theorem _descElementLabelHTML_fb_frame (c name inner : List Char) (s : PState) :
    (resState (_descElementLabelHTML c name inner s)).fallbackElements =
      s.fallbackElements := by
  have hA := labelTCreate_maps_frame c s
  unfold _descElementLabelHTML
  cases hc : labelTCreate c s with
  | err e sx =>
    rw [hc] at hA
    simpa [resState] using hA.1
  | ok s1 =>
    rw [hc] at hA
    simp only [resState] at hA
    have hB := labelTRow_fb_frame c name inner s1
    simp only [resState] at hB ⊢
    exact hB.trans hA.1

theorem elemLabelSection_fb_frame (c name inner : List Char) (s : PState) :
    (resState (elemLabelSection c name inner s)).fallbackElements = s.fallbackElements := by
  unfold elemLabelSection
  repeat' split
  all_goals
    first
      | rfl
      | exact _descElementLabelHTML_fb_frame c name inner _

/-! The populate step is the identity when the body reference is already
cached or both stored values are truthy. -/

theorem populate_id (c : List Char) (s : PState)
    (h : getKey s.store (domKey c) = some .vDom) : _populateDummyDOM c s = s := by
  unfold _populateDummyDOM
  rw [setKey_same _ _ _ h]

theorem describePopulate_id (c : List Char) (s : PState)
    (h : getKey s.store (domKey c) = some .vDom ∨
      (truthy (getKey s.store (fbTextKey c)) = true ∧
        truthy (getKey s.store (lblTextKey c)) = true)) :
    describePopulate c s = s := by
  unfold describePopulate
  rcases h with h | ⟨h1, h2⟩
  · split
    · exact populate_id c s h
    · rfl
  · rw [if_neg]
    simp [h1, h2]

theorem elemPopulate_id (c name : List Char) (s : PState)
    (h : getKey s.store (domKey c) = some .vDom ∨
      (truthyStr (getKey s.fallbackElements (c ++ name)) = true ∧
        truthyStr (getKey s.labelElements (c ++ name)) = true)) :
    elemPopulate c name s = s := by
  unfold elemPopulate
  rcases h with h | ⟨h1, h2⟩
  · split
    · exact populate_id c s h
    · rfl
  · rw [if_neg]
    simp [h1, h2]

theorem describePopulate_domOk (c : List Char) (s : PState)
    (h : domOk c s = true) : domOk c (describePopulate c s) = true := by
  unfold describePopulate
  split
  · simp [domOk, _populateDummyDOM, getKey_setKey_self]
  · exact h

/-! Truthiness of published values. -/

theorem descriptionText_truthy (t text : List Char) (h : _descriptionText t = some text) :
    truthy (some (.vStr text)) = true := by
  unfold _descriptionText at h
  split at h
  · simp at h
  · split at h
    · cases h
      simp [truthy]
    · cases h
      rename_i hcond
      have h3 : endsWithChar t '.' = true ∨ endsWithChar t '?' = true ∨
          endsWithChar t '!' = true := by
        cases hp : endsWithChar t '.' <;> cases hq : endsWithChar t '?' <;>
          cases hr : endsWithChar t '!' <;> simp_all
      have ht : t ≠ [] := by
        rcases h3 with h | h | h <;> (intro hnil; subst hnil; simp [endsWithChar] at h)
      simp [truthy, ht]

theorem rowInner_truthyStr (e t : List Char) :
    truthyStr (some (rowInner e t)) = true := by
  unfold rowInner
  have h : cstr "<th scope=\x22row\x22>" = '<' :: cstr "th scope=\x22row\x22>" := rfl
  rw [h]
  simp [truthyStr]

/-! Presence of an id after an insertion that contains it. -/

theorem idExists_setInnerHTML_true (i j txt : List Char) (kids b b' : Dom)
    (h : setInnerHTML j txt kids b = some b') (hk : idExists i kids = true) :
    idExists i b' = true := by
  induction b generalizing b' with
  | nil => simp [setInnerHTML] at h
  | node d c n ihc ihn =>
    by_cases hj : d.id = j
    · rw [setInnerHTML, if_pos hj] at h
      cases h
      simp [idExists, hk]
    · rw [setInnerHTML, if_neg hj] at h
      cases hcc : setInnerHTML j txt kids c with
      | some cc =>
        rw [hcc] at h
        cases h
        simp [idExists, ihc cc hcc]
      | none =>
        rw [hcc] at h
        cases hnn : setInnerHTML j txt kids n with
        | some nn =>
          rw [hnn] at h
          cases h
          simp [idExists, ihn nn hnn]
        | none => rw [hnn] at h; cases h

theorem idExists_insertAdj_true (i j : List Char) (bef : Bool) (new_ b b' : Dom)
    (h : insertAdj j bef new_ b = some b') (hn0 : idExists i new_ = true) :
    idExists i b' = true := by
  induction b generalizing b' with
  | nil => simp [insertAdj] at h
  | node d c n ihc ihn =>
    by_cases hj : d.id = j
    · rw [insertAdj, if_pos hj] at h
      cases h
      cases bef <;> simp [idExists, idExists_graft, hn0]
    · rw [insertAdj, if_neg hj] at h
      cases hcc : insertAdj j bef new_ c with
      | some cc =>
        rw [hcc] at h
        cases h
        simp [idExists, ihc cc hcc]
      | none =>
        rw [hcc] at h
        cases hnn : insertAdj j bef new_ n with
        | some nn =>
          rw [hnn] at h
          cases h
          simp [idExists, ihn nn hnn]
        | none => rw [hnn] at h; cases h

/-! Result characterizations of the fallback paragraph path of `describe`. -/

theorem fallbackPContent_ok_char (c text : List Char) (s s2 : PState)
    (h : fallbackPContent c text s = .ok s2) :
    getKey s2.store (fbTextKey c) = some (.vStr text)
    ∨ (s2 = s ∧ idExists (c ++ fallbackDescId) s.body = false ∧ domOk c s = true) := by
  unfold fallbackPContent at h
  split at h
  · rename_i hdom
    cases hsi : setInnerHTML (c ++ fallbackDescId) text .nil s.body with
    | some b2 =>
      rw [hsi] at h
      cases h
      left
      exact getKey_setKey_self _ _ _
    | none =>
      rw [hsi] at h
      cases h
      right
      exact ⟨rfl, (setInnerHTML_none_iff _ _ _ _).mp hsi, hdom⟩
  · cases h

theorem fallbackPCreate_ok_char (c : List Char) (s s1 : PState)
    (h : fallbackPCreate c s = .ok s1) :
    (s1 = s ∧ truthy (getKey s.store (c ++ descContainer)) = true
      ∧ truthy (getKey s.store (c ++ fallbackTableId)) = false)
    ∨ idExists (c ++ fallbackDescId) s1.body = true := by
  unfold fallbackPCreate at h
  split at h
  · split at h
    · rename_i hdom
      cases hsi : setInnerHTML c [] (descRegionNode c (pNode (c ++ fallbackDescId))) s.body with
      | some b2 =>
        rw [hsi] at h
        cases h
        right
        exact idExists_setInnerHTML_true _ _ _ _ _ _ hsi
          (by simp [descRegionNode, pNode, idExists])
      | none => rw [hsi] at h; cases h
    · cases h
  · split at h
    · split at h
      · rename_i hdom
        cases hsi : insertAdj (c ++ fallbackTableId) true (pNode (c ++ fallbackDescId))
            s.body with
        | some b2 =>
          rw [hsi] at h
          cases h
          right
          exact idExists_insertAdj_true _ _ _ _ _ _ hsi (by simp [pNode, idExists])
        | none => rw [hsi] at h; cases h
      · cases h
    · cases h
      rename_i hcont htab
      left
      refine ⟨rfl, ?_, ?_⟩
      · cases hc : truthy (getKey s.store (c ++ descContainer)) <;> simp_all
      · cases hc : truthy (getKey s.store (c ++ fallbackTableId)) <;> simp_all

theorem _describeFallbackHTML_ok_char (c text : List Char) (s s2 : PState)
    (h : _describeFallbackHTML c text s = .ok s2) :
    getKey s2.store (fbTextKey c) = some (.vStr text)
    ∨ (s2 = s ∧ truthy (getKey s.store (c ++ descContainer)) = true
       ∧ truthy (getKey s.store (c ++ fallbackTableId)) = false
       ∧ idExists (c ++ fallbackDescId) s.body = false ∧ domOk c s = true) := by
  unfold _describeFallbackHTML at h
  cases hc : fallbackPCreate c s with
  | err e sx => rw [hc] at h; cases h
  | ok s1 =>
    rw [hc] at h
    simp only [] at h
    rcases fallbackPCreate_ok_char c s s1 hc with ⟨hs1, hcont, htab⟩ | hpara
    · rw [hs1] at h
      rcases fallbackPContent_ok_char c text s s2 h with hL | ⟨hs2, hnp, hdom⟩
      · exact Or.inl hL
      · exact Or.inr ⟨hs2, hcont, htab, hnp, hdom⟩
    · rcases fallbackPContent_ok_char c text s1 s2 h with hL | ⟨hs2, hnp, hdom⟩
      · exact Or.inl hL
      · rw [hnp] at hpara
        cases hpara

theorem describeFallbackSection_ok_char (c text : List Char) (s s2 : PState)
    (h : describeFallbackSection c text s = .ok s2) :
    getKey s2.store (fbTextKey c) = some (.vStr text)
    ∨ (s2 = s ∧ getKey s.store (fbTextKey c) ≠ some (.vStr text)
       ∧ truthy (getKey s.store (updKey c)) = false
       ∧ truthy (getKey s.store (c ++ descContainer)) = true
       ∧ truthy (getKey s.store (c ++ fallbackTableId)) = false
       ∧ idExists (c ++ fallbackDescId) s.body = false ∧ domOk c s = true) := by
  unfold describeFallbackSection at h
  split at h
  · rename_i hne
    split at h
    · rename_i hupd
      split at h
      · cases hsi : setInnerHTML (c ++ fallbackDescId) text .nil s.body with
        | some b2 =>
          rw [hsi] at h
          cases h
          left
          exact getKey_setKey_self _ _ _
        | none => rw [hsi] at h; cases h
      · cases h
    · rename_i hupd
      rcases _describeFallbackHTML_ok_char c text s s2 h with hL | ⟨hs2, h3, h4, h5, h6⟩
      · exact Or.inl hL
      · refine Or.inr ⟨hs2, hne, ?_, h3, h4, h5, h6⟩
        cases hu : truthy (getKey s.store (updKey c)) <;> simp_all
  · cases h
    left
    rename_i hne
    simpa using hne

/-! Result characterization of the label paragraph path of `describe`. -/

theorem labelPContent_ok_char (c text : List Char) (s s2 : PState)
    (h : labelPContent c text s = .ok s2) :
    getKey s2.store (lblTextKey c) = some (.vStr text) := by
  unfold labelPContent at h
  split at h
  · cases hsi : setInnerHTML (c ++ labelDescId) text .nil s.body with
    | some b2 =>
      rw [hsi] at h
      cases h
      exact getKey_setKey_self _ _ _
    | none => rw [hsi] at h; cases h
  · cases h

theorem describeLabelSection_ok_char (c text : List Char) (s s2 : PState)
    (h : describeLabelSection c text s = .ok s2) :
    getKey s2.store (lblTextKey c) = some (.vStr text) := by
  unfold describeLabelSection at h
  split at h
  · split at h
    · split at h
      · cases hsi : setInnerHTML (c ++ labelDescId) text .nil s.body with
        | some b2 =>
          rw [hsi] at h
          cases h
          exact getKey_setKey_self _ _ _
        | none => rw [hsi] at h; cases h
      · cases h
    · unfold _describeLabelHTML at h
      cases hc : labelPCreate c s with
      | err e sx => rw [hc] at h; cases h
      | ok s1 =>
        rw [hc] at h
        simp only [] at h
        exact labelPContent_ok_char c text s1 s2 h
  · cases h
    rename_i hne
    simpa using hne

/-! Remaining map frames of the element fallback path. -/

theorem fallbackTCreate_maps_frame (c : List Char) (s : PState) :
    (resState (fallbackTCreate c s)).fallbackElements = s.fallbackElements
    ∧ (resState (fallbackTCreate c s)).labelElements = s.labelElements := by
  unfold fallbackTCreate
  repeat' split
  all_goals simp_all [resState]

theorem fallbackTRow_lbl_frame (c name inner : List Char) (s : PState) :
    (resState (fallbackTRow c name inner s)).labelElements = s.labelElements := by
  unfold fallbackTRow
  repeat' split
  all_goals simp_all [resState]

theorem _descElementFallbackHTML_lbl_frame (c name inner : List Char) (s : PState) :
    (resState (_descElementFallbackHTML c name inner s)).labelElements =
      s.labelElements := by
  have hA := fallbackTCreate_maps_frame c s
  unfold _descElementFallbackHTML
  cases hc : fallbackTCreate c s with
  | err e sx =>
    rw [hc] at hA
    simpa [resState] using hA.2
  | ok s1 =>
    rw [hc] at hA
    simp only [resState] at hA
    have hB := fallbackTRow_lbl_frame c name inner s1
    simp only [resState] at hB ⊢
    exact hB.trans hA.2

theorem elemFallbackSection_lbl_frame (c name inner : List Char) (s : PState) :
    (resState (elemFallbackSection c name inner s)).labelElements = s.labelElements := by
  unfold elemFallbackSection
  repeat' split
  all_goals
    first
      | rfl
      | exact _descElementFallbackHTML_lbl_frame c name inner _

/-! Result characterizations of the element fallback path. -/

theorem fallbackTCreate_ok_char (c : List Char) (s s1 : PState)
    (h : fallbackTCreate c s = .ok s1) :
    (s1 = s ∧ truthy (getKey s.store (c ++ descContainer)) = true
      ∧ idExists (c ++ fallbackDescId) s.body = false)
    ∨ (idExists (c ++ fallbackTableId) s1.body = true
       ∧ truthy (getKey s1.store (c ++ fallbackTableId)) = true) := by
  unfold fallbackTCreate at h
  split at h
  · split at h
    · cases hsi : setInnerHTML c [] (descRegionNode c (fallbackTableNode c)) s.body with
      | some b2 =>
        rw [hsi] at h
        cases h
        right
        constructor
        · exact idExists_setInnerHTML_true _ _ _ _ _ _ hsi
            (by simp [descRegionNode, fallbackTableNode, idExists])
        · simp [getKey_setKey_self, truthy]
      | none => rw [hsi] at h; cases h
    · cases h
  · split at h
    · split at h
      · cases hsi : insertAdj (c ++ fallbackDescId) false (fallbackTableNode c) s.body with
        | some b2 =>
          rw [hsi] at h
          cases h
          right
          constructor
          · exact idExists_insertAdj_true _ _ _ _ _ _ hsi
              (by simp [fallbackTableNode, idExists])
          · simp [getKey_setKey_self, truthy]
        | none => rw [hsi] at h; cases h
      · cases h
    · cases h
      rename_i hcont hpara
      left
      refine ⟨rfl, ?_, ?_⟩
      · cases hc : truthy (getKey s.store (c ++ descContainer)) <;> simp_all
      · cases hc : idExists (c ++ fallbackDescId) s.body <;> simp_all

theorem fallbackTRow_ok_char (c name inner : List Char) (s s2 : PState)
    (h : fallbackTRow c name inner s = .ok s2) :
    getKey s2.fallbackElements (c ++ name) = some inner
    ∨ (s2 = s ∧ truthyStr (getKey s.fallbackElements (c ++ name)) = false
       ∧ truthy (getKey s.store (c ++ fallbackTableId)) = false)
    ∨ (s2 = s ∧ truthyStr (getKey s.fallbackElements (c ++ name)) = true) := by
  unfold fallbackTRow at h
  split at h
  · cases h
    rename_i htr
    exact Or.inr (Or.inr ⟨rfl, htr⟩)
  · rename_i htr
    split at h
    · split at h
      · split at h
        · split at h
          · cases h
            left
            exact getKey_setKey_self _ _ _
          · cases h
        · cases h
      · cases h
    · cases h
      rename_i htab
      refine Or.inr (Or.inl ⟨rfl, ?_, ?_⟩)
      · cases hc : truthyStr (getKey s.fallbackElements (c ++ name)) <;> simp_all
      · cases hc : truthy (getKey s.store (c ++ fallbackTableId)) <;> simp_all

theorem elemFallbackSection_ok_char (c name inner : List Char) (s s2 : PState)
    (h : elemFallbackSection c name inner s = .ok s2) :
    getKey s2.fallbackElements (c ++ name) = some inner
    ∨ (s2 = s ∧ getKey s.fallbackElements (c ++ name) ≠ some inner
       ∧ truthyStr (getKey s.fallbackElements (c ++ name)) = false
       ∧ truthy (getKey s.store (c ++ descContainer)) = true
       ∧ idExists (c ++ fallbackDescId) s.body = false
       ∧ truthy (getKey s.store (c ++ fallbackTableId)) = false) := by
  unfold elemFallbackSection at h
  split at h
  · rename_i hne
    split at h
    · rename_i hfalsy
      unfold _descElementFallbackHTML at h
      cases hc : fallbackTCreate c s with
      | err e sx => rw [hc] at h; cases h
      | ok s1 =>
        rw [hc] at h
        simp only [] at h
        have hmaps := fallbackTCreate_maps_frame c s
        rw [hc] at hmaps
        simp only [resState] at hmaps
        rcases fallbackTCreate_ok_char c s s1 hc with ⟨hs1, hcont, hpara⟩ | ⟨htb, htf⟩
        · rw [hs1] at h
          rcases fallbackTRow_ok_char c name inner s s2 h with hL | ⟨hs2, hf, htab⟩ | ⟨hs2, ht⟩
          · exact Or.inl hL
          · refine Or.inr ⟨hs2, hne, hf, hcont, hpara, htab⟩
          · rw [ht] at hfalsy
            simp at hfalsy
        · rcases fallbackTRow_ok_char c name inner s1 s2 h with hL | ⟨hs2, hf, htab⟩ | ⟨hs2, ht⟩
          · exact Or.inl hL
          · rw [htf] at htab
            cases htab
          · rw [hmaps.1] at ht
            rw [ht] at hfalsy
            simp at hfalsy
    · -- in-place row update (entry truthy but different)
      split at h
      · cases hsi : setInnerHTML (c ++ fallbackTableElId ++ name) inner .nil s.body with
        | some b2 =>
          rw [hsi] at h
          cases h
          left
          exact getKey_setKey_self _ _ _
        | none => rw [hsi] at h; cases h
      · cases h
  · cases h
    rename_i hne
    left
    simpa using hne

/-! Result characterizations of the element label path. -/

theorem labelTCreate_ok_char (c : List Char) (s s1 : PState)
    (h : labelTCreate c s = .ok s1) :
    (s1 = s ∧ truthy (getKey s.store (c ++ labelContainer)) = true
      ∧ idExists (c ++ labelDescId) s.body = false ∧ domOk c s = true)
    ∨ (idExists (c ++ labelTableId) s1.body = true
       ∧ truthy (getKey s1.store (c ++ labelTableId)) = true) := by
  unfold labelTCreate at h
  split at h
  · split at h
    · cases hsi : insertAdj c false (labelDivNode c (labelTableNode c)) s.body with
      | some b2 =>
        rw [hsi] at h
        cases h
        right
        constructor
        · exact idExists_insertAdj_true _ _ _ _ _ _ hsi
            (by simp [labelDivNode, labelTableNode, idExists])
        · simp [getKey_setKey_self, truthy]
      | none => rw [hsi] at h; cases h
    · cases h
  · split at h
    · rename_i hcontr hdom
      cases hsi : insertAdj (c ++ labelDescId) false (labelTableNode c) s.body with
      | some b2 =>
        rw [hsi] at h
        cases h
        right
        constructor
        · exact idExists_insertAdj_true _ _ _ _ _ _ hsi (by simp [labelTableNode, idExists])
        · simp [getKey_setKey_self, truthy]
      | none =>
        rw [hsi] at h
        cases h
        left
        refine ⟨rfl, ?_, (insertAdj_none_iff _ _ _ _).mp hsi, hdom⟩
        cases hc : truthy (getKey s.store (c ++ labelContainer)) <;> simp_all
    · cases h

theorem labelTRow_ok_char (c name inner : List Char) (s s2 : PState)
    (h : labelTRow c name inner s = .ok s2) :
    getKey s2.labelElements (c ++ name) = some inner
    ∨ (s2 = s ∧ truthyStr (getKey s.labelElements (c ++ name)) = false
       ∧ truthy (getKey s.store (c ++ labelTableId)) = false)
    ∨ (s2 = s ∧ truthyStr (getKey s.labelElements (c ++ name)) = true) := by
  unfold labelTRow at h
  split at h
  · cases h
    rename_i htr
    exact Or.inr (Or.inr ⟨rfl, htr⟩)
  · rename_i htr
    split at h
    · split at h
      · split at h
        · split at h
          · cases h
            left
            exact getKey_setKey_self _ _ _
          · cases h
        · cases h
      · cases h
    · cases h
      rename_i htab
      refine Or.inr (Or.inl ⟨rfl, ?_, ?_⟩)
      · cases hc : truthyStr (getKey s.labelElements (c ++ name)) <;> simp_all
      · cases hc : truthy (getKey s.store (c ++ labelTableId)) <;> simp_all

theorem elemLabelSection_ok_char (c name inner : List Char) (s s2 : PState)
    (h : elemLabelSection c name inner s = .ok s2) :
    getKey s2.labelElements (c ++ name) = some inner
    ∨ (s2 = s ∧ getKey s.labelElements (c ++ name) ≠ some inner
       ∧ truthyStr (getKey s.labelElements (c ++ name)) = false
       ∧ truthy (getKey s.store (c ++ labelContainer)) = true
       ∧ idExists (c ++ labelDescId) s.body = false ∧ domOk c s = true
       ∧ truthy (getKey s.store (c ++ labelTableId)) = false) := by
  unfold elemLabelSection at h
  split at h
  · rename_i hne
    split at h
    · rename_i hfalsy
      unfold _descElementLabelHTML at h
      cases hc : labelTCreate c s with
      | err e sx => rw [hc] at h; cases h
      | ok s1 =>
        rw [hc] at h
        simp only [] at h
        have hmaps := labelTCreate_maps_frame c s
        rw [hc] at hmaps
        simp only [resState] at hmaps
        rcases labelTCreate_ok_char c s s1 hc with ⟨hs1, hcont, hpara, hdom⟩ | ⟨htb, htf⟩
        · rw [hs1] at h
          rcases labelTRow_ok_char c name inner s s2 h with hL | ⟨hs2, hf, htab⟩ | ⟨hs2, ht⟩
          · exact Or.inl hL
          · exact Or.inr ⟨hs2, hne, hf, hcont, hpara, hdom, htab⟩
          · rw [ht] at hfalsy
            simp at hfalsy
        · rcases labelTRow_ok_char c name inner s1 s2 h with hL | ⟨hs2, hf, htab⟩ | ⟨hs2, ht⟩
          · exact Or.inl hL
          · rw [htf] at htab
            cases htab
          · rw [hmaps.2] at ht
            rw [ht] at hfalsy
            simp at hfalsy
    · split at h
      · cases hsi : setInnerHTML (c ++ labelTableElId ++ name) inner .nil s.body with
        | some b2 =>
          rw [hsi] at h
          cases h
          left
          exact getKey_setKey_self _ _ _
        | none => rw [hsi] at h; cases h
      · cases h
  · cases h
    rename_i hne
    left
    simpa using hne

/-! Replay lemmas: under the recorded conditions a section call returns its
input unchanged. -/

theorem describeFallbackSection_skip (c text : List Char) (s : PState)
    (h : getKey s.store (fbTextKey c) = some (.vStr text)) :
    describeFallbackSection c text s = .ok s := by
  unfold describeFallbackSection
  rw [if_neg]
  simp [h]

theorem describeLabelSection_skip (c text : List Char) (s : PState)
    (h : getKey s.store (lblTextKey c) = some (.vStr text)) :
    describeLabelSection c text s = .ok s := by
  unfold describeLabelSection
  rw [if_neg]
  simp [h]

theorem elemFallbackSection_skip (c name inner : List Char) (s : PState)
    (h : getKey s.fallbackElements (c ++ name) = some inner) :
    elemFallbackSection c name inner s = .ok s := by
  unfold elemFallbackSection
  rw [if_neg]
  simp [h]

theorem elemLabelSection_skip (c name inner : List Char) (s : PState)
    (h : getKey s.labelElements (c ++ name) = some inner) :
    elemLabelSection c name inner s = .ok s := by
  unfold elemLabelSection
  rw [if_neg]
  simp [h]

theorem describeFallbackSection_noop (c text : List Char) (s : PState)
    (h1 : getKey s.store (fbTextKey c) ≠ some (.vStr text))
    (h2 : truthy (getKey s.store (updKey c)) = false)
    (h3 : truthy (getKey s.store (c ++ descContainer)) = true)
    (h4 : truthy (getKey s.store (c ++ fallbackTableId)) = false)
    (h5 : idExists (c ++ fallbackDescId) s.body = false)
    (h6 : domOk c s = true) :
    describeFallbackSection c text s = .ok s := by
  have hnone : setInnerHTML (c ++ fallbackDescId) text .nil s.body = none :=
    (setInnerHTML_none_iff _ _ _ _).mpr h5
  unfold describeFallbackSection _describeFallbackHTML fallbackPCreate fallbackPContent
  rw [if_pos h1]
  simp [h2, h3, h4, h6, hnone]

theorem elemFallbackSection_noop (c name inner : List Char) (s : PState)
    (h1 : getKey s.fallbackElements (c ++ name) ≠ some inner)
    (h2 : truthyStr (getKey s.fallbackElements (c ++ name)) = false)
    (h3 : truthy (getKey s.store (c ++ descContainer)) = true)
    (h4 : idExists (c ++ fallbackDescId) s.body = false)
    (h5 : truthy (getKey s.store (c ++ fallbackTableId)) = false) :
    elemFallbackSection c name inner s = .ok s := by
  unfold elemFallbackSection _descElementFallbackHTML fallbackTCreate fallbackTRow
  rw [if_pos h1]
  simp [h2, h3, h4, h5]

theorem elemLabelSection_noop (c name inner : List Char) (s : PState)
    (h1 : getKey s.labelElements (c ++ name) ≠ some inner)
    (h2 : truthyStr (getKey s.labelElements (c ++ name)) = false)
    (h3 : truthy (getKey s.store (c ++ labelContainer)) = true)
    (h4 : idExists (c ++ labelDescId) s.body = false)
    (h5 : domOk c s = true)
    (h6 : truthy (getKey s.store (c ++ labelTableId)) = false) :
    elemLabelSection c name inner s = .ok s := by
  have hnone : insertAdj (c ++ labelDescId) false (labelTableNode c) s.body = none :=
    (insertAdj_none_iff _ _ _ _).mpr h4
  unfold elemLabelSection _descElementLabelHTML labelTCreate labelTRow
  rw [if_pos h1]
  simp [h2, h3, h5, h6, hnone]

/-- Second run of `describeCore` with the same text is the identity on the
state produced by a successful first run. -/
theorem describeCore_twice (c text : List Char) (d : Display) (s s1 : PState)
    (htx : truthy (some (DummyVal.vStr text)) = true)
    (h : describeCore c text d s = .ok s1) :
    describeCore c text d s1 = .ok s1 := by
  have dfb_lbl : fbTextKey c ≠ lblTextKey c := append_ne_of_ne c (by decide)
  have dfb_lc : fbTextKey c ≠ c ++ labelContainer := append_ne_of_ne c (by decide)
  have dfb_ld : fbTextKey c ≠ c ++ labelDescId := append_ne_of_ne c (by decide)
  have dupd_lbl : updKey c ≠ lblTextKey c := append_ne_of_ne c (by decide)
  have dupd_lc : updKey c ≠ c ++ labelContainer := append_ne_of_ne c (by decide)
  have dupd_ld : updKey c ≠ c ++ labelDescId := append_ne_of_ne c (by decide)
  have ddc_lbl : c ++ descContainer ≠ lblTextKey c := append_ne_of_ne c (by decide)
  have ddc_lc : c ++ descContainer ≠ c ++ labelContainer := append_ne_of_ne c (by decide)
  have ddc_ld : c ++ descContainer ≠ c ++ labelDescId := append_ne_of_ne c (by decide)
  have dft_lbl : c ++ fallbackTableId ≠ lblTextKey c := append_ne_of_ne c (by decide)
  have dft_lc : c ++ fallbackTableId ≠ c ++ labelContainer := append_ne_of_ne c (by decide)
  have dft_ld : c ++ fallbackTableId ≠ c ++ labelDescId := append_ne_of_ne c (by decide)
  have ddom_lbl : domKey c ≠ lblTextKey c := append_ne_of_ne c (by decide)
  have ddom_lc : domKey c ≠ c ++ labelContainer := append_ne_of_ne c (by decide)
  have ddom_ld : domKey c ≠ c ++ labelDescId := append_ne_of_ne c (by decide)
  have ddom_fb : domKey c ≠ fbTextKey c := append_ne_of_ne c (by decide)
  have ddom_dc : domKey c ≠ c ++ descContainer := append_ne_of_ne c (by decide)
  have ddom_fd : domKey c ≠ c ++ fallbackDescId := append_ne_of_ne c (by decide)
  have dlbl_fb : lblTextKey c ≠ fbTextKey c := append_ne_of_ne c (by decide)
  have dlbl_dc : lblTextKey c ≠ c ++ descContainer := append_ne_of_ne c (by decide)
  have dlbl_fd : lblTextKey c ≠ c ++ fallbackDescId := append_ne_of_ne c (by decide)
  have dfd_lc : c ++ fallbackDescId ≠ c ++ labelContainer := append_ne_of_ne c (by decide)
  have dfd_ld : c ++ fallbackDescId ≠ c ++ labelDescId := append_ne_of_ne c (by decide)
  unfold describeCore at h
  cases hsec : describeFallbackSection c text (describePopulate c s) with
  | err e sx => rw [hsec] at h; simp at h
  | ok s2 =>
    rw [hsec] at h
    simp only [] at h
    have hres2 : resState (describeFallbackSection c text (describePopulate c s)) = s2 := by
      rw [hsec]
      rfl
    rcases describeFallbackSection_ok_char c text _ s2 hsec with hF |
        ⟨hs2, hne, hupd, hcont, htab, hnp, hdom⟩
    · -- the fallback text is stored in s2
      by_cases hd : d = Display.LABEL
      · rw [if_pos hd] at h
        have hres1 : resState (describeLabelSection c text s2) = s1 := by
          rw [h]
          rfl
        have hlbl1 : getKey s1.store (lblTextKey c) = some (.vStr text) :=
          describeLabelSection_ok_char c text s2 s1 h
        have hfb1 : getKey s1.store (fbTextKey c) = some (.vStr text) := by
          have hk := describeLabelSection_store_frame c text s2 (fbTextKey c)
            dfb_lbl dfb_lc dfb_ld
          rw [hres1] at hk
          rw [hk, hF]
        have hpid := describePopulate_id c s1
          (Or.inr ⟨by rw [hfb1]; exact htx, by rw [hlbl1]; exact htx⟩)
        unfold describeCore
        rw [hpid, describeFallbackSection_skip c text s1 hfb1]
        simp [hd, describeLabelSection_skip c text s1 hlbl1]
      · rw [if_neg hd] at h
        cases h
        have hpid : describePopulate c s1 = s1 := by
          apply describePopulate_id
          by_cases hpop : (!truthy (getKey s.store (fbTextKey c)) ||
              !truthy (getKey s.store (lblTextKey c))) = true
          · left
            have hdsp : getKey (describePopulate c s).store (domKey c) =
                some DummyVal.vDom := by
              unfold describePopulate
              rw [if_pos hpop]
              unfold _populateDummyDOM
              exact getKey_setKey_self _ _ _
            have hk := describeFallbackSection_store_frame c text (describePopulate c s)
              (domKey c) ddom_fb ddom_dc ddom_fd
            rw [hres2] at hk
            exact hk.trans hdsp
          · right
            have hsp : describePopulate c s = s := by
              unfold describePopulate
              rw [if_neg hpop]
            have hx1 : truthy (getKey s.store (fbTextKey c)) = true := by
              cases hc : truthy (getKey s.store (fbTextKey c)) <;> simp_all
            have hx2 : truthy (getKey s.store (lblTextKey c)) = true := by
              cases hc : truthy (getKey s.store (lblTextKey c)) <;> simp_all
            constructor
            · rw [hF]
              exact htx
            · have hk := describeFallbackSection_store_frame c text (describePopulate c s)
                (lblTextKey c) dlbl_fb dlbl_dc dlbl_fd
              rw [hres2, hsp] at hk
              rw [hk]
              exact hx2
        unfold describeCore
        rw [hpid, describeFallbackSection_skip c text s1 hF]
        simp [hd]
    · -- the fallback section did nothing
      rw [← hs2] at hne hupd hcont htab hnp hdom
      have hdomv : getKey s2.store (domKey c) = some DummyVal.vDom := by
        simpa [domOk] using hdom
      by_cases hd : d = Display.LABEL
      · rw [if_pos hd] at h
        have hres1 : resState (describeLabelSection c text s2) = s1 := by
          rw [h]
          rfl
        have hlbl1 : getKey s1.store (lblTextKey c) = some (.vStr text) :=
          describeLabelSection_ok_char c text s2 s1 h
        have tfb : getKey s1.store (fbTextKey c) = getKey s2.store (fbTextKey c) := by
          have hk := describeLabelSection_store_frame c text s2 (fbTextKey c)
            dfb_lbl dfb_lc dfb_ld
          rw [hres1] at hk
          exact hk
        have tupd : getKey s1.store (updKey c) = getKey s2.store (updKey c) := by
          have hk := describeLabelSection_store_frame c text s2 (updKey c)
            dupd_lbl dupd_lc dupd_ld
          rw [hres1] at hk
          exact hk
        have tcont : getKey s1.store (c ++ descContainer) =
            getKey s2.store (c ++ descContainer) := by
          have hk := describeLabelSection_store_frame c text s2 (c ++ descContainer)
            ddc_lbl ddc_lc ddc_ld
          rw [hres1] at hk
          exact hk
        have ttab : getKey s1.store (c ++ fallbackTableId) =
            getKey s2.store (c ++ fallbackTableId) := by
          have hk := describeLabelSection_store_frame c text s2 (c ++ fallbackTableId)
            dft_lbl dft_lc dft_ld
          rw [hres1] at hk
          exact hk
        have tdom : getKey s1.store (domKey c) = getKey s2.store (domKey c) := by
          have hk := describeLabelSection_store_frame c text s2 (domKey c)
            ddom_lbl ddom_lc ddom_ld
          rw [hres1] at hk
          exact hk
        have tnp : idExists (c ++ fallbackDescId) s1.body = false := by
          have hk := describeLabelSection_body_absent c text s2 (c ++ fallbackDescId)
            dfd_lc dfd_ld hnp
          rw [hres1] at hk
          exact hk
        have hpid := describePopulate_id c s1 (Or.inl (tdom.trans hdomv))
        unfold describeCore
        rw [hpid, describeFallbackSection_noop c text s1 (by rw [tfb]; exact hne)
          (by rw [tupd]; exact hupd) (by rw [tcont]; exact hcont)
          (by rw [ttab]; exact htab) tnp (by simp [domOk, tdom.trans hdomv])]
        simp [hd, describeLabelSection_skip c text s1 hlbl1]
      · rw [if_neg hd] at h
        cases h
        have hpid := describePopulate_id c s1 (Or.inl hdomv)
        unfold describeCore
        rw [hpid, describeFallbackSection_noop c text s1 hne hupd hcont htab hnp hdom]
        simp [hd]

/-- Second run of `elemCore` with the same name and row content is the
identity on the state produced by a successful first run. -/
theorem elemCore_twice (c name inner : List Char) (d : Display) (s s1 : PState)
    (hinner : truthyStr (some inner) = true)
    (h : elemCore c name inner d s = .ok s1) :
    elemCore c name inner d s1 = .ok s1 := by
  have ddc_lc : c ++ descContainer ≠ c ++ labelContainer := append_ne_of_ne c (by decide)
  have ddc_lt : c ++ descContainer ≠ c ++ labelTableId := append_ne_of_ne c (by decide)
  have dft_lc : c ++ fallbackTableId ≠ c ++ labelContainer := append_ne_of_ne c (by decide)
  have dft_lt : c ++ fallbackTableId ≠ c ++ labelTableId := append_ne_of_ne c (by decide)
  have ddom_lc : domKey c ≠ c ++ labelContainer := append_ne_of_ne c (by decide)
  have ddom_lt : domKey c ≠ c ++ labelTableId := append_ne_of_ne c (by decide)
  have ddom_dc : domKey c ≠ c ++ descContainer := append_ne_of_ne c (by decide)
  have ddom_ft : domKey c ≠ c ++ fallbackTableId := append_ne_of_ne c (by decide)
  have dfd_lc : c ++ fallbackDescId ≠ c ++ labelContainer := append_ne_of_ne c (by decide)
  have dfd_lt : c ++ fallbackDescId ≠ c ++ labelTableId := append_ne_of_ne c (by decide)
  have dfd_lterow : c ++ fallbackDescId ≠ c ++ labelTableElId ++ name := by
    rw [List.append_assoc]
    exact append_ne_of_ne c
      (fun hh => ne_append_prefix_concrete labelTableElId fallbackDescId
        (by decide) (by decide) name hh.symm)
  unfold elemCore at h
  cases hsec : elemFallbackSection c name inner (elemPopulate c name s) with
  | err e sx => rw [hsec] at h; simp at h
  | ok s2 =>
    rw [hsec] at h
    simp only [] at h
    have hres2 : resState (elemFallbackSection c name inner (elemPopulate c name s)) = s2 := by
      rw [hsec]
      rfl
    have hlbl2 : s2.labelElements = (elemPopulate c name s).labelElements := by
      have hk := elemFallbackSection_lbl_frame c name inner (elemPopulate c name s)
      rw [hres2] at hk
      exact hk
    -- the cached body reference in s1, when the populate branch ran
    have hdomtrans : ∀ hpop : (!truthyStr (getKey s.fallbackElements (c ++ name)) ||
        !truthyStr (getKey s.labelElements (c ++ name))) = true,
        getKey s2.store (domKey c) = some DummyVal.vDom := by
      intro hpop
      have hdsp : getKey (elemPopulate c name s).store (domKey c) = some DummyVal.vDom := by
        unfold elemPopulate
        rw [if_pos hpop]
        unfold _populateDummyDOM
        exact getKey_setKey_self _ _ _
      have hk := elemFallbackSection_store_frame c name inner (elemPopulate c name s)
        (domKey c) ddom_dc ddom_ft
      rw [hres2] at hk
      exact hk.trans hdsp
    rcases elemFallbackSection_ok_char c name inner _ s2 hsec with hF |
        ⟨hs2, hne, hfalsy, hcont, hnp, htab⟩
    · -- the row content is stored in s2's fallback map
      by_cases hd : d = Display.LABEL
      · rw [if_pos hd] at h
        have hres1 : resState (elemLabelSection c name inner s2) = s1 := by
          rw [h]
          rfl
        have tfbmap : s1.fallbackElements = s2.fallbackElements := by
          have hk := elemLabelSection_fb_frame c name inner s2
          rw [hres1] at hk
          exact hk
        have hfb1 : getKey s1.fallbackElements (c ++ name) = some inner := by
          rw [tfbmap, hF]
        have tdom : getKey s1.store (domKey c) = getKey s2.store (domKey c) := by
          have hk := elemLabelSection_store_frame c name inner s2 (domKey c) ddom_lc ddom_lt
          rw [hres1] at hk
          exact hk
        rcases elemLabelSection_ok_char c name inner s2 s1 h with hL |
            ⟨hs1, hlne, hlfalsy, hlcont, hlnp, hldom, hltab⟩
        · -- label row stored as well
          have hpid : elemPopulate c name s1 = s1 := by
            apply elemPopulate_id
            by_cases hpop : (!truthyStr (getKey s.fallbackElements (c ++ name)) ||
                !truthyStr (getKey s.labelElements (c ++ name))) = true
            · exact Or.inl (tdom.trans (hdomtrans hpop))
            · right
              refine ⟨by rw [hfb1]; exact hinner, by rw [hL]; exact hinner⟩
          unfold elemCore
          rw [hpid, elemFallbackSection_skip c name inner s1 hfb1]
          simp [hd, elemLabelSection_skip c name inner s1 hL]
        · -- label section did nothing
          have hpid : elemPopulate c name s1 = s1 := by
            apply elemPopulate_id
            by_cases hpop : (!truthyStr (getKey s.fallbackElements (c ++ name)) ||
                !truthyStr (getKey s.labelElements (c ++ name))) = true
            · exact Or.inl (tdom.trans (hdomtrans hpop))
            · right
              have hx2 : truthyStr (getKey s.labelElements (c ++ name)) = true := by
                cases hc : truthyStr (getKey s.labelElements (c ++ name)) <;> simp_all
              refine ⟨by rw [hfb1]; exact hinner, ?_⟩
              exfalso
              rw [hlbl2] at hlfalsy
              unfold elemPopulate at hlfalsy
              rw [if_neg hpop] at hlfalsy
              rw [hlfalsy] at hx2
              cases hx2
          unfold elemCore
          rw [hpid, elemFallbackSection_skip c name inner s1 hfb1]
          simp [hd, elemLabelSection_noop c name inner s1 (by rw [hs1]; exact hlne)
            (by rw [hs1]; exact hlfalsy) (by rw [hs1]; exact hlcont)
            (by rw [hs1]; exact hlnp) (by rw [hs1]; exact hldom)
            (by rw [hs1]; exact hltab)]
      · rw [if_neg hd] at h
        cases h
        have hpid : elemPopulate c name s1 = s1 := by
          apply elemPopulate_id
          by_cases hpop : (!truthyStr (getKey s.fallbackElements (c ++ name)) ||
              !truthyStr (getKey s.labelElements (c ++ name))) = true
          · exact Or.inl (hdomtrans hpop)
          · right
            have hx2 : truthyStr (getKey s.labelElements (c ++ name)) = true := by
              cases hc : truthyStr (getKey s.labelElements (c ++ name)) <;> simp_all
            refine ⟨by rw [hF]; exact hinner, ?_⟩
            rw [hlbl2]
            unfold elemPopulate
            rw [if_neg hpop]
            exact hx2
        unfold elemCore
        rw [hpid, elemFallbackSection_skip c name inner s1 hF]
        simp [hd]
    · -- the fallback section did nothing
      rw [← hs2] at hne hfalsy hcont hnp htab
      by_cases hd : d = Display.LABEL
      · rw [if_pos hd] at h
        have hres1 : resState (elemLabelSection c name inner s2) = s1 := by
          rw [h]
          rfl
        have tfbmap : s1.fallbackElements = s2.fallbackElements := by
          have hk := elemLabelSection_fb_frame c name inner s2
          rw [hres1] at hk
          exact hk
        have tdom : getKey s1.store (domKey c) = getKey s2.store (domKey c) := by
          have hk := elemLabelSection_store_frame c name inner s2 (domKey c) ddom_lc ddom_lt
          rw [hres1] at hk
          exact hk
        have tcont : getKey s1.store (c ++ descContainer) =
            getKey s2.store (c ++ descContainer) := by
          have hk := elemLabelSection_store_frame c name inner s2 (c ++ descContainer)
            ddc_lc ddc_lt
          rw [hres1] at hk
          exact hk
        have ttab : getKey s1.store (c ++ fallbackTableId) =
            getKey s2.store (c ++ fallbackTableId) := by
          have hk := elemLabelSection_store_frame c name inner s2 (c ++ fallbackTableId)
            dft_lc dft_lt
          rw [hres1] at hk
          exact hk
        have tnp : idExists (c ++ fallbackDescId) s1.body = false := by
          have hk := elemLabelSection_body_absent c name inner s2 (c ++ fallbackDescId)
            dfd_lc dfd_lt dfd_lterow hnp
          rw [hres1] at hk
          exact hk
        -- when the fallback entry is falsy the populate branch must have run
        have hpoptrue : (!truthyStr (getKey s.fallbackElements (c ++ name)) ||
            !truthyStr (getKey s.labelElements (c ++ name))) = true := by
          by_cases hpop : (!truthyStr (getKey s.fallbackElements (c ++ name)) ||
              !truthyStr (getKey s.labelElements (c ++ name))) = true
          · exact hpop
          · exfalso
            have hx1 : truthyStr (getKey s.fallbackElements (c ++ name)) = true := by
              cases hc : truthyStr (getKey s.fallbackElements (c ++ name)) <;> simp_all
            rw [hs2] at hfalsy
            unfold elemPopulate at hfalsy
            rw [if_neg hpop] at hfalsy
            rw [hfalsy] at hx1
            cases hx1
        have hdomv := hdomtrans hpoptrue
        have hpid := elemPopulate_id c name s1 (Or.inl (tdom.trans hdomv))
        rcases elemLabelSection_ok_char c name inner s2 s1 h with hL |
            ⟨hs1, hlne, hlfalsy, hlcont, hlnp, hldom, hltab⟩
        · unfold elemCore
          rw [hpid, elemFallbackSection_noop c name inner s1 (by rw [tfbmap]; exact hne)
            (by rw [tfbmap]; exact hfalsy) (by rw [tcont]; exact hcont) tnp
            (by rw [ttab]; exact htab)]
          simp [hd, elemLabelSection_skip c name inner s1 hL]
        · unfold elemCore
          rw [hpid, elemFallbackSection_noop c name inner s1 (by rw [tfbmap]; exact hne)
            (by rw [tfbmap]; exact hfalsy) (by rw [tcont]; exact hcont) tnp
            (by rw [ttab]; exact htab)]
          simp [hd, elemLabelSection_noop c name inner s1 (by rw [hs1]; exact hlne)
            (by rw [hs1]; exact hlfalsy) (by rw [hs1]; exact hlcont)
            (by rw [hs1]; exact hlnp) (by rw [hs1]; exact hldom)
            (by rw [hs1]; exact hltab)]
      · rw [if_neg hd] at h
        cases h
        have hpoptrue : (!truthyStr (getKey s.fallbackElements (c ++ name)) ||
            !truthyStr (getKey s.labelElements (c ++ name))) = true := by
          by_cases hpop : (!truthyStr (getKey s.fallbackElements (c ++ name)) ||
              !truthyStr (getKey s.labelElements (c ++ name))) = true
          · exact hpop
          · exfalso
            have hx1 : truthyStr (getKey s.fallbackElements (c ++ name)) = true := by
              cases hc : truthyStr (getKey s.fallbackElements (c ++ name)) <;> simp_all
            rw [hs2] at hfalsy
            unfold elemPopulate at hfalsy
            rw [if_neg hpop] at hfalsy
            rw [hfalsy] at hx1
            cases hx1
        have hdomv := hdomtrans hpoptrue
        have hpid := elemPopulate_id c name s1 (Or.inl hdomv)
        unfold elemCore
        rw [hpid, elemFallbackSection_noop c name inner s1 hne hfalsy hcont hnp htab]
        simp [hd]

/-- C2: publishing the same text twice in a row (same surface, same
arguments) mutates the store and the document tree only on the first call:
whenever the first call returns normally in state `s1`, running the very
same call again from `s1` returns normally with exactly the state `s1` —
no document mutation and no state update. -/
theorem c2_publish_twice (c n t : List Char) (d : Display) (s s1 : PState) :
    (describe c (.str t) d s = .ok s1 → describe c (.str t) d s1 = .ok s1)
    ∧ (describeElement c (.str n) (.str t) d s = .ok s1 →
       describeElement c (.str n) (.str t) d s1 = .ok s1) := by
  constructor
  · intro h
    cases hdt : _descriptionText t with
    | none =>
      simp only [describe, hdt] at h
      cases h
    | some text =>
      simp only [describe, hdt] at h ⊢
      exact describeCore_twice c text d s s1 (descriptionText_truthy t text hdt) h
  · intro h
    cases hdt : _descriptionText t with
    | none =>
      simp only [describeElement, hdt] at h
      cases h
    | some text =>
      cases hen : _elementName n with
      | none =>
        simp only [describeElement, hdt, hen] at h
        cases h
      | some elementName =>
        simp only [describeElement, hdt, hen] at h ⊢
        exact elemCore_twice c (_nameForID n) (rowInner elementName text) d s s1
          (rowInner_truthyStr elementName text) h

/-- C2 witness: concrete double publishes over a fresh one-canvas state. -/
theorem c2_publish_twice_witness :
    describe (cstr "c") (.str (cstr "hi")) .LABEL c2w1 = .ok c2w1
    ∧ describeElement (cstr "c") (.str (cstr "E")) (.str (cstr "hi")) .LABEL c2w2 =
        .ok c2w2 :=
  ⟨(c2_publish_twice (cstr "c") (cstr "E") (cstr "hi") .LABEL
      (initState [cstr "c"]) c2w1).1 (by rfl),
   (c2_publish_twice (cstr "c") (cstr "E") (cstr "hi") .LABEL
      (initState [cstr "c"]) c2w2).2 (by rfl)⟩

/-! Flatten and filter lemmas for the document forest. -/

theorem flat_graft (a b : Dom) : flat (graft a b) = flat a ++ flat b := by
  induction a with
  | nil => simp [graft, flat]
  | node d c n ihc ihn => simp [graft, flat, ihn, List.append_assoc]

theorem filter_nil_of_all {α : Type} (p : α → Bool) (l : List α)
    (h : l.all (fun a => !p a) = true) : l.filter p = [] := by
  induction l with
  | nil => rfl
  | cons a l ih =>
    simp only [List.all_cons, Bool.and_eq_true, Bool.not_eq_true'] at h
    simp [List.filter_cons, h.1, ih h.2]

theorem setInnerHTML_filter (P Q : List Char → Bool) (i txt : List Char) (kids t t' : Dom)
    (h : setInnerHTML i txt kids t = some t') (hsep : sepUnder P Q t = true)
    (hPi : P i = true) (hQi : Q i = false)
    (hkids : (flat kids).all (fun m => !Q m.id) = true) :
    (flat t').filter (fun m => Q m.id) = (flat t).filter (fun m => Q m.id) := by
  induction t generalizing t' with
  | nil => simp [setInnerHTML] at h
  | node d c n ihc ihn =>
    simp only [sepUnder, Bool.and_eq_true] at hsep
    obtain ⟨⟨hhead, hsc⟩, hsn⟩ := hsep
    by_cases hj : d.id = i
    · rw [setInnerHTML, if_pos hj] at h
      cases h
      have hcnil : (flat c).filter (fun m => Q m.id) = [] := by
        apply filter_nil_of_all
        rcases Bool.or_eq_true_iff.mp hhead with hp | ha
        · rw [hj, hPi] at hp
          simp at hp
        · exact ha
      have hknil : (flat kids).filter (fun m => Q m.id) = [] :=
        filter_nil_of_all _ _ hkids
      simp [flat, List.filter_append, List.filter_cons, hj, hQi, hcnil, hknil]
    · rw [setInnerHTML, if_neg hj] at h
      cases hcc : setInnerHTML i txt kids c with
      | some cc =>
        rw [hcc] at h
        cases h
        simp [flat, List.filter_append, List.filter_cons, ihc cc hcc hsc]
      | none =>
        rw [hcc] at h
        cases hnn : setInnerHTML i txt kids n with
        | some nn =>
          rw [hnn] at h
          cases h
          simp [flat, List.filter_append, List.filter_cons, ihn nn hnn hsn]
        | none => rw [hnn] at h; cases h

theorem insertAdj_filter (Q : List Char → Bool) (i : List Char) (bef : Bool)
    (new_ t t' : Dom) (h : insertAdj i bef new_ t = some t')
    (hnew : (flat new_).all (fun m => !Q m.id) = true) :
    (flat t').filter (fun m => Q m.id) = (flat t).filter (fun m => Q m.id) := by
  have hnnil : (flat new_).filter (fun m => Q m.id) = [] := filter_nil_of_all _ _ hnew
  induction t generalizing t' with
  | nil => simp [insertAdj] at h
  | node d c n ihc ihn =>
    by_cases hj : d.id = i
    · rw [insertAdj, if_pos hj] at h
      cases h
      cases bef <;> simp [flat, flat_graft, List.filter_append, List.filter_cons, hnnil]
    · rw [insertAdj, if_neg hj] at h
      cases hcc : insertAdj i bef new_ c with
      | some cc =>
        rw [hcc] at h
        cases h
        simp [flat, List.filter_append, List.filter_cons, ihc cc hcc]
      | none =>
        rw [hcc] at h
        cases hnn : insertAdj i bef new_ n with
        | some nn =>
          rw [hnn] at h
          cases h
          simp [flat, List.filter_append, List.filter_cons, ihn nn hnn]
        | none => rw [hnn] at h; cases h

theorem appendChild_filter (Q : List Char → Bool) (i : List Char) (x t t' : Dom)
    (h : appendChild i x t = some t')
    (hx : (flat x).all (fun m => !Q m.id) = true) :
    (flat t').filter (fun m => Q m.id) = (flat t).filter (fun m => Q m.id) := by
  have hxnil : (flat x).filter (fun m => Q m.id) = [] := filter_nil_of_all _ _ hx
  induction t generalizing t' with
  | nil => simp [appendChild] at h
  | node d c n ihc ihn =>
    by_cases hj : d.id = i
    · rw [appendChild, if_pos hj] at h
      cases h
      simp [flat, flat_graft, List.filter_append, List.filter_cons, hxnil]
    · rw [appendChild, if_neg hj] at h
      cases hcc : appendChild i x c with
      | some cc =>
        rw [hcc] at h
        cases h
        simp [flat, List.filter_append, List.filter_cons, ihc cc hcc]
      | none =>
        rw [hcc] at h
        cases hnn : appendChild i x n with
        | some nn =>
          rw [hnn] at h
          cases h
          simp [flat, List.filter_append, List.filter_cons, ihn nn hnn]
        | none => rw [hnn] at h; cases h

/-! `Q`-freeness of a flat forest and `sepUnder` are preserved by the three
document operations, provided the inserted material is `Q`-free. -/

theorem sepUnder_graft (P Q : List Char → Bool) (a b : Dom) :
    sepUnder P Q (graft a b) = (sepUnder P Q a && sepUnder P Q b) := by
  induction a with
  | nil => simp [graft, sepUnder]
  | node d c n ihc ihn =>
    simp [graft, sepUnder, ihn, Bool.and_assoc]

theorem setInnerHTML_all (Q : List Char → Bool) (i txt : List Char) (kids t t' : Dom)
    (h : setInnerHTML i txt kids t = some t')
    (hka : (flat kids).all (fun m => !Q m.id) = true)
    (hta : (flat t).all (fun m => !Q m.id) = true) :
    (flat t').all (fun m => !Q m.id) = true := by
  induction t generalizing t' with
  | nil => simp [setInnerHTML] at h
  | node d c n ihc ihn =>
    simp only [flat, List.all_cons, List.all_append, Bool.and_eq_true] at hta
    obtain ⟨hd0, hc0, hn0⟩ := hta
    by_cases hj : d.id = i
    · rw [setInnerHTML, if_pos hj] at h
      cases h
      simp [flat, List.all_cons, List.all_append, hd0, hka, hn0]
    · rw [setInnerHTML, if_neg hj] at h
      cases hcc : setInnerHTML i txt kids c with
      | some cc =>
        rw [hcc] at h
        cases h
        simp [flat, List.all_cons, List.all_append, hd0, ihc cc hcc hc0, hn0]
      | none =>
        rw [hcc] at h
        cases hnn : setInnerHTML i txt kids n with
        | some nn =>
          rw [hnn] at h
          cases h
          simp [flat, List.all_cons, List.all_append, hd0, hc0, ihn nn hnn hn0]
        | none => rw [hnn] at h; cases h

theorem insertAdj_all (Q : List Char → Bool) (i : List Char) (bef : Bool)
    (new_ t t' : Dom) (h : insertAdj i bef new_ t = some t')
    (hna : (flat new_).all (fun m => !Q m.id) = true)
    (hta : (flat t).all (fun m => !Q m.id) = true) :
    (flat t').all (fun m => !Q m.id) = true := by
  induction t generalizing t' with
  | nil => simp [insertAdj] at h
  | node d c n ihc ihn =>
    simp only [flat, List.all_cons, List.all_append, Bool.and_eq_true] at hta
    obtain ⟨hd0, hc0, hn0⟩ := hta
    by_cases hj : d.id = i
    · rw [insertAdj, if_pos hj] at h
      cases h
      cases bef <;>
        simp [flat, flat_graft, List.all_cons, List.all_append, hd0, hc0, hn0, hna]
    · rw [insertAdj, if_neg hj] at h
      cases hcc : insertAdj i bef new_ c with
      | some cc =>
        rw [hcc] at h
        cases h
        simp [flat, List.all_cons, List.all_append, hd0, ihc cc hcc hc0, hn0]
      | none =>
        rw [hcc] at h
        cases hnn : insertAdj i bef new_ n with
        | some nn =>
          rw [hnn] at h
          cases h
          simp [flat, List.all_cons, List.all_append, hd0, hc0, ihn nn hnn hn0]
        | none => rw [hnn] at h; cases h

theorem appendChild_all (Q : List Char → Bool) (i : List Char) (x t t' : Dom)
    (h : appendChild i x t = some t')
    (hxa : (flat x).all (fun m => !Q m.id) = true)
    (hta : (flat t).all (fun m => !Q m.id) = true) :
    (flat t').all (fun m => !Q m.id) = true := by
  induction t generalizing t' with
  | nil => simp [appendChild] at h
  | node d c n ihc ihn =>
    simp only [flat, List.all_cons, List.all_append, Bool.and_eq_true] at hta
    obtain ⟨hd0, hc0, hn0⟩ := hta
    by_cases hj : d.id = i
    · rw [appendChild, if_pos hj] at h
      cases h
      simp [flat, flat_graft, List.all_cons, List.all_append, hd0, hc0, hn0, hxa]
    · rw [appendChild, if_neg hj] at h
      cases hcc : appendChild i x c with
      | some cc =>
        rw [hcc] at h
        cases h
        simp [flat, List.all_cons, List.all_append, hd0, ihc cc hcc hc0, hn0]
      | none =>
        rw [hcc] at h
        cases hnn : appendChild i x n with
        | some nn =>
          rw [hnn] at h
          cases h
          simp [flat, List.all_cons, List.all_append, hd0, hc0, ihn nn hnn hn0]
        | none => rw [hnn] at h; cases h

theorem sepUnder_setInnerHTML (P Q : List Char → Bool) (i txt : List Char)
    (kids t t' : Dom) (h : setInnerHTML i txt kids t = some t')
    (hka : (flat kids).all (fun m => !Q m.id) = true)
    (hks : sepUnder P Q kids = true) (hsep : sepUnder P Q t = true) :
    sepUnder P Q t' = true := by
  induction t generalizing t' with
  | nil => simp [setInnerHTML] at h
  | node d c n ihc ihn =>
    simp only [sepUnder, Bool.and_eq_true] at hsep
    obtain ⟨⟨hhead, hsc⟩, hsn⟩ := hsep
    by_cases hj : d.id = i
    · rw [setInnerHTML, if_pos hj] at h
      cases h
      simp only [sepUnder, Bool.and_eq_true]
      exact ⟨⟨by simp [hka], hks⟩, hsn⟩
    · rw [setInnerHTML, if_neg hj] at h
      cases hcc : setInnerHTML i txt kids c with
      | some cc =>
        rw [hcc] at h
        cases h
        simp only [sepUnder, Bool.and_eq_true]
        refine ⟨⟨?_, ihc cc hcc hsc⟩, hsn⟩
        rcases Bool.or_eq_true_iff.mp hhead with hp | ha
        · simp [hp]
        · simp [setInnerHTML_all Q i txt kids c cc hcc hka ha]
      | none =>
        rw [hcc] at h
        cases hnn : setInnerHTML i txt kids n with
        | some nn =>
          rw [hnn] at h
          cases h
          simp only [sepUnder, Bool.and_eq_true]
          exact ⟨⟨hhead, hsc⟩, ihn nn hnn hsn⟩
        | none => rw [hnn] at h; cases h

theorem sepUnder_insertAdj (P Q : List Char → Bool) (i : List Char) (bef : Bool)
    (new_ t t' : Dom) (h : insertAdj i bef new_ t = some t')
    (hna : (flat new_).all (fun m => !Q m.id) = true)
    (hns : sepUnder P Q new_ = true) (hsep : sepUnder P Q t = true) :
    sepUnder P Q t' = true := by
  induction t generalizing t' with
  | nil => simp [insertAdj] at h
  | node d c n ihc ihn =>
    simp only [sepUnder, Bool.and_eq_true] at hsep
    obtain ⟨⟨hhead, hsc⟩, hsn⟩ := hsep
    by_cases hj : d.id = i
    · rw [insertAdj, if_pos hj] at h
      cases h
      cases bef <;> simp [sepUnder, sepUnder_graft, hhead, hsc, hsn, hns]
    · rw [insertAdj, if_neg hj] at h
      cases hcc : insertAdj i bef new_ c with
      | some cc =>
        rw [hcc] at h
        cases h
        simp only [sepUnder, Bool.and_eq_true]
        refine ⟨⟨?_, ihc cc hcc hsc⟩, hsn⟩
        rcases Bool.or_eq_true_iff.mp hhead with hp | ha
        · simp [hp]
        · simp [insertAdj_all Q i bef new_ c cc hcc hna ha]
      | none =>
        rw [hcc] at h
        cases hnn : insertAdj i bef new_ n with
        | some nn =>
          rw [hnn] at h
          cases h
          simp only [sepUnder, Bool.and_eq_true]
          exact ⟨⟨hhead, hsc⟩, ihn nn hnn hsn⟩
        | none => rw [hnn] at h; cases h

theorem sepUnder_appendChild (P Q : List Char → Bool) (i : List Char) (x t t' : Dom)
    (h : appendChild i x t = some t')
    (hxa : (flat x).all (fun m => !Q m.id) = true)
    (hxs : sepUnder P Q x = true) (hsep : sepUnder P Q t = true) :
    sepUnder P Q t' = true := by
  induction t generalizing t' with
  | nil => simp [appendChild] at h
  | node d c n ihc ihn =>
    simp only [sepUnder, Bool.and_eq_true] at hsep
    obtain ⟨⟨hhead, hsc⟩, hsn⟩ := hsep
    by_cases hj : d.id = i
    · rw [appendChild, if_pos hj] at h
      cases h
      simp only [sepUnder, sepUnder_graft, Bool.and_eq_true]
      refine ⟨⟨?_, hsc, hxs⟩, hsn⟩
      rcases Bool.or_eq_true_iff.mp hhead with hp | ha
      · simp [hp]
      · simp [flat_graft, List.all_append, ha, hxa]
    · rw [appendChild, if_neg hj] at h
      cases hcc : appendChild i x c with
      | some cc =>
        rw [hcc] at h
        cases h
        simp only [sepUnder, Bool.and_eq_true]
        refine ⟨⟨?_, ihc cc hcc hsc⟩, hsn⟩
        rcases Bool.or_eq_true_iff.mp hhead with hp | ha
        · simp [hp]
        · simp [appendChild_all Q i x c cc hcc hxa ha]
      | none =>
        rw [hcc] at h
        cases hnn : appendChild i x n with
        | some nn =>
          rw [hnn] at h
          cases h
          simp only [sepUnder, Bool.and_eq_true]
          exact ⟨⟨hhead, hsc⟩, ihn nn hnn hsn⟩
        | none => rw [hnn] at h; cases h

/-! Per-stage preservation of a protected id class `Q` in the document
forest, given separation `sepUnder P Q` for the wiped target ids `P`. -/

theorem fallbackPCreate_filter (P Q : List Char → Bool) (c : List Char) (s : PState)
    (hsep : sepUnder P Q s.body = true) (hPc : P c = true) (hQc : Q c = false)
    (hPfd : P (c ++ fallbackDescId) = true)
    (hQdc : Q (c ++ descContainer) = false) (hQfd : Q (c ++ fallbackDescId) = false) :
    (flat (resState (fallbackPCreate c s)).body).filter (fun m => Q m.id) =
      (flat s.body).filter (fun m => Q m.id)
    ∧ sepUnder P Q (resState (fallbackPCreate c s)).body = true := by
  unfold fallbackPCreate
  repeat' split
  all_goals simp only [resState]
  all_goals
    first
      | exact ⟨trivial, hsep⟩
      | exact ⟨rfl, hsep⟩
      | exact ⟨setInnerHTML_filter P Q _ _ _ _ _ (by assumption) hsep hPc hQc
            (by simp [descRegionNode, pNode, flat, hQdc, hQfd]),
          sepUnder_setInnerHTML P Q _ _ _ _ _ (by assumption)
            (by simp [descRegionNode, pNode, flat, hQdc, hQfd])
            (by simp [descRegionNode, pNode, sepUnder, flat, hQfd]) hsep⟩
      | exact ⟨insertAdj_filter Q _ _ _ _ _ (by assumption) (by simp [pNode, flat, hQfd]),
          sepUnder_insertAdj P Q _ _ _ _ _ (by assumption) (by simp [pNode, flat, hQfd])
            (by simp [pNode, sepUnder, flat]) hsep⟩

theorem fallbackPContent_filter (P Q : List Char → Bool) (c text : List Char) (s : PState)
    (hsep : sepUnder P Q s.body = true) (hPfd : P (c ++ fallbackDescId) = true)
    (hQfd : Q (c ++ fallbackDescId) = false) :
    (flat (resState (fallbackPContent c text s)).body).filter (fun m => Q m.id) =
      (flat s.body).filter (fun m => Q m.id)
    ∧ sepUnder P Q (resState (fallbackPContent c text s)).body = true := by
  unfold fallbackPContent
  repeat' split
  all_goals simp only [resState]
  all_goals
    first
      | exact ⟨trivial, hsep⟩
      | exact ⟨rfl, hsep⟩
      | exact ⟨setInnerHTML_filter P Q _ _ _ _ _ (by assumption) hsep hPfd hQfd
            (by simp [flat]),
          sepUnder_setInnerHTML P Q _ _ _ _ _ (by assumption) (by simp [flat])
            (by simp [sepUnder]) hsep⟩

theorem labelPCreate_filter (P Q : List Char → Bool) (c : List Char) (s : PState)
    (hsep : sepUnder P Q s.body = true)
    (hQlc : Q (c ++ labelContainer) = false) (hQld : Q (c ++ labelDescId) = false) :
    (flat (resState (labelPCreate c s)).body).filter (fun m => Q m.id) =
      (flat s.body).filter (fun m => Q m.id)
    ∧ sepUnder P Q (resState (labelPCreate c s)).body = true := by
  unfold labelPCreate
  repeat' split
  all_goals simp only [resState]
  all_goals
    first
      | exact ⟨trivial, hsep⟩
      | exact ⟨rfl, hsep⟩
      | exact ⟨insertAdj_filter Q _ _ _ _ _ (by assumption)
            (by simp [labelDivNode, pNode, flat, hQlc, hQld]),
          sepUnder_insertAdj P Q _ _ _ _ _ (by assumption)
            (by simp [labelDivNode, pNode, flat, hQlc, hQld])
            (by simp [labelDivNode, pNode, sepUnder, flat, hQld]) hsep⟩
      | exact ⟨insertAdj_filter Q _ _ _ _ _ (by assumption) (by simp [pNode, flat, hQld]),
          sepUnder_insertAdj P Q _ _ _ _ _ (by assumption) (by simp [pNode, flat, hQld])
            (by simp [pNode, sepUnder, flat]) hsep⟩

theorem labelPContent_filter (P Q : List Char → Bool) (c text : List Char) (s : PState)
    (hsep : sepUnder P Q s.body = true) (hPld : P (c ++ labelDescId) = true)
    (hQld : Q (c ++ labelDescId) = false) :
    (flat (resState (labelPContent c text s)).body).filter (fun m => Q m.id) =
      (flat s.body).filter (fun m => Q m.id)
    ∧ sepUnder P Q (resState (labelPContent c text s)).body = true := by
  unfold labelPContent
  repeat' split
  all_goals simp only [resState]
  all_goals
    first
      | exact ⟨trivial, hsep⟩
      | exact ⟨rfl, hsep⟩
      | exact ⟨setInnerHTML_filter P Q _ _ _ _ _ (by assumption) hsep hPld hQld
            (by simp [flat]),
          sepUnder_setInnerHTML P Q _ _ _ _ _ (by assumption) (by simp [flat])
            (by simp [sepUnder]) hsep⟩

theorem labelTCreate_filter (P Q : List Char → Bool) (c : List Char) (s : PState)
    (hsep : sepUnder P Q s.body = true)
    (hQlc : Q (c ++ labelContainer) = false) (hQlt : Q (c ++ labelTableId) = false) :
    (flat (resState (labelTCreate c s)).body).filter (fun m => Q m.id) =
      (flat s.body).filter (fun m => Q m.id)
    ∧ sepUnder P Q (resState (labelTCreate c s)).body = true := by
  unfold labelTCreate
  repeat' split
  all_goals simp only [resState]
  all_goals
    first
      | exact ⟨trivial, hsep⟩
      | exact ⟨rfl, hsep⟩
      | exact ⟨insertAdj_filter Q _ _ _ _ _ (by assumption)
            (by simp [labelDivNode, labelTableNode, flat, hQlc, hQlt]),
          sepUnder_insertAdj P Q _ _ _ _ _ (by assumption)
            (by simp [labelDivNode, labelTableNode, flat, hQlc, hQlt])
            (by simp [labelDivNode, labelTableNode, sepUnder, flat, hQlt]) hsep⟩
      | exact ⟨insertAdj_filter Q _ _ _ _ _ (by assumption)
            (by simp [labelTableNode, flat, hQlt]),
          sepUnder_insertAdj P Q _ _ _ _ _ (by assumption)
            (by simp [labelTableNode, flat, hQlt])
            (by simp [labelTableNode, sepUnder, flat]) hsep⟩

theorem labelTRow_filter (P Q : List Char → Bool) (c name inner : List Char) (s : PState)
    (hsep : sepUnder P Q s.body = true)
    (hProw : P (c ++ labelTableElId ++ name) = true)
    (hQrow : Q (c ++ labelTableElId ++ name) = false) :
    (flat (resState (labelTRow c name inner s)).body).filter (fun m => Q m.id) =
      (flat s.body).filter (fun m => Q m.id)
    ∧ sepUnder P Q (resState (labelTRow c name inner s)).body = true := by
  have hQrowA : Q (c ++ (labelTableElId ++ name)) = false := by
    rw [← List.append_assoc]
    exact hQrow
  unfold labelTRow
  repeat' split
  all_goals simp only [resState]
  all_goals
    first
      | exact ⟨trivial, hsep⟩
      | exact ⟨rfl, hsep⟩
      | exact
          (by
            have h1s := sepUnder_appendChild P Q _ _ _ _ (by assumption)
              (by simp [trNode, flat, hQrowA]) (by simp [trNode, sepUnder, flat]) hsep
            have h1f := appendChild_filter Q _ _ _ _ (by assumption)
              (by simp [trNode, flat, hQrowA])
            exact ⟨h1f, h1s⟩)
      | exact
          (by
            have h1s := sepUnder_appendChild P Q _ _ _ _ (by assumption)
              (by simp [trNode, flat, hQrowA]) (by simp [trNode, sepUnder, flat]) hsep
            have h1f := appendChild_filter Q _ _ _ _ (by assumption)
              (by simp [trNode, flat, hQrowA])
            have h2s := sepUnder_setInnerHTML P Q _ _ _ _ _ (by assumption)
              (by simp [flat]) (by simp [sepUnder]) h1s
            have h2f := setInnerHTML_filter P Q _ _ _ _ _ (by assumption) h1s hProw hQrow
              (by simp [flat])
            exact ⟨h2f.trans h1f, h2s⟩)

theorem fallbackTCreate_filter (P Q : List Char → Bool) (c : List Char) (s : PState)
    (hsep : sepUnder P Q s.body = true) (hPc : P c = true) (hQc : Q c = false)
    (hQdc : Q (c ++ descContainer) = false) (hQft : Q (c ++ fallbackTableId) = false)
    (hQnil : Q [] = false) :
    (flat (resState (fallbackTCreate c s)).body).filter (fun m => Q m.id) =
      (flat s.body).filter (fun m => Q m.id)
    ∧ sepUnder P Q (resState (fallbackTCreate c s)).body = true := by
  unfold fallbackTCreate
  repeat' split
  all_goals simp only [resState]
  all_goals
    first
      | exact ⟨trivial, hsep⟩
      | exact ⟨rfl, hsep⟩
      | exact ⟨setInnerHTML_filter P Q _ _ _ _ _ (by assumption) hsep hPc hQc
            (by simp [descRegionNode, fallbackTableNode, captionNode, flat, hQdc, hQft, hQnil]),
          sepUnder_setInnerHTML P Q _ _ _ _ _ (by assumption)
            (by simp [descRegionNode, fallbackTableNode, captionNode, flat, hQdc, hQft, hQnil])
            (by simp [descRegionNode, fallbackTableNode, captionNode, sepUnder, flat,
              hQft, hQnil]) hsep⟩
      | exact ⟨insertAdj_filter Q _ _ _ _ _ (by assumption)
            (by simp [fallbackTableNode, captionNode, flat, hQft, hQnil]),
          sepUnder_insertAdj P Q _ _ _ _ _ (by assumption)
            (by simp [fallbackTableNode, captionNode, flat, hQft, hQnil])
            (by simp [fallbackTableNode, captionNode, sepUnder, flat, hQnil]) hsep⟩

theorem fallbackTRow_filter (P Q : List Char → Bool) (c name inner : List Char) (s : PState)
    (hsep : sepUnder P Q s.body = true)
    (hProw : P (c ++ fallbackTableElId ++ name) = true)
    (hQrow : Q (c ++ fallbackTableElId ++ name) = false) :
    (flat (resState (fallbackTRow c name inner s)).body).filter (fun m => Q m.id) =
      (flat s.body).filter (fun m => Q m.id)
    ∧ sepUnder P Q (resState (fallbackTRow c name inner s)).body = true := by
  have hQrowA : Q (c ++ (fallbackTableElId ++ name)) = false := by
    rw [← List.append_assoc]
    exact hQrow
  unfold fallbackTRow
  repeat' split
  all_goals simp only [resState]
  all_goals
    first
      | exact ⟨trivial, hsep⟩
      | exact ⟨rfl, hsep⟩
      | exact
          (by
            have h1s := sepUnder_appendChild P Q _ _ _ _ (by assumption)
              (by simp [trNode, flat, hQrowA]) (by simp [trNode, sepUnder, flat]) hsep
            have h1f := appendChild_filter Q _ _ _ _ (by assumption)
              (by simp [trNode, flat, hQrowA])
            exact ⟨h1f, h1s⟩)
      | exact
          (by
            have h1s := sepUnder_appendChild P Q _ _ _ _ (by assumption)
              (by simp [trNode, flat, hQrowA]) (by simp [trNode, sepUnder, flat]) hsep
            have h1f := appendChild_filter Q _ _ _ _ (by assumption)
              (by simp [trNode, flat, hQrowA])
            have h2s := sepUnder_setInnerHTML P Q _ _ _ _ _ (by assumption)
              (by simp [flat]) (by simp [sepUnder]) h1s
            have h2f := setInnerHTML_filter P Q _ _ _ _ _ (by assumption) h1s hProw hQrow
              (by simp [flat])
            exact ⟨h2f.trans h1f, h2s⟩)

theorem describePopulate_body (c : List Char) (s : PState) :
    (describePopulate c s).body = s.body := by
  unfold describePopulate
  split
  · rfl
  · rfl

theorem elemPopulate_body (c name : List Char) (s : PState) :
    (elemPopulate c name s).body = s.body := by
  unfold elemPopulate
  split
  · rfl
  · rfl

/-! Composite filter preservation, following each function's control flow. -/

theorem _describeFallbackHTML_filter (P Q : List Char → Bool) (c text : List Char)
    (s : PState) (hsep : sepUnder P Q s.body = true) (hPc : P c = true) (hQc : Q c = false)
    (hPfd : P (c ++ fallbackDescId) = true) (hQfd : Q (c ++ fallbackDescId) = false)
    (hQdc : Q (c ++ descContainer) = false) :
    (flat (resState (_describeFallbackHTML c text s)).body).filter (fun m => Q m.id) =
      (flat s.body).filter (fun m => Q m.id)
    ∧ sepUnder P Q (resState (_describeFallbackHTML c text s)).body = true := by
  have hA := fallbackPCreate_filter P Q c s hsep hPc hQc hPfd hQdc hQfd
  unfold _describeFallbackHTML
  cases hc : fallbackPCreate c s with
  | err e sx =>
    rw [hc] at hA
    simp only [resState] at hA ⊢
    exact hA
  | ok s1 =>
    rw [hc] at hA
    simp only [resState] at hA
    have hB := fallbackPContent_filter P Q c text s1 hA.2 hPfd hQfd
    simp only [resState] at hB ⊢
    exact ⟨hB.1.trans hA.1, hB.2⟩

theorem describeFallbackSection_filter (P Q : List Char → Bool) (c text : List Char)
    (s : PState) (hsep : sepUnder P Q s.body = true) (hPc : P c = true) (hQc : Q c = false)
    (hPfd : P (c ++ fallbackDescId) = true) (hQfd : Q (c ++ fallbackDescId) = false)
    (hQdc : Q (c ++ descContainer) = false) :
    (flat (resState (describeFallbackSection c text s)).body).filter (fun m => Q m.id) =
      (flat s.body).filter (fun m => Q m.id)
    ∧ sepUnder P Q (resState (describeFallbackSection c text s)).body = true := by
  unfold describeFallbackSection
  repeat' split
  all_goals simp only [resState]
  all_goals
    first
      | exact ⟨trivial, hsep⟩
      | exact ⟨rfl, hsep⟩
      | exact _describeFallbackHTML_filter P Q c text s hsep hPc hQc hPfd hQfd hQdc
      | exact ⟨setInnerHTML_filter P Q _ _ _ _ _ (by assumption) hsep hPfd hQfd
            (by simp [flat]),
          sepUnder_setInnerHTML P Q _ _ _ _ _ (by assumption) (by simp [flat])
            (by simp [sepUnder]) hsep⟩

theorem _describeLabelHTML_filter (P Q : List Char → Bool) (c text : List Char)
    (s : PState) (hsep : sepUnder P Q s.body = true)
    (hPld : P (c ++ labelDescId) = true) (hQld : Q (c ++ labelDescId) = false)
    (hQlc : Q (c ++ labelContainer) = false) :
    (flat (resState (_describeLabelHTML c text s)).body).filter (fun m => Q m.id) =
      (flat s.body).filter (fun m => Q m.id)
    ∧ sepUnder P Q (resState (_describeLabelHTML c text s)).body = true := by
  have hA := labelPCreate_filter P Q c s hsep hQlc hQld
  unfold _describeLabelHTML
  cases hc : labelPCreate c s with
  | err e sx =>
    rw [hc] at hA
    simp only [resState] at hA ⊢
    exact hA
  | ok s1 =>
    rw [hc] at hA
    simp only [resState] at hA
    have hB := labelPContent_filter P Q c text s1 hA.2 hPld hQld
    simp only [resState] at hB ⊢
    exact ⟨hB.1.trans hA.1, hB.2⟩

theorem describeLabelSection_filter (P Q : List Char → Bool) (c text : List Char)
    (s : PState) (hsep : sepUnder P Q s.body = true)
    (hPld : P (c ++ labelDescId) = true) (hQld : Q (c ++ labelDescId) = false)
    (hQlc : Q (c ++ labelContainer) = false) :
    (flat (resState (describeLabelSection c text s)).body).filter (fun m => Q m.id) =
      (flat s.body).filter (fun m => Q m.id)
    ∧ sepUnder P Q (resState (describeLabelSection c text s)).body = true := by
  unfold describeLabelSection
  repeat' split
  all_goals simp only [resState]
  all_goals
    first
      | exact ⟨trivial, hsep⟩
      | exact ⟨rfl, hsep⟩
      | exact _describeLabelHTML_filter P Q c text s hsep hPld hQld hQlc
      | exact ⟨setInnerHTML_filter P Q _ _ _ _ _ (by assumption) hsep hPld hQld
            (by simp [flat]),
          sepUnder_setInnerHTML P Q _ _ _ _ _ (by assumption) (by simp [flat])
            (by simp [sepUnder]) hsep⟩

theorem _descElementFallbackHTML_filter (P Q : List Char → Bool) (c name inner : List Char)
    (s : PState) (hsep : sepUnder P Q s.body = true) (hPc : P c = true) (hQc : Q c = false)
    (hQdc : Q (c ++ descContainer) = false) (hQft : Q (c ++ fallbackTableId) = false)
    (hQnil : Q [] = false) (hProw : P (c ++ fallbackTableElId ++ name) = true)
    (hQrow : Q (c ++ fallbackTableElId ++ name) = false) :
    (flat (resState (_descElementFallbackHTML c name inner s)).body).filter
        (fun m => Q m.id) =
      (flat s.body).filter (fun m => Q m.id)
    ∧ sepUnder P Q (resState (_descElementFallbackHTML c name inner s)).body = true := by
  have hA := fallbackTCreate_filter P Q c s hsep hPc hQc hQdc hQft hQnil
  unfold _descElementFallbackHTML
  cases hc : fallbackTCreate c s with
  | err e sx =>
    rw [hc] at hA
    simp only [resState] at hA ⊢
    exact hA
  | ok s1 =>
    rw [hc] at hA
    simp only [resState] at hA
    have hB := fallbackTRow_filter P Q c name inner s1 hA.2 hProw hQrow
    simp only [resState] at hB ⊢
    exact ⟨hB.1.trans hA.1, hB.2⟩

theorem elemFallbackSection_filter (P Q : List Char → Bool) (c name inner : List Char)
    (s : PState) (hsep : sepUnder P Q s.body = true) (hPc : P c = true) (hQc : Q c = false)
    (hQdc : Q (c ++ descContainer) = false) (hQft : Q (c ++ fallbackTableId) = false)
    (hQnil : Q [] = false) (hProw : P (c ++ fallbackTableElId ++ name) = true)
    (hQrow : Q (c ++ fallbackTableElId ++ name) = false) :
    (flat (resState (elemFallbackSection c name inner s)).body).filter (fun m => Q m.id) =
      (flat s.body).filter (fun m => Q m.id)
    ∧ sepUnder P Q (resState (elemFallbackSection c name inner s)).body = true := by
  unfold elemFallbackSection
  repeat' split
  all_goals simp only [resState]
  all_goals
    first
      | exact ⟨trivial, hsep⟩
      | exact ⟨rfl, hsep⟩
      | exact _descElementFallbackHTML_filter P Q c name inner s hsep hPc hQc hQdc hQft
          hQnil hProw hQrow
      | exact ⟨setInnerHTML_filter P Q _ _ _ _ _ (by assumption) hsep hProw hQrow
            (by simp [flat]),
          sepUnder_setInnerHTML P Q _ _ _ _ _ (by assumption) (by simp [flat])
            (by simp [sepUnder]) hsep⟩

theorem _descElementLabelHTML_filter (P Q : List Char → Bool) (c name inner : List Char)
    (s : PState) (hsep : sepUnder P Q s.body = true)
    (hQlc : Q (c ++ labelContainer) = false) (hQlt : Q (c ++ labelTableId) = false)
    (hProw : P (c ++ labelTableElId ++ name) = true)
    (hQrow : Q (c ++ labelTableElId ++ name) = false) :
    (flat (resState (_descElementLabelHTML c name inner s)).body).filter
        (fun m => Q m.id) =
      (flat s.body).filter (fun m => Q m.id)
    ∧ sepUnder P Q (resState (_descElementLabelHTML c name inner s)).body = true := by
  have hA := labelTCreate_filter P Q c s hsep hQlc hQlt
  unfold _descElementLabelHTML
  cases hc : labelTCreate c s with
  | err e sx =>
    rw [hc] at hA
    simp only [resState] at hA ⊢
    exact hA
  | ok s1 =>
    rw [hc] at hA
    simp only [resState] at hA
    have hB := labelTRow_filter P Q c name inner s1 hA.2 hProw hQrow
    simp only [resState] at hB ⊢
    exact ⟨hB.1.trans hA.1, hB.2⟩

theorem elemLabelSection_filter (P Q : List Char → Bool) (c name inner : List Char)
    (s : PState) (hsep : sepUnder P Q s.body = true)
    (hQlc : Q (c ++ labelContainer) = false) (hQlt : Q (c ++ labelTableId) = false)
    (hProw : P (c ++ labelTableElId ++ name) = true)
    (hQrow : Q (c ++ labelTableElId ++ name) = false) :
    (flat (resState (elemLabelSection c name inner s)).body).filter (fun m => Q m.id) =
      (flat s.body).filter (fun m => Q m.id)
    ∧ sepUnder P Q (resState (elemLabelSection c name inner s)).body = true := by
  unfold elemLabelSection
  repeat' split
  all_goals simp only [resState]
  all_goals
    first
      | exact ⟨trivial, hsep⟩
      | exact ⟨rfl, hsep⟩
      | exact _descElementLabelHTML_filter P Q c name inner s hsep hQlc hQlt hProw hQrow
      | exact ⟨setInnerHTML_filter P Q _ _ _ _ _ (by assumption) hsep hProw hQrow
            (by simp [flat]),
          sepUnder_setInnerHTML P Q _ _ _ _ _ (by assumption) (by simp [flat])
            (by simp [sepUnder]) hsep⟩

theorem describeCore_filter (P Q : List Char → Bool) (c text : List Char) (d : Display)
    (s : PState) (hsep : sepUnder P Q s.body = true) (hPc : P c = true) (hQc : Q c = false)
    (hPfd : P (c ++ fallbackDescId) = true) (hQfd : Q (c ++ fallbackDescId) = false)
    (hQdc : Q (c ++ descContainer) = false)
    (hPld : P (c ++ labelDescId) = true) (hQld : Q (c ++ labelDescId) = false)
    (hQlc : Q (c ++ labelContainer) = false) :
    (flat (resState (describeCore c text d s)).body).filter (fun m => Q m.id) =
      (flat s.body).filter (fun m => Q m.id) := by
  have hsp : (describePopulate c s).body = s.body := describePopulate_body c s
  have hA := describeFallbackSection_filter P Q c text (describePopulate c s)
    (by rw [hsp]; exact hsep) hPc hQc hPfd hQfd hQdc
  rw [hsp] at hA
  unfold describeCore
  cases hc : describeFallbackSection c text (describePopulate c s) with
  | err e sx =>
    rw [hc] at hA
    simp only [resState] at hA ⊢
    exact hA.1
  | ok s2 =>
    rw [hc] at hA
    simp only [resState] at hA
    cases d with
    | LABEL =>
      have hB := describeLabelSection_filter P Q c text s2 hA.2 hPld hQld hQlc
      simp only [resState] at hB ⊢
      simp only [reduceIte]
      exact hB.1.trans hA.1
    | FALLBACK =>
      simp only [resState, reduceIte]
      exact hA.1
    | undef =>
      simp only [resState, reduceIte]
      exact hA.1

theorem elemCore_filter (P Q : List Char → Bool) (c name inner : List Char) (d : Display)
    (s : PState) (hsep : sepUnder P Q s.body = true) (hPc : P c = true) (hQc : Q c = false)
    (hQdc : Q (c ++ descContainer) = false) (hQft : Q (c ++ fallbackTableId) = false)
    (hQnil : Q [] = false) (hProwF : P (c ++ fallbackTableElId ++ name) = true)
    (hQrowF : Q (c ++ fallbackTableElId ++ name) = false)
    (hQlc : Q (c ++ labelContainer) = false) (hQlt : Q (c ++ labelTableId) = false)
    (hProwL : P (c ++ labelTableElId ++ name) = true)
    (hQrowL : Q (c ++ labelTableElId ++ name) = false) :
    (flat (resState (elemCore c name inner d s)).body).filter (fun m => Q m.id) =
      (flat s.body).filter (fun m => Q m.id) := by
  have hsp : (elemPopulate c name s).body = s.body := elemPopulate_body c name s
  have hA := elemFallbackSection_filter P Q c name inner (elemPopulate c name s)
    (by rw [hsp]; exact hsep) hPc hQc hQdc hQft hQnil hProwF hQrowF
  rw [hsp] at hA
  unfold elemCore
  cases hc : elemFallbackSection c name inner (elemPopulate c name s) with
  | err e sx =>
    rw [hc] at hA
    simp only [resState] at hA ⊢
    exact hA.1
  | ok s2 =>
    rw [hc] at hA
    simp only [resState] at hA
    cases d with
    | LABEL =>
      have hB := elemLabelSection_filter P Q c name inner s2 hA.2 hQlc hQlt hProwL hQrowL
      simp only [resState] at hB ⊢
      simp only [reduceIte]
      exact hB.1.trans hA.1
    | FALLBACK =>
      simp only [resState, reduceIte]
      exact hA.1
    | undef =>
      simp only [resState, reduceIte]
      exact hA.1

/-! Prefix and equality algebra on concatenated ids. -/

theorem append_beq_left (c a b : List Char) : (c ++ a == c ++ b) = (a == b) := by
  by_cases h : a = b
  · subst h
    simp
  · rw [beq_eq_false_iff_ne.mpr h,
      beq_eq_false_iff_ne.mpr (fun hh => h (List.append_cancel_left hh))]

theorem isPrefixOf_append_left (c a b : List Char) :
    (c ++ a).isPrefixOf (c ++ b) = a.isPrefixOf b := by
  induction c with
  | nil => rfl
  | cons h t ih => simp [List.isPrefixOf, ih]

theorem self_beq_append_false (c x : List Char) (hx : x ≠ []) : (c == c ++ x) = false := by
  apply beq_eq_false_iff_ne.mpr
  intro h
  have h2 := congrArg List.length h
  rw [List.length_append] at h2
  have hx0 : x.length = 0 := by omega
  exact hx (List.eq_nil_of_length_eq_zero hx0)

theorem nil_beq_append_false (c x : List Char) (hx : x ≠ []) :
    (([] : List Char) == c ++ x) = false := by
  apply beq_eq_false_iff_ne.mpr
  intro h
  rw [eq_comm, List.append_eq_nil] at h
  exact hx h.2

theorem isPrefixOf_nil_false (l : List Char) (hl : l ≠ []) :
    l.isPrefixOf ([] : List Char) = false := by
  cases l with
  | nil => exact absurd rfl hl
  | cons a as => rfl

theorem append_isPrefixOf_self_false (c x : List Char) (hx : x ≠ []) :
    (c ++ x).isPrefixOf c = false := by
  induction c with
  | nil =>
    cases x with
    | nil => exact absurd rfl hx
    | cons a as => rfl
  | cons h t ih => simp [List.isPrefixOf, ih]

theorem not_prefix_of_append {A B : List Char} (h1 : ¬ A <+: B) (h2 : ¬ B <+: A)
    (x : List Char) : ¬ B <+: A ++ x := by
  intro h
  obtain ⟨y, hy⟩ := h
  rcases append_overlap_prefix hy with hp | hp
  · exact h2 hp
  · exact h1 hp

theorem isPrefixOf_false_of_not_prefix {a b : List Char} (h : ¬ a <+: b) :
    a.isPrefixOf b = false := by
  cases hab : a.isPrefixOf b
  · rfl
  · exact absurd (List.isPrefixOf_iff_prefix.mp hab) h

theorem not_prefix_of_isPrefixOf_false {a b : List Char} (h : a.isPrefixOf b = false) :
    ¬ a <+: b := by
  intro hp
  rw [List.isPrefixOf_iff_prefix.mpr hp] at h
  cases h

theorem isPrefixOf_append_self (a x : List Char) : a.isPrefixOf (a ++ x) = true :=
  List.isPrefixOf_iff_prefix.mpr (List.prefix_append a x)

/-! Evaluation of the id classes on the ids each path touches. -/

theorem labelRegionId_append (c x : List Char) :
    labelRegionId c (c ++ x) =
      (x == labelContainer || x == labelDescId || x == labelTableId ||
        labelTableElId.isPrefixOf x) := by
  unfold labelRegionId
  rw [append_beq_left, append_beq_left, append_beq_left, isPrefixOf_append_left]

theorem labelRegionId_self (c : List Char) : labelRegionId c c = false := by
  unfold labelRegionId
  rw [self_beq_append_false c labelContainer (by decide),
    self_beq_append_false c labelDescId (by decide),
    self_beq_append_false c labelTableId (by decide),
    append_isPrefixOf_self_false c labelTableElId (by decide)]
  rfl

theorem labelRegionId_nil (c : List Char) : labelRegionId c [] = false := by
  unfold labelRegionId
  rw [nil_beq_append_false c labelContainer (by decide),
    nil_beq_append_false c labelDescId (by decide),
    nil_beq_append_false c labelTableId (by decide),
    isPrefixOf_nil_false (c ++ labelTableElId)
      (fun hh => by rw [List.append_eq_nil] at hh; cases hh.2)]
  rfl

theorem fallbackWipeId_self (c : List Char) : fallbackWipeId c c = true := by
  unfold fallbackWipeId
  simp

theorem fallbackWipeId_fd (c : List Char) : fallbackWipeId c (c ++ fallbackDescId) = true := by
  unfold fallbackWipeId
  simp

theorem fallbackWipeId_row (c nm : List Char) :
    fallbackWipeId c (c ++ fallbackTableElId ++ nm) = true := by
  unfold fallbackWipeId
  rw [List.append_assoc, isPrefixOf_append_left]
  simp [isPrefixOf_append_self]

theorem surfacePrefixed_self (b : List Char) : surfacePrefixed b b = true := by
  unfold surfacePrefixed
  exact List.isPrefixOf_iff_prefix.mpr (List.prefix_refl b)

theorem surfacePrefixed_append (b x : List Char) : surfacePrefixed b (b ++ x) = true :=
  isPrefixOf_append_self b x

/-! Keyed frames of the element maps: each row stage writes exactly one key. -/

theorem fallbackTRow_fb_keyed (c name inner kk : List Char) (s : PState)
    (hk : kk ≠ c ++ name) :
    getKey (resState (fallbackTRow c name inner s)).fallbackElements kk =
      getKey s.fallbackElements kk := by
  unfold fallbackTRow
  repeat' split
  all_goals simp only [resState]
  all_goals first | rfl | exact getKey_setKey_ne _ _ _ _ hk

theorem labelTRow_lbl_keyed (c name inner kk : List Char) (s : PState)
    (hk : kk ≠ c ++ name) :
    getKey (resState (labelTRow c name inner s)).labelElements kk =
      getKey s.labelElements kk := by
  unfold labelTRow
  repeat' split
  all_goals simp only [resState]
  all_goals first | rfl | exact getKey_setKey_ne _ _ _ _ hk

theorem _descElementFallbackHTML_fb_keyed (c name inner kk : List Char) (s : PState)
    (hk : kk ≠ c ++ name) :
    getKey (resState (_descElementFallbackHTML c name inner s)).fallbackElements kk =
      getKey s.fallbackElements kk := by
  have hA := fallbackTCreate_maps_frame c s
  unfold _descElementFallbackHTML
  cases hc : fallbackTCreate c s with
  | err e sx =>
    rw [hc] at hA
    simp only [resState] at hA ⊢
    exact hA.1 ▸ rfl
  | ok s1 =>
    rw [hc] at hA
    simp only [resState] at hA
    have hB := fallbackTRow_fb_keyed c name inner kk s1 hk
    simp only [resState] at hB ⊢
    rw [hB, hA.1]

theorem _descElementLabelHTML_lbl_keyed (c name inner kk : List Char) (s : PState)
    (hk : kk ≠ c ++ name) :
    getKey (resState (_descElementLabelHTML c name inner s)).labelElements kk =
      getKey s.labelElements kk := by
  have hA := labelTCreate_maps_frame c s
  unfold _descElementLabelHTML
  cases hc : labelTCreate c s with
  | err e sx =>
    rw [hc] at hA
    simp only [resState] at hA ⊢
    exact hA.2 ▸ rfl
  | ok s1 =>
    rw [hc] at hA
    simp only [resState] at hA
    have hB := labelTRow_lbl_keyed c name inner kk s1 hk
    simp only [resState] at hB ⊢
    rw [hB, hA.2]

theorem elemFallbackSection_fb_keyed (c name inner kk : List Char) (s : PState)
    (hk : kk ≠ c ++ name) :
    getKey (resState (elemFallbackSection c name inner s)).fallbackElements kk =
      getKey s.fallbackElements kk := by
  unfold elemFallbackSection
  repeat' split
  all_goals simp only [resState]
  all_goals
    first
    | rfl
    | exact getKey_setKey_ne _ _ _ _ hk
    | exact _descElementFallbackHTML_fb_keyed c name inner kk s hk

theorem elemLabelSection_lbl_keyed (c name inner kk : List Char) (s : PState)
    (hk : kk ≠ c ++ name) :
    getKey (resState (elemLabelSection c name inner s)).labelElements kk =
      getKey s.labelElements kk := by
  unfold elemLabelSection
  repeat' split
  all_goals simp only [resState]
  all_goals
    first
    | rfl
    | exact getKey_setKey_ne _ _ _ _ hk
    | exact _descElementLabelHTML_lbl_keyed c name inner kk s hk

/-! The describe path never touches the element maps. -/

theorem _populateDummyDOM_maps_frame (c : List Char) (s : PState) :
    (_populateDummyDOM c s).fallbackElements = s.fallbackElements
    ∧ (_populateDummyDOM c s).labelElements = s.labelElements := by
  unfold _populateDummyDOM
  exact ⟨rfl, rfl⟩

theorem describePopulate_maps_frame (c : List Char) (s : PState) :
    (describePopulate c s).fallbackElements = s.fallbackElements
    ∧ (describePopulate c s).labelElements = s.labelElements := by
  unfold describePopulate
  split
  · exact _populateDummyDOM_maps_frame c s
  · exact ⟨rfl, rfl⟩

theorem elemPopulate_maps_frame (c name : List Char) (s : PState) :
    (elemPopulate c name s).fallbackElements = s.fallbackElements
    ∧ (elemPopulate c name s).labelElements = s.labelElements := by
  unfold elemPopulate
  split
  · exact _populateDummyDOM_maps_frame c s
  · exact ⟨rfl, rfl⟩

theorem fallbackPCreate_maps_frame (c : List Char) (s : PState) :
    (resState (fallbackPCreate c s)).fallbackElements = s.fallbackElements
    ∧ (resState (fallbackPCreate c s)).labelElements = s.labelElements := by
  unfold fallbackPCreate
  repeat' split
  all_goals simp_all [resState]

theorem fallbackPContent_maps_frame (c text : List Char) (s : PState) :
    (resState (fallbackPContent c text s)).fallbackElements = s.fallbackElements
    ∧ (resState (fallbackPContent c text s)).labelElements = s.labelElements := by
  unfold fallbackPContent
  repeat' split
  all_goals simp_all [resState]

theorem _describeFallbackHTML_maps_frame (c text : List Char) (s : PState) :
    (resState (_describeFallbackHTML c text s)).fallbackElements = s.fallbackElements
    ∧ (resState (_describeFallbackHTML c text s)).labelElements = s.labelElements := by
  have hA := fallbackPCreate_maps_frame c s
  unfold _describeFallbackHTML
  cases hc : fallbackPCreate c s with
  | err e sx =>
    rw [hc] at hA
    simpa [resState] using hA
  | ok s1 =>
    rw [hc] at hA
    simp only [resState] at hA
    have hB := fallbackPContent_maps_frame c text s1
    simp only [resState] at hB ⊢
    exact ⟨hB.1.trans hA.1, hB.2.trans hA.2⟩

theorem describeFallbackSection_maps_frame (c text : List Char) (s : PState) :
    (resState (describeFallbackSection c text s)).fallbackElements = s.fallbackElements
    ∧ (resState (describeFallbackSection c text s)).labelElements = s.labelElements := by
  unfold describeFallbackSection
  repeat' split
  all_goals
    first
      | exact ⟨rfl, rfl⟩
      | exact _describeFallbackHTML_maps_frame c text _

theorem describeCore_maps_frame (c text : List Char) (d : Display) (s : PState) :
    (resState (describeCore c text d s)).fallbackElements = s.fallbackElements
    ∧ (resState (describeCore c text d s)).labelElements = s.labelElements := by
  have hP := describePopulate_maps_frame c s
  have hF := describeFallbackSection_maps_frame c text (describePopulate c s)
  unfold describeCore
  cases hc : describeFallbackSection c text (describePopulate c s) with
  | err e sx =>
    rw [hc] at hF
    simp only [resState] at hF ⊢
    exact ⟨hF.1.trans hP.1, hF.2.trans hP.2⟩
  | ok s2 =>
    rw [hc] at hF
    simp only [resState] at hF
    have hL := describeLabelSection_maps_frame c text s2
    cases d with
    | LABEL =>
      simp only [reduceIte]
      exact ⟨by rw [hL.1, hF.1, hP.1], by rw [hL.2, hF.2, hP.2]⟩
    | FALLBACK =>
      simp only [reduceIte, resState]
      exact ⟨hF.1.trans hP.1, hF.2.trans hP.2⟩
    | undef =>
      simp only [reduceIte, resState]
      exact ⟨hF.1.trans hP.1, hF.2.trans hP.2⟩

theorem describe_maps_frame (c : List Char) (ta : JsArg) (d : Display) (s : PState) :
    (resState (describe c ta d s)).fallbackElements = s.fallbackElements
    ∧ (resState (describe c ta d s)).labelElements = s.labelElements := by
  unfold describe
  cases ta with
  | nonString => exact ⟨rfl, rfl⟩
  | str text0 =>
    cases hdt : _descriptionText text0 with
    | none => simp [resState, hdt]
    | some text =>
      simp only [hdt]
      exact describeCore_maps_frame c text d s

theorem elemCore_fb_keyed (c name inner : List Char) (d : Display) (kk : List Char)
    (s : PState) (hk : kk ≠ c ++ name) :
    getKey (resState (elemCore c name inner d s)).fallbackElements kk =
      getKey s.fallbackElements kk := by
  have hP := elemPopulate_maps_frame c name s
  have hF := elemFallbackSection_fb_keyed c name inner kk (elemPopulate c name s) hk
  unfold elemCore
  cases hc : elemFallbackSection c name inner (elemPopulate c name s) with
  | err e sx =>
    rw [hc] at hF
    simp only [resState] at hF ⊢
    rw [hF, hP.1]
  | ok s2 =>
    rw [hc] at hF
    simp only [resState] at hF
    cases d with
    | LABEL =>
      simp only [reduceIte]
      have hL := elemLabelSection_fb_frame c name inner s2
      rw [hL, hF, hP.1]
    | FALLBACK =>
      exact hF.trans (by rw [hP.1])
    | undef =>
      exact hF.trans (by rw [hP.1])

theorem elemCore_lbl_keyed (c name inner : List Char) (d : Display) (kk : List Char)
    (s : PState) (hk : kk ≠ c ++ name) :
    getKey (resState (elemCore c name inner d s)).labelElements kk =
      getKey s.labelElements kk := by
  have hP := elemPopulate_maps_frame c name s
  have hF := elemFallbackSection_lbl_frame c name inner (elemPopulate c name s)
  unfold elemCore
  cases hc : elemFallbackSection c name inner (elemPopulate c name s) with
  | err e sx =>
    rw [hc] at hF
    simp only [resState] at hF ⊢
    rw [hF, hP.2]
  | ok s2 =>
    rw [hc] at hF
    simp only [resState] at hF
    cases d with
    | LABEL =>
      simp only [reduceIte]
      have hL := elemLabelSection_lbl_keyed c name inner kk s2 hk
      rw [hL, hF, hP.2]
    | FALLBACK =>
      exact congrArg (fun mm => getKey mm kk) (hF.trans (by rw [hP.2]))
    | undef =>
      exact congrArg (fun mm => getKey mm kk) (hF.trans (by rw [hP.2]))

theorem describeElement_fb_keyed (c : List Char) (na ta : JsArg) (d : Display)
    (kk : List Char) (s : PState) (hk : ∀ nm : List Char, kk ≠ c ++ nm) :
    getKey (resState (describeElement c na ta d s)).fallbackElements kk =
      getKey s.fallbackElements kk := by
  unfold describeElement
  cases na with
  | nonString => cases ta <;> rfl
  | str name0 =>
    cases ta with
    | nonString => rfl
    | str text0 =>
      cases hdt : _descriptionText text0 with
      | none => simp [resState, hdt]
      | some text =>
        cases hen : _elementName name0 with
        | none => simp [resState, hdt, hen]
        | some en =>
          simp only [hdt, hen]
          exact elemCore_fb_keyed c (_nameForID name0) (rowInner en text) d kk s
            (hk (_nameForID name0))

theorem describeElement_lbl_keyed (c : List Char) (na ta : JsArg) (d : Display)
    (kk : List Char) (s : PState) (hk : ∀ nm : List Char, kk ≠ c ++ nm) :
    getKey (resState (describeElement c na ta d s)).labelElements kk =
      getKey s.labelElements kk := by
  unfold describeElement
  cases na with
  | nonString => cases ta <;> rfl
  | str name0 =>
    cases ta with
    | nonString => rfl
    | str text0 =>
      cases hdt : _descriptionText text0 with
      | none => simp [resState, hdt]
      | some text =>
        cases hen : _elementName name0 with
        | none => simp [resState, hdt, hen]
        | some en =>
          simp only [hdt, hen]
          exact elemCore_lbl_keyed c (_nameForID name0) (rowInner en text) d kk s
            (hk (_nameForID name0))

/-! When the display mode is not LABEL, the label sections never run. -/

theorem describeCore_store_frame_noLabel (c text : List Char) (d : Display)
    (hd : d ≠ Display.LABEL) (s : PState) (k : List Char) (hdom : k ≠ domKey c)
    (h1 : k ≠ fbTextKey c) (h2 : k ≠ c ++ descContainer) (h3 : k ≠ c ++ fallbackDescId) :
    getKey (resState (describeCore c text d s)).store k = getKey s.store k := by
  have hP := describePopulate_store_frame c s k hdom
  have hF := describeFallbackSection_store_frame c text (describePopulate c s) k h1 h2 h3
  unfold describeCore
  cases hc : describeFallbackSection c text (describePopulate c s) with
  | err e sx =>
    rw [hc] at hF
    simp only [resState] at hF ⊢
    exact hF.trans hP
  | ok s2 =>
    rw [hc] at hF
    simp only [resState] at hF
    simp only [resState, if_neg hd]
    exact hF.trans hP

theorem describe_store_frame_noLabel (c : List Char) (ta : JsArg) (d : Display)
    (hd : d ≠ Display.LABEL) (s : PState) (k : List Char) (hdom : k ≠ domKey c)
    (h1 : k ≠ fbTextKey c) (h2 : k ≠ c ++ descContainer) (h3 : k ≠ c ++ fallbackDescId) :
    getKey (resState (describe c ta d s)).store k = getKey s.store k := by
  unfold describe
  cases ta with
  | nonString => rfl
  | str text0 =>
    cases hdt : _descriptionText text0 with
    | none => simp [resState, hdt]
    | some text =>
      simp only [hdt]
      exact describeCore_store_frame_noLabel c text d hd s k hdom h1 h2 h3

theorem elemCore_store_frame_noLabel (c name inner : List Char) (d : Display)
    (hd : d ≠ Display.LABEL) (s : PState) (k : List Char) (hdom : k ≠ domKey c)
    (h1 : k ≠ c ++ descContainer) (h2 : k ≠ c ++ fallbackTableId) :
    getKey (resState (elemCore c name inner d s)).store k = getKey s.store k := by
  have hP := elemPopulate_store_frame c name s k hdom
  have hF := elemFallbackSection_store_frame c name inner (elemPopulate c name s) k h1 h2
  unfold elemCore
  cases hc : elemFallbackSection c name inner (elemPopulate c name s) with
  | err e sx =>
    rw [hc] at hF
    simp only [resState] at hF ⊢
    exact hF.trans hP
  | ok s2 =>
    rw [hc] at hF
    simp only [resState] at hF
    simp only [resState, if_neg hd]
    exact hF.trans hP

theorem describeElement_store_frame_noLabel (c : List Char) (na ta : JsArg) (d : Display)
    (hd : d ≠ Display.LABEL) (s : PState) (k : List Char) (hdom : k ≠ domKey c)
    (h1 : k ≠ c ++ descContainer) (h2 : k ≠ c ++ fallbackTableId) :
    getKey (resState (describeElement c na ta d s)).store k = getKey s.store k := by
  unfold describeElement
  cases na with
  | nonString => cases ta <;> rfl
  | str name0 =>
    cases ta with
    | nonString => rfl
    | str text0 =>
      cases hdt : _descriptionText text0 with
      | none => simp [resState, hdt]
      | some text =>
        cases hen : _elementName name0 with
        | none => simp [resState, hdt, hen]
        | some en =>
          simp only [hdt, hen]
          exact elemCore_store_frame_noLabel c (_nameForID name0) (rowInner en text) d hd
            s k hdom h1 h2

theorem elemCore_lbl_frame_noLabel (c name inner : List Char) (d : Display)
    (hd : d ≠ Display.LABEL) (s : PState) :
    (resState (elemCore c name inner d s)).labelElements = s.labelElements := by
  have hP := elemPopulate_maps_frame c name s
  have hF := elemFallbackSection_lbl_frame c name inner (elemPopulate c name s)
  unfold elemCore
  cases hc : elemFallbackSection c name inner (elemPopulate c name s) with
  | err e sx =>
    rw [hc] at hF
    simp only [resState] at hF ⊢
    rw [hF, hP.2]
  | ok s2 =>
    rw [hc] at hF
    simp only [resState] at hF
    simp only [resState, if_neg hd]
    rw [hF, hP.2]

theorem describeElement_lbl_frame_noLabel (c : List Char) (na ta : JsArg) (d : Display)
    (hd : d ≠ Display.LABEL) (s : PState) :
    (resState (describeElement c na ta d s)).labelElements = s.labelElements := by
  unfold describeElement
  cases na with
  | nonString => cases ta <;> rfl
  | str name0 =>
    cases ta with
    | nonString => rfl
    | str text0 =>
      cases hdt : _descriptionText text0 with
      | none => simp [resState, hdt]
      | some text =>
        cases hen : _elementName name0 with
        | none => simp [resState, hdt, hen]
        | some en =>
          simp only [hdt, hen]
          exact elemCore_lbl_frame_noLabel c (_nameForID name0) (rowInner en text) d hd s

theorem describeCore_filter_noLabel (P Q : List Char → Bool) (c text : List Char)
    (d : Display) (hd : d ≠ Display.LABEL) (s : PState)
    (hsep : sepUnder P Q s.body = true) (hPc : P c = true) (hQc : Q c = false)
    (hPfd : P (c ++ fallbackDescId) = true) (hQfd : Q (c ++ fallbackDescId) = false)
    (hQdc : Q (c ++ descContainer) = false) :
    (flat (resState (describeCore c text d s)).body).filter (fun m => Q m.id) =
      (flat s.body).filter (fun m => Q m.id) := by
  have hsp : (describePopulate c s).body = s.body := describePopulate_body c s
  have hA := describeFallbackSection_filter P Q c text (describePopulate c s)
    (by rw [hsp]; exact hsep) hPc hQc hPfd hQfd hQdc
  rw [hsp] at hA
  unfold describeCore
  cases hc : describeFallbackSection c text (describePopulate c s) with
  | err e sx =>
    rw [hc] at hA
    simp only [resState] at hA ⊢
    exact hA.1
  | ok s2 =>
    rw [hc] at hA
    simp only [resState] at hA
    simp only [resState, if_neg hd]
    exact hA.1

theorem describe_filter_noLabel (P Q : List Char → Bool) (c : List Char) (ta : JsArg)
    (d : Display) (hd : d ≠ Display.LABEL) (s : PState)
    (hsep : sepUnder P Q s.body = true) (hPc : P c = true) (hQc : Q c = false)
    (hPfd : P (c ++ fallbackDescId) = true) (hQfd : Q (c ++ fallbackDescId) = false)
    (hQdc : Q (c ++ descContainer) = false) :
    (flat (resState (describe c ta d s)).body).filter (fun m => Q m.id) =
      (flat s.body).filter (fun m => Q m.id) := by
  unfold describe
  cases ta with
  | nonString => rfl
  | str text0 =>
    cases hdt : _descriptionText text0 with
    | none => simp [resState, hdt]
    | some text =>
      simp only [hdt]
      exact describeCore_filter_noLabel P Q c text d hd s hsep hPc hQc hPfd hQfd hQdc

theorem elemCore_filter_noLabel (P Q : List Char → Bool) (c name inner : List Char)
    (d : Display) (hd : d ≠ Display.LABEL) (s : PState)
    (hsep : sepUnder P Q s.body = true) (hPc : P c = true) (hQc : Q c = false)
    (hQdc : Q (c ++ descContainer) = false) (hQft : Q (c ++ fallbackTableId) = false)
    (hQnil : Q [] = false) (hProwF : P (c ++ fallbackTableElId ++ name) = true)
    (hQrowF : Q (c ++ fallbackTableElId ++ name) = false) :
    (flat (resState (elemCore c name inner d s)).body).filter (fun m => Q m.id) =
      (flat s.body).filter (fun m => Q m.id) := by
  have hsp : (elemPopulate c name s).body = s.body := elemPopulate_body c name s
  have hA := elemFallbackSection_filter P Q c name inner (elemPopulate c name s)
    (by rw [hsp]; exact hsep) hPc hQc hQdc hQft hQnil hProwF hQrowF
  rw [hsp] at hA
  unfold elemCore
  cases hc : elemFallbackSection c name inner (elemPopulate c name s) with
  | err e sx =>
    rw [hc] at hA
    simp only [resState] at hA ⊢
    exact hA.1
  | ok s2 =>
    rw [hc] at hA
    simp only [resState] at hA
    simp only [resState, if_neg hd]
    exact hA.1

theorem describeElement_filter_noLabel (P Q : List Char → Bool) (c : List Char)
    (na ta : JsArg) (d : Display) (hd : d ≠ Display.LABEL) (s : PState)
    (hsep : sepUnder P Q s.body = true) (hPc : P c = true) (hQc : Q c = false)
    (hQdc : Q (c ++ descContainer) = false) (hQft : Q (c ++ fallbackTableId) = false)
    (hQnil : Q [] = false)
    (hProwF : ∀ nm : List Char, P (c ++ fallbackTableElId ++ nm) = true)
    (hQrowF : ∀ nm : List Char, Q (c ++ fallbackTableElId ++ nm) = false) :
    (flat (resState (describeElement c na ta d s)).body).filter (fun m => Q m.id) =
      (flat s.body).filter (fun m => Q m.id) := by
  unfold describeElement
  cases na with
  | nonString => cases ta <;> rfl
  | str name0 =>
    cases ta with
    | nonString => rfl
    | str text0 =>
      cases hdt : _descriptionText text0 with
      | none => simp [resState, hdt]
      | some text =>
        cases hen : _elementName name0 with
        | none => simp [resState, hdt, hen]
        | some en =>
          simp only [hdt, hen]
          exact elemCore_filter_noLabel P Q c (_nameForID name0) (rowInner en text) d hd
            s hsep hPc hQc hQdc hQft hQnil (hProwF _) (hQrowF _)

theorem describe_filter_all (P Q : List Char → Bool) (c : List Char) (ta : JsArg)
    (d : Display) (s : PState) (hsep : sepUnder P Q s.body = true)
    (hPc : P c = true) (hQc : Q c = false)
    (hPfd : P (c ++ fallbackDescId) = true) (hQfd : Q (c ++ fallbackDescId) = false)
    (hQdc : Q (c ++ descContainer) = false)
    (hPld : P (c ++ labelDescId) = true) (hQld : Q (c ++ labelDescId) = false)
    (hQlc : Q (c ++ labelContainer) = false) :
    (flat (resState (describe c ta d s)).body).filter (fun m => Q m.id) =
      (flat s.body).filter (fun m => Q m.id) := by
  unfold describe
  cases ta with
  | nonString => rfl
  | str text0 =>
    cases hdt : _descriptionText text0 with
    | none => simp [resState, hdt]
    | some text =>
      simp only [hdt]
      exact describeCore_filter P Q c text d s hsep hPc hQc hPfd hQfd hQdc hPld hQld hQlc

theorem describeElement_filter_all (P Q : List Char → Bool) (c : List Char)
    (na ta : JsArg) (d : Display) (s : PState) (hsep : sepUnder P Q s.body = true)
    (hPc : P c = true) (hQc : Q c = false)
    (hQdc : Q (c ++ descContainer) = false) (hQft : Q (c ++ fallbackTableId) = false)
    (hQnil : Q [] = false)
    (hProwF : ∀ nm : List Char, P (c ++ fallbackTableElId ++ nm) = true)
    (hQrowF : ∀ nm : List Char, Q (c ++ fallbackTableElId ++ nm) = false)
    (hQlc : Q (c ++ labelContainer) = false) (hQlt : Q (c ++ labelTableId) = false)
    (hProwL : ∀ nm : List Char, P (c ++ labelTableElId ++ nm) = true)
    (hQrowL : ∀ nm : List Char, Q (c ++ labelTableElId ++ nm) = false) :
    (flat (resState (describeElement c na ta d s)).body).filter (fun m => Q m.id) =
      (flat s.body).filter (fun m => Q m.id) := by
  unfold describeElement
  cases na with
  | nonString => cases ta <;> rfl
  | str name0 =>
    cases ta with
    | nonString => rfl
    | str text0 =>
      cases hdt : _descriptionText text0 with
      | none => simp [resState, hdt]
      | some text =>
        cases hen : _elementName name0 with
        | none => simp [resState, hdt, hen]
        | some en =>
          simp only [hdt, hen]
          exact elemCore_filter P Q c (_nameForID name0) (rowInner en text) d s hsep
            hPc hQc hQdc hQft hQnil (hProwF _) (hQrowF _) hQlc hQlt (hProwL _) (hQrowL _)

/-- C4 (amended): publishing on surface `A` leaves every structure of surface `B`
untouched PROVIDED the two surface ids are prefix-free (neither is a string
prefix of the other) and no `B`-prefixed document node sits inside a subtree
the `A` paths may rewrite; with the ids keyed by bare concatenation, a surface
id that extends another (such as `"a"` and `"ab"`) violates the claim, as the
counterexample shows. Under prefix-freeness, every store key, both element-map
entries at any `B`-keyed entry, and every `B`-prefixed document node survive
any `describe` or `describeElement` call on `A` unchanged. -/
theorem c4_cross_surface_frame (A B : List Char) (hAB : A.isPrefixOf B = false)
    (hBA : B.isPrefixOf A = false) (s : PState)
    (hsep : sepUnder (surfacePrefixed A) (surfacePrefixed B) s.body = true)
    (ta na : JsArg) (d : Display) (k : List Char) :
    (getKey (resState (describe A ta d s)).store (B ++ k) = getKey s.store (B ++ k)
      ∧ getKey (resState (describe A ta d s)).fallbackElements (B ++ k) =
          getKey s.fallbackElements (B ++ k)
      ∧ getKey (resState (describe A ta d s)).labelElements (B ++ k) =
          getKey s.labelElements (B ++ k)
      ∧ (flat (resState (describe A ta d s)).body).filter
            (fun m => surfacePrefixed B m.id) =
          (flat s.body).filter (fun m => surfacePrefixed B m.id))
    ∧ (getKey (resState (describeElement A na ta d s)).store (B ++ k) =
          getKey s.store (B ++ k)
      ∧ getKey (resState (describeElement A na ta d s)).fallbackElements (B ++ k) =
          getKey s.fallbackElements (B ++ k)
      ∧ getKey (resState (describeElement A na ta d s)).labelElements (B ++ k) =
          getKey s.labelElements (B ++ k)
      ∧ (flat (resState (describeElement A na ta d s)).body).filter
            (fun m => surfacePrefixed B m.id) =
          (flat s.body).filter (fun m => surfacePrefixed B m.id)) := by
  have h1 : ¬ A <+: B := not_prefix_of_isPrefixOf_false hAB
  have h2 : ¬ B <+: A := not_prefix_of_isPrefixOf_false hBA
  have hne : ∀ x y : List Char, B ++ x ≠ A ++ y := fun x y =>
    ne_append_of_prefix_free h2 h1 x y
  have hQapp : ∀ x : List Char, surfacePrefixed B (A ++ x) = false := fun x =>
    isPrefixOf_false_of_not_prefix (not_prefix_of_append h1 h2 x)
  have hBne : B ≠ [] := fun hB => h2 (hB ▸ List.nil_prefix)
  have hQnil : surfacePrefixed B [] = false := isPrefixOf_nil_false B hBne
  have hmapsD := describe_maps_frame A ta d s
  refine ⟨⟨?_, ?_, ?_, ?_⟩, ?_, ?_, ?_, ?_⟩
  · exact describe_store_frame A ta d s (B ++ k) (hne k (cstr "DOM"))
      (hne k (cstr "fallbackDesc")) (hne k descContainer) (hne k fallbackDescId)
      (hne k (cstr "labelDesc")) (hne k labelContainer) (hne k labelDescId)
  · exact congrArg (fun mm => getKey mm (B ++ k)) hmapsD.1
  · exact congrArg (fun mm => getKey mm (B ++ k)) hmapsD.2
  · exact describe_filter_all (surfacePrefixed A) (surfacePrefixed B) A ta d s hsep
      (surfacePrefixed_self A) hBA (surfacePrefixed_append A fallbackDescId)
      (hQapp fallbackDescId) (hQapp descContainer)
      (surfacePrefixed_append A labelDescId) (hQapp labelDescId) (hQapp labelContainer)
  · exact describeElement_store_frame A na ta d s (B ++ k) (hne k (cstr "DOM"))
      (hne k descContainer) (hne k fallbackTableId) (hne k labelContainer)
      (hne k labelTableId)
  · exact describeElement_fb_keyed A na ta d (B ++ k) s (fun nm => hne k nm)
  · exact describeElement_lbl_keyed A na ta d (B ++ k) s (fun nm => hne k nm)
  · exact describeElement_filter_all (surfacePrefixed A) (surfacePrefixed B) A na ta d s
      hsep (surfacePrefixed_self A) hBA (hQapp descContainer) (hQapp fallbackTableId)
      hQnil
      (fun nm => by rw [List.append_assoc]; exact surfacePrefixed_append A _)
      (fun nm => by rw [List.append_assoc]; exact hQapp _)
      (hQapp labelContainer) (hQapp labelTableId)
      (fun nm => by rw [List.append_assoc]; exact surfacePrefixed_append A _)
      (fun nm => by rw [List.append_assoc]; exact hQapp _)

/-- Closed instance of the amended cross-surface frame property: surfaces
`"a"` and `"b"` are prefix-free, the fresh two-canvas document separates them,
and a `describe` plus a `describeElement` call on `"a"` leave every `"b"`-keyed
entry and every `"b"`-prefixed node unchanged. -/
theorem c4_cross_surface_frame_witness :
    (cstr "a").isPrefixOf (cstr "b") = false
    ∧ (cstr "b").isPrefixOf (cstr "a") = false
    ∧ sepUnder (surfacePrefixed (cstr "a")) (surfacePrefixed (cstr "b"))
        (initState [cstr "a", cstr "b"]).body = true
    ∧ ((getKey (resState (describe (cstr "a") (.str (cstr "hi")) .undef
            (initState [cstr "a", cstr "b"]))).store (cstr "b" ++ cstr "x") =
          getKey (initState [cstr "a", cstr "b"]).store (cstr "b" ++ cstr "x")
        ∧ getKey (resState (describe (cstr "a") (.str (cstr "hi")) .undef
              (initState [cstr "a", cstr "b"]))).fallbackElements
              (cstr "b" ++ cstr "x") =
            getKey (initState [cstr "a", cstr "b"]).fallbackElements
              (cstr "b" ++ cstr "x")
        ∧ getKey (resState (describe (cstr "a") (.str (cstr "hi")) .undef
              (initState [cstr "a", cstr "b"]))).labelElements (cstr "b" ++ cstr "x") =
            getKey (initState [cstr "a", cstr "b"]).labelElements (cstr "b" ++ cstr "x")
        ∧ (flat (resState (describe (cstr "a") (.str (cstr "hi")) .undef
                (initState [cstr "a", cstr "b"]))).body).filter
              (fun m => surfacePrefixed (cstr "b") m.id) =
            (flat (initState [cstr "a", cstr "b"]).body).filter
              (fun m => surfacePrefixed (cstr "b") m.id))
      ∧ (getKey (resState (describeElement (cstr "a") (.str (cstr "E"))
              (.str (cstr "hi")) .undef (initState [cstr "a", cstr "b"]))).store
              (cstr "b" ++ cstr "x") =
            getKey (initState [cstr "a", cstr "b"]).store (cstr "b" ++ cstr "x")
        ∧ getKey (resState (describeElement (cstr "a") (.str (cstr "E"))
              (.str (cstr "hi")) .undef
              (initState [cstr "a", cstr "b"]))).fallbackElements
              (cstr "b" ++ cstr "x") =
            getKey (initState [cstr "a", cstr "b"]).fallbackElements
              (cstr "b" ++ cstr "x")
        ∧ getKey (resState (describeElement (cstr "a") (.str (cstr "E"))
              (.str (cstr "hi")) .undef (initState [cstr "a", cstr "b"]))).labelElements
              (cstr "b" ++ cstr "x") =
            getKey (initState [cstr "a", cstr "b"]).labelElements (cstr "b" ++ cstr "x")
        ∧ (flat (resState (describeElement (cstr "a") (.str (cstr "E"))
                (.str (cstr "hi")) .undef (initState [cstr "a", cstr "b"]))).body).filter
              (fun m => surfacePrefixed (cstr "b") m.id) =
            (flat (initState [cstr "a", cstr "b"]).body).filter
              (fun m => surfacePrefixed (cstr "b") m.id))) :=
  ⟨by decide, by decide, by decide,
    c4_cross_surface_frame (cstr "a") (cstr "b") (by decide) (by decide)
      (initState [cstr "a", cstr "b"]) (by decide) (.str (cstr "hi"))
      (.str (cstr "E")) .undef (cstr "x")⟩

/-- C5: with the display mode anything other than LABEL, `describe` and
`describeElement` on surface `c` leave the whole visible-label region of `c`
untouched: the stored label text and the label container, paragraph and table
flags keep their values, the `labelElements` map is unchanged, and every
document node in the label region survives — provided no label-region node
sits inside a subtree the fallback path may rewrite (in the real document the
label region is a sibling of the canvas, not a descendant). -/
theorem c5_nonlabel_preserves_label_region (c : List Char) (ta na : JsArg)
    (d : Display) (hd : d ≠ Display.LABEL) (s : PState)
    (hsep : sepUnder (fallbackWipeId c) (labelRegionId c) s.body = true) :
    (getKey (resState (describe c ta d s)).store (lblTextKey c) =
        getKey s.store (lblTextKey c)
      ∧ getKey (resState (describe c ta d s)).store (c ++ labelContainer) =
          getKey s.store (c ++ labelContainer)
      ∧ getKey (resState (describe c ta d s)).store (c ++ labelDescId) =
          getKey s.store (c ++ labelDescId)
      ∧ getKey (resState (describe c ta d s)).store (c ++ labelTableId) =
          getKey s.store (c ++ labelTableId)
      ∧ (resState (describe c ta d s)).labelElements = s.labelElements
      ∧ (flat (resState (describe c ta d s)).body).filter
            (fun m => labelRegionId c m.id) =
          (flat s.body).filter (fun m => labelRegionId c m.id))
    ∧ (getKey (resState (describeElement c na ta d s)).store (lblTextKey c) =
          getKey s.store (lblTextKey c)
      ∧ getKey (resState (describeElement c na ta d s)).store (c ++ labelContainer) =
          getKey s.store (c ++ labelContainer)
      ∧ getKey (resState (describeElement c na ta d s)).store (c ++ labelDescId) =
          getKey s.store (c ++ labelDescId)
      ∧ getKey (resState (describeElement c na ta d s)).store (c ++ labelTableId) =
          getKey s.store (c ++ labelTableId)
      ∧ (resState (describeElement c na ta d s)).labelElements = s.labelElements
      ∧ (flat (resState (describeElement c na ta d s)).body).filter
            (fun m => labelRegionId c m.id) =
          (flat s.body).filter (fun m => labelRegionId c m.id)) := by
  have hmapsD := describe_maps_frame c ta d s
  refine ⟨⟨?_, ?_, ?_, ?_, hmapsD.2, ?_⟩, ?_, ?_, ?_, ?_,
    describeElement_lbl_frame_noLabel c na ta d hd s, ?_⟩
  · exact describe_store_frame_noLabel c ta d hd s (lblTextKey c)
      (append_ne_of_ne c (by decide)) (append_ne_of_ne c (by decide))
      (append_ne_of_ne c (by decide)) (append_ne_of_ne c (by decide))
  · exact describe_store_frame_noLabel c ta d hd s (c ++ labelContainer)
      (append_ne_of_ne c (by decide)) (append_ne_of_ne c (by decide))
      (append_ne_of_ne c (by decide)) (append_ne_of_ne c (by decide))
  · exact describe_store_frame_noLabel c ta d hd s (c ++ labelDescId)
      (append_ne_of_ne c (by decide)) (append_ne_of_ne c (by decide))
      (append_ne_of_ne c (by decide)) (append_ne_of_ne c (by decide))
  · exact describe_store_frame_noLabel c ta d hd s (c ++ labelTableId)
      (append_ne_of_ne c (by decide)) (append_ne_of_ne c (by decide))
      (append_ne_of_ne c (by decide)) (append_ne_of_ne c (by decide))
  · exact describe_filter_noLabel (fallbackWipeId c) (labelRegionId c) c ta d hd s hsep
      (fallbackWipeId_self c) (labelRegionId_self c) (fallbackWipeId_fd c)
      (by rw [labelRegionId_append]; rfl) (by rw [labelRegionId_append]; rfl)
  · exact describeElement_store_frame_noLabel c na ta d hd s (lblTextKey c)
      (append_ne_of_ne c (by decide)) (append_ne_of_ne c (by decide))
      (append_ne_of_ne c (by decide))
  · exact describeElement_store_frame_noLabel c na ta d hd s (c ++ labelContainer)
      (append_ne_of_ne c (by decide)) (append_ne_of_ne c (by decide))
      (append_ne_of_ne c (by decide))
  · exact describeElement_store_frame_noLabel c na ta d hd s (c ++ labelDescId)
      (append_ne_of_ne c (by decide)) (append_ne_of_ne c (by decide))
      (append_ne_of_ne c (by decide))
  · exact describeElement_store_frame_noLabel c na ta d hd s (c ++ labelTableId)
      (append_ne_of_ne c (by decide)) (append_ne_of_ne c (by decide))
      (append_ne_of_ne c (by decide))
  · exact describeElement_filter_noLabel (fallbackWipeId c) (labelRegionId c) c na ta d
      hd s hsep (fallbackWipeId_self c) (labelRegionId_self c)
      (by rw [labelRegionId_append]; rfl) (by rw [labelRegionId_append]; rfl)
      (labelRegionId_nil c)
      (fun nm => fallbackWipeId_row c nm)
      (fun nm => by rw [List.append_assoc, labelRegionId_append]; rfl)

/-- Closed instance of the non-LABEL label-region frame property: on the fresh
one-canvas document, a FALLBACK-mode `describe` and `describeElement` on
surface `"c"` leave every label-region key, the `labelElements` map and the
label-region nodes unchanged. -/
theorem c5_nonlabel_preserves_label_region_witness :
    Display.FALLBACK ≠ Display.LABEL
    ∧ sepUnder (fallbackWipeId (cstr "c")) (labelRegionId (cstr "c"))
        (initState [cstr "c"]).body = true
    ∧ ((getKey (resState (describe (cstr "c") (.str (cstr "hi")) .FALLBACK
            (initState [cstr "c"]))).store (lblTextKey (cstr "c")) =
          getKey (initState [cstr "c"]).store (lblTextKey (cstr "c"))
        ∧ getKey (resState (describe (cstr "c") (.str (cstr "hi")) .FALLBACK
              (initState [cstr "c"]))).store (cstr "c" ++ labelContainer) =
            getKey (initState [cstr "c"]).store (cstr "c" ++ labelContainer)
        ∧ getKey (resState (describe (cstr "c") (.str (cstr "hi")) .FALLBACK
              (initState [cstr "c"]))).store (cstr "c" ++ labelDescId) =
            getKey (initState [cstr "c"]).store (cstr "c" ++ labelDescId)
        ∧ getKey (resState (describe (cstr "c") (.str (cstr "hi")) .FALLBACK
              (initState [cstr "c"]))).store (cstr "c" ++ labelTableId) =
            getKey (initState [cstr "c"]).store (cstr "c" ++ labelTableId)
        ∧ (resState (describe (cstr "c") (.str (cstr "hi")) .FALLBACK
              (initState [cstr "c"]))).labelElements =
            (initState [cstr "c"]).labelElements
        ∧ (flat (resState (describe (cstr "c") (.str (cstr "hi")) .FALLBACK
                (initState [cstr "c"]))).body).filter
              (fun m => labelRegionId (cstr "c") m.id) =
            (flat (initState [cstr "c"]).body).filter
              (fun m => labelRegionId (cstr "c") m.id))
      ∧ (getKey (resState (describeElement (cstr "c") (.str (cstr "E"))
              (.str (cstr "hi")) .FALLBACK (initState [cstr "c"]))).store
              (lblTextKey (cstr "c")) =
            getKey (initState [cstr "c"]).store (lblTextKey (cstr "c"))
        ∧ getKey (resState (describeElement (cstr "c") (.str (cstr "E"))
              (.str (cstr "hi")) .FALLBACK (initState [cstr "c"]))).store
              (cstr "c" ++ labelContainer) =
            getKey (initState [cstr "c"]).store (cstr "c" ++ labelContainer)
        ∧ getKey (resState (describeElement (cstr "c") (.str (cstr "E"))
              (.str (cstr "hi")) .FALLBACK (initState [cstr "c"]))).store
              (cstr "c" ++ labelDescId) =
            getKey (initState [cstr "c"]).store (cstr "c" ++ labelDescId)
        ∧ getKey (resState (describeElement (cstr "c") (.str (cstr "E"))
              (.str (cstr "hi")) .FALLBACK (initState [cstr "c"]))).store
              (cstr "c" ++ labelTableId) =
            getKey (initState [cstr "c"]).store (cstr "c" ++ labelTableId)
        ∧ (resState (describeElement (cstr "c") (.str (cstr "E"))
              (.str (cstr "hi")) .FALLBACK (initState [cstr "c"]))).labelElements =
            (initState [cstr "c"]).labelElements
        ∧ (flat (resState (describeElement (cstr "c") (.str (cstr "E"))
                (.str (cstr "hi")) .FALLBACK (initState [cstr "c"]))).body).filter
              (fun m => labelRegionId (cstr "c") m.id) =
            (flat (initState [cstr "c"]).body).filter
              (fun m => labelRegionId (cstr "c") m.id))) :=
  ⟨by decide, by decide,
    c5_nonlabel_preserves_label_region (cstr "c") (.str (cstr "hi")) (.str (cstr "E"))
      .FALLBACK (by decide) (initState [cstr "c"]) (by decide)⟩

end P5
